import Mathlib

/-!
Verification of the `reviewpad/go-conventionalcommits` parser
(`parser/machine.go`, the Ragel-generated finite-state recognizer for
Conventional Commit messages).

The Go machine is embedded shallowly: the parser's mutable struct becomes the
state record `CC.St`, every generated `stCaseN` switch arm becomes an arm of
`CC.stepCase`, the `_testEof` switch becomes `CC.eofSwitch`, and the
goto-driven exec loop becomes the fuel-indexed driver `CC.mrun`.  Go `int`
fields are modelled as `Int`, byte buffers and Go strings as `List Nat`
(byte lists; Go strings are raw byte sequences).  Array indexing and slicing
are partial (`Option`), with `none` propagated as the `oops` outcome so that a
Go panic (index out of range) is observable in the model.
-/

set_option maxRecDepth 8000

namespace CC

/-- Bytes of a 7-bit ASCII literal (all string literals in the source are ASCII). -/
def asciiBytes (s : String) : List Nat := s.data.map (fun c => c.toNat)

/-- Go `string(b)` for one byte value `b ∈ [0,255]`: the UTF-8 encoding of the
code point `b` (identity below 128, two bytes above). -/
def utf8OfByte (b : Nat) : List Nat :=
  if b < 128 then [b] else [192 + b / 64, 128 + b % 64]

/-- Go `fmt` verb `%02d`: decimal, zero padded to a minimum width of two. -/
def pad2 (n : Int) : List Nat :=
  if 0 ≤ n ∧ n < 10 then asciiBytes "0" ++ asciiBytes (toString n)
  else asciiBytes (toString n)

/-- `ColumnPositionTemplate` (`": col=%02d"`) rendered at column `n`: the suffix
appended to every diagnostic. -/
def colSuffix (n : Int) : List Nat := asciiBytes ": col=" ++ pad2 n

/-- `ErrEmpty` rendered with the column argument. -/
def errEmptyS (p : Int) : List Nat := asciiBytes "empty input" ++ colSuffix p

/-- `ErrType` rendered with the character and column arguments. -/
def errTypeS (c : Nat) (p : Int) : List Nat :=
  asciiBytes "illegal '" ++ utf8OfByte c ++
    asciiBytes "' character in commit message type" ++ colSuffix p

/-- `ErrTypeIncomplete` rendered. -/
def errTypeIncompleteS (c : Nat) (p : Int) : List Nat :=
  asciiBytes "incomplete commit message type after '" ++ utf8OfByte c ++
    asciiBytes "' character" ++ colSuffix p

/-- `ErrColon` rendered. -/
def errColonS (c : Nat) (p : Int) : List Nat :=
  asciiBytes "expecting colon (':') character, got '" ++ utf8OfByte c ++
    asciiBytes "' character" ++ colSuffix p

/-- `ErrScope` rendered. -/
def errScopeS (c : Nat) (p : Int) : List Nat :=
  asciiBytes "illegal '" ++ utf8OfByte c ++ asciiBytes "' character in scope" ++ colSuffix p

/-- `ErrScopeIncomplete` rendered. -/
def errScopeIncompleteS (c : Nat) (p : Int) : List Nat :=
  asciiBytes "expecting closing parentheses (')') character, got early exit after '" ++
    utf8OfByte c ++ asciiBytes "' character" ++ colSuffix p

/-- `ErrEarly` rendered. -/
def errEarlyS (c : Nat) (p : Int) : List Nat :=
  asciiBytes "early exit after '" ++ utf8OfByte c ++ asciiBytes "' character" ++ colSuffix p

/-- `ErrDescriptionInit` rendered. -/
def errDescriptionInitS (c : Nat) (p : Int) : List Nat :=
  asciiBytes "expecting at least one white-space (' ') character, got '" ++
    utf8OfByte c ++ asciiBytes "' character" ++ colSuffix p

/-- `ErrDescription` rendered. -/
def errDescriptionS (c : Nat) (p : Int) : List Nat :=
  asciiBytes "expecting a description text (without newlines) after '" ++
    utf8OfByte c ++ asciiBytes "' character" ++ colSuffix p

/-- `ErrNewline` rendered. -/
def errNewlineS (p : Int) : List Nat := asciiBytes "illegal newline" ++ colSuffix p

/-- `ErrMissingBlankLineAtBeginning` rendered. -/
def errMissingBlankLineS (p : Int) : List Nat :=
  asciiBytes "missing a blank line" ++ colSuffix p

/-- `ErrTrailer` rendered. -/
def errTrailerS (c : Nat) (p : Int) : List Nat :=
  asciiBytes "illegal '" ++ utf8OfByte c ++ asciiBytes "' character in trailer" ++ colSuffix p

/-- `ErrTrailerIncomplete` rendered. -/
def errTrailerIncompleteS (c : Nat) (p : Int) : List Nat :=
  asciiBytes "incomplete footer trailer after '" ++ utf8OfByte c ++
    asciiBytes "' character" ++ colSuffix p

/-- The three values of `conventionalcommits.TypeConfig` selecting the entry state. -/
inductive TypeConfig where
  | TypesMinimal
  | TypesConventional
  | TypesFreeForm
deriving DecidableEq

/-- The parser state: the fields of the Go `machine` struct
(`data`, `cs`, `p`, `pe`, `eof`, `pb`, `err`, `bestEffort`, `typeConfig`,
`currentFooterKey`, `countNewlines`, `lastNewline`) together with the fields of
the `output` record (`_type`, `scope`, `exclamation`, `descr`, `body`,
`footers`) that `Parse` builds.  `scope` is an `Option` so that the
distinction between "never assigned" and "assigned the empty string" is
observable; `footers` is an insertion-ordered association list standing for the
Go `map[string][]string`. -/
structure St where
  data : List Nat
  cs : Nat
  p : Int
  pe : Int
  eof : Int
  pb : Int
  err : Option (List Nat)
  bestEffort : Bool
  typeConfig : TypeConfig
  currentFooterKey : List Nat
  countNewlines : Int
  lastNewline : Int
  otype : List Nat
  scope : Option (List Nat)
  exclamation : Bool
  descr : List Nat
  body : List Nat
  footers : List (List Nat × List (List Nat))
deriving DecidableEq

/-- `m.data[i]`, partial: `none` models a Go index-out-of-range panic. -/
def byteAt (d : List Nat) (i : Int) : Option Nat :=
  if i < 0 then none else d.get? i.toNat

/-- `m.text()` = `m.data[m.pb:m.p]`, partial: `none` models a Go slice-bounds panic. -/
def textSlice (d : List Nat) (pb p : Int) : Option (List Nat) :=
  if 0 ≤ pb ∧ pb ≤ p ∧ p ≤ (d.length : Int) then
    some ((d.take p.toNat).drop pb.toNat)
  else none

/-- Ragel `alnum`: `[0-9A-Za-z]`. -/
def isAlnum (b : Nat) : Bool :=
  decide ((48 ≤ b ∧ b ≤ 57) ∨ (65 ≤ b ∧ b ≤ 90) ∨ (97 ≤ b ∧ b ≤ 122))

/-- Ragel `print`: bytes `0x20 .. 0x7E`. -/
def isPrintable (b : Nat) : Bool := decide (32 ≤ b ∧ b ≤ 126)

/-- The bytes accepted inside a scope: `print` minus `(` (40) and `)` (41),
exactly the two range checks of the generated `stCase10`/`stCase11`. -/
def isScopeByte (b : Nat) : Bool :=
  decide ((32 ≤ b ∧ b ≤ 39) ∨ (42 ≤ b ∧ b ≤ 126))

/-- ASCII lowercasing of a byte list.  The Go source calls `bytes.ToLower`,
which agrees with this on ASCII input; the machine only ever passes trailer
tokens, which the grammar restricts to `[0-9A-Za-z-]` and the literal
`BREAKING CHANGE`, all ASCII. -/
def toLowerAscii (t : List Nat) : List Nat :=
  t.map (fun b => if 65 ≤ b ∧ b ≤ 90 then b + 32 else b)

/-- `output.footers[k] = append(output.footers[k], v)` on the association-list
model of the Go map: appends `v` to the value list at key `k`, creating the
key if absent. -/
def addFooter (fs : List (List Nat × List (List Nat))) (k v : List Nat) :
    List (List Nat × List (List Nat)) :=
  match fs with
  | [] => [(k, [v])]
  | (k', vs) :: rest =>
    if k' = k then (k', vs ++ [v]) :: rest else (k', vs) :: addFooter rest k v

/-- Value list stored at key `k` (empty when the key is absent), i.e. the Go
map lookup `fs[k]`. -/
def lookupFooter (fs : List (List Nat × List (List Nat))) (k : List Nat) :
    List (List Nat) :=
  match fs with
  | [] => []
  | (k', vs) :: rest => if k' = k then vs else lookupFooter rest k

/-- Result of executing one generated `stCaseN` arm: transfer to another state
(the driver then performs the `p++` of the target's `stN` label), halt via
`goto st0`, or panic. -/
inductive StepRes where
  | next (s : St)
  | halt (s : St)
  | oops
deriving DecidableEq

/-- Result of the `_testEof` switch: fall through to `_out`, or re-enter the
exec loop (an action containing `goto st34` / `goto st87`), or panic. -/
inductive EofRes where
  | done (s : St)
  | cont (s : St)
  | oops
deriving DecidableEq

/-- Result of a whole run: final machine state, panic, or fuel exhaustion. -/
inductive RunRes where
  | ok (s : St)
  | oops
  | fuelOut
deriving DecidableEq

/-- The states whose `stN` label begins with the `check_early_exit` action
(`if (m.p+1) == m.pe { m.err = m.emitErrorOnCurrentCharacter(ErrEarly) }`). -/
def checkEarlySet (t : Nat) : Bool :=
  decide (t = 5 ∨ t = 6 ∨ t = 7 ∨ t = 12 ∨ t = 40 ∨ t = 41 ∨ t = 42 ∨ t = 47 ∨
          t = 77 ∨ t = 78 ∨ t = 79 ∨ t = 84)

/-- `goto stT` from a transition whose current byte is `b`: runs the target's
entry action (`check_early_exit` for the states in `checkEarlySet`), after
which the driver will increment `p`. -/
def gotoSt (s : St) (b : Nat) (t : Nat) : StepRes :=
  .next { s with
    cs := t,
    err := if checkEarlySet t ∧ s.p + 1 = s.pe then some (errEarlyS b s.p)
           else s.err }

/-- `tr0` / the `err_type` action followed by `goto st0`. -/
def tr0 (s : St) (b : Nat) : StepRes :=
  if s.pe > 0 then
    if s.p ≠ s.pe then .halt { s with cs := 0, err := some (errTypeS b s.p) }
    else
      match byteAt s.data (s.p - 1) with
      | none => .oops
      | some c => .halt { s with cs := 0, err := some (errTypeIncompleteS c s.p) }
  else .halt { s with cs := 0 }

/-- `tr6` / the `err_colon` action followed by `goto st0`: only records the
colon diagnostic when no earlier error has been captured. -/
def tr6 (s : St) (b : Nat) : StepRes :=
  .halt { s with
    cs := 0,
    err := if s.err = none then some (errColonS b s.p) else s.err }

/-- `tr10` / the `err_description_init` action followed by `goto st0`. -/
def tr10 (s : St) (b : Nat) : StepRes :=
  .halt { s with
    cs := 0,
    err := if s.err = none then some (errDescriptionInitS b s.p) else s.err }

/-- `tr13` / the `err_description` action followed by `goto st0`. -/
def tr13 (s : St) (b : Nat) : StepRes :=
  if s.p < s.pe ∧ b = 10 then
    .halt { s with cs := 0, err := some (errNewlineS (s.p + 1)) }
  else
    match byteAt s.data (s.p - 1) with
    | none => .oops
    | some c => .halt { s with cs := 0, err := some (errDescriptionS c s.p) }

/-- `tr14` / the `err_begin_blank_line` action followed by `goto st0`. -/
def tr14 (s : St) : StepRes :=
  .halt { s with cs := 0, err := some (errMissingBlankLineS s.p) }

/-- `tr16` / the `err_malformed_scope` action followed by `goto st0`. -/
def tr16 (s : St) (b : Nat) : StepRes :=
  .halt { s with
    cs := 0,
    err := if s.p < s.pe then some (errScopeS b s.p) else s.err }

/-- `tr21` / the `rewind` action.  With no footer yet emitted the speculatively
consumed bytes are re-parsed as body: `pb` is pre-advanced to
`lastNewline + 1` when `countNewlines > 0`, the cursor is set to `pb - 1`, and
control jumps to the body sub-machine (state 34; the driver then performs the
`p++` of the `st34` label).  With at least one footer emitted the parse fails
with `ErrTrailer` at the current byte (when `p ≠ pe`) or `ErrTrailerIncomplete`
at EOF. -/
def rewindA (s : St) : StepRes :=
  if s.footers = [] then
    let pb' := if s.countNewlines > 0 then s.lastNewline + 1 else s.pb
    .next { s with pb := pb', p := pb' - 1, cs := 34 }
  else
    if s.p ≠ s.pe then
      match byteAt s.data s.p with
      | none => .oops
      | some c => .halt { s with cs := 0, err := some (errTrailerS c s.p) }
    else
      match byteAt s.data (s.p - 1) with
      | none => .oops
      | some c => .halt { s with cs := 0, err := some (errTrailerIncompleteS c s.p) }

/-- The `set_type` action (`output._type = string(m.text())`), which the
generated code runs at the top of `stCase5`, `stCase40` and `stCase77`. -/
def setTypeThen (s : St) (k : St → StepRes) : StepRes :=
  match textSlice s.data s.pb s.p with
  | none => .oops
  | some t => k { s with otype := t }

/-- The `set_current_footer_key` action followed by `goto stT`: lowercase the
token, canonicalize `"breaking change"` to `"breaking-change"`. -/
def setFooterKey (s : St) (t : Nat) : StepRes :=
  match textSlice s.data s.pb s.p with
  | none => .oops
  | some tok =>
    let k0 := toLowerAscii tok
    let k1 := if k0 = asciiBytes "breaking change" then asciiBytes "breaking-change" else k0
    .next { s with currentFooterKey := k1, cs := t }

/-- The `append_body` action: emit one `\n` per counted newline, reset the
counter, then append `m.text()` to the body. -/
def appendBodyO (s : St) : Option St :=
  let s1 := { s with body := s.body ++ List.replicate s.countNewlines.toNat 10,
                     countNewlines := 0 }
  (textSlice s1.data s1.pb s1.p).map (fun t => { s1 with body := s1.body ++ t })

/-- The `blank_line_ahead` lookahead condition of the body sub-machine:
`m.p+2 < m.pe && m.data[m.p+1] == 10 && m.data[m.p+2] == 10`. -/
def blankAhead (s : St) : Bool :=
  decide (s.p + 2 < s.pe) && (byteAt s.data (s.p + 1) == some 10) &&
    (byteAt s.data (s.p + 2) == some 10)

/-- One step of the generated machine: the `stCaseN` switch arm for the current
state `s.cs` applied to the current byte `b = m.data[m.p]`, taken arm by arm
from the generated `machine.go`.  After a `.next` result the driver performs
the `p++` that opens every `stN` label.  States whose only content is
`goto st0` halt; states absent from the generated switch fall through to
`stOut`/`_out` with `cs` unchanged. -/
def stepCase (s : St) (b : Nat) : StepRes :=
  match s.cs with
  | 0 => .halt { s with cs := 0 }
  | 1 =>
    if b = 70 ∨ b = 102 then .next { s with pb := s.p, cs := 2 } else tr0 s b
  | 2 =>
    if b = 69 ∨ b = 101 then .next { s with cs := 3 }
    else if b = 73 ∨ b = 105 then .next { s with cs := 13 }
    else tr0 s b
  | 3 => if b = 65 ∨ b = 97 then .next { s with cs := 4 } else tr0 s b
  | 4 => if b = 84 ∨ b = 116 then gotoSt s b 5 else tr0 s b
  | 5 =>
    setTypeThen s (fun s1 =>
      if b = 33 then gotoSt { s1 with exclamation := true } b 6
      else if b = 40 then .next { s1 with cs := 10 }
      else if b = 58 then gotoSt s1 b 7
      else tr6 s1 b)
  | 6 => if b = 58 then gotoSt s b 7 else tr6 s b
  | 7 => if b = 32 then .next { s with cs := 8 } else tr10 s b
  | 8 =>
    if b = 10 then tr13 s b
    else if b = 32 then .next { s with cs := 8 }
    else .next { s with pb := s.p, cs := 85 }
  | 9 => if b = 10 then .next { s with cs := 87 } else tr14 s
  | 10 =>
    if b = 41 then
      let s1 := { s with pb := s.p }
      match textSlice s1.data s1.pb s1.p with
      | none => .oops
      | some t => gotoSt { s1 with scope := some t } b 12
    else if isScopeByte b then .next { s with pb := s.p, cs := 11 }
    else tr16 s b
  | 11 =>
    if b = 41 then
      match textSlice s.data s.pb s.p with
      | none => .oops
      | some t => gotoSt { s with scope := some t } b 12
    else if isScopeByte b then .next { s with cs := 11 }
    else tr16 s b
  | 12 =>
    if b = 33 then gotoSt { s with exclamation := true } b 6
    else if b = 58 then gotoSt s b 7
    else tr6 s b
  | 13 => if b = 88 ∨ b = 120 then gotoSt s b 5 else tr0 s b
  | 14 =>
    if b = 32 then setFooterKey s 15
    else if b = 45 then .next { s with cs := 16 }
    else if b = 58 then setFooterKey s 17
    else if isAlnum b then .next { s with cs := 14 }
    else rewindA s
  | 15 => if b = 35 then .next { s with cs := 33 } else rewindA s
  | 16 => if isAlnum b then .next { s with cs := 14 } else rewindA s
  | 17 => if b = 32 then .next { s with cs := 33 } else rewindA s
  | 18 =>
    if b = 32 then setFooterKey s 15
    else if b = 45 then .next { s with cs := 16 }
    else if b = 58 then setFooterKey s 17
    else if b = 82 then .next { s with cs := 19 }
    else if isAlnum b then .next { s with cs := 14 }
    else rewindA s
  | 19 =>
    if b = 32 then setFooterKey s 15
    else if b = 45 then .next { s with cs := 16 }
    else if b = 58 then setFooterKey s 17
    else if b = 69 then .next { s with cs := 20 }
    else if isAlnum b then .next { s with cs := 14 }
    else rewindA s
  | 20 =>
    if b = 32 then setFooterKey s 15
    else if b = 45 then .next { s with cs := 16 }
    else if b = 58 then setFooterKey s 17
    else if b = 65 then .next { s with cs := 21 }
    else if isAlnum b then .next { s with cs := 14 }
    else rewindA s
  | 21 =>
    if b = 32 then setFooterKey s 15
    else if b = 45 then .next { s with cs := 16 }
    else if b = 58 then setFooterKey s 17
    else if b = 75 then .next { s with cs := 22 }
    else if isAlnum b then .next { s with cs := 14 }
    else rewindA s
  | 22 =>
    if b = 32 then setFooterKey s 15
    else if b = 45 then .next { s with cs := 16 }
    else if b = 58 then setFooterKey s 17
    else if b = 73 then .next { s with cs := 23 }
    else if isAlnum b then .next { s with cs := 14 }
    else rewindA s
  | 23 =>
    if b = 32 then setFooterKey s 15
    else if b = 45 then .next { s with cs := 16 }
    else if b = 58 then setFooterKey s 17
    else if b = 78 then .next { s with cs := 24 }
    else if isAlnum b then .next { s with cs := 14 }
    else rewindA s
  | 24 =>
    if b = 32 then setFooterKey s 15
    else if b = 45 then .next { s with cs := 16 }
    else if b = 58 then setFooterKey s 17
    else if b = 71 then .next { s with cs := 25 }
    else if isAlnum b then .next { s with cs := 14 }
    else rewindA s
  | 25 =>
    if b = 32 then setFooterKey s 26
    else if b = 45 then .next { s with cs := 16 }
    else if b = 58 then setFooterKey s 17
    else if isAlnum b then .next { s with cs := 14 }
    else rewindA s
  | 26 =>
    if b = 35 then .next { s with cs := 33 }
    else if b = 67 then .next { s with cs := 27 }
    else rewindA s
  | 27 => if b = 72 then .next { s with cs := 28 } else rewindA s
  | 28 => if b = 65 then .next { s with cs := 29 } else rewindA s
  | 29 => if b = 78 then .next { s with cs := 30 } else rewindA s
  | 30 => if b = 71 then .next { s with cs := 31 } else rewindA s
  | 31 => if b = 69 then .next { s with cs := 32 } else rewindA s
  | 32 => if b = 58 then setFooterKey s 17 else rewindA s
  | 33 =>
    if isPrintable b then .next { s with pb := s.p, cs := 90 }
    else .halt { s with cs := 0 }
  | 34 =>
    if blankAhead s then
      match appendBodyO s with
      | none => .oops
      | some s1 => .next { s1 with cs := 87 }
    else .next { s with pb := s.p, cs := 92 }
  | 35 =>
    if b = 66 ∨ b = 98 then .next { s with pb := s.p, cs := 36 }
    else if b = 67 ∨ b = 99 then .next { s with pb := s.p, cs := 48 }
    else if b = 68 ∨ b = 100 then .next { s with pb := s.p, cs := 52 }
    else if b = 70 ∨ b = 102 then .next { s with pb := s.p, cs := 55 }
    else if b = 80 ∨ b = 112 then .next { s with pb := s.p, cs := 59 }
    else if b = 82 ∨ b = 114 then .next { s with pb := s.p, cs := 62 }
    else if b = 83 ∨ b = 115 then .next { s with pb := s.p, cs := 71 }
    else if b = 84 ∨ b = 116 then .next { s with pb := s.p, cs := 74 }
    else tr0 s b
  | 36 => if b = 85 ∨ b = 117 then .next { s with cs := 37 } else tr0 s b
  | 37 => if b = 73 ∨ b = 105 then .next { s with cs := 38 } else tr0 s b
  | 38 => if b = 76 ∨ b = 108 then .next { s with cs := 39 } else tr0 s b
  | 39 => if b = 68 ∨ b = 100 then gotoSt s b 40 else tr0 s b
  | 40 =>
    setTypeThen s (fun s1 =>
      if b = 33 then gotoSt { s1 with exclamation := true } b 41
      else if b = 40 then .next { s1 with cs := 45 }
      else if b = 58 then gotoSt s1 b 42
      else tr6 s1 b)
  | 41 => if b = 58 then gotoSt s b 42 else tr6 s b
  | 42 => if b = 32 then .next { s with cs := 43 } else tr10 s b
  | 43 =>
    if b = 10 then tr13 s b
    else if b = 32 then .next { s with cs := 43 }
    else .next { s with pb := s.p, cs := 93 }
  | 44 => if b = 10 then .next { s with cs := 87 } else tr14 s
  | 45 =>
    if b = 41 then
      let s1 := { s with pb := s.p }
      match textSlice s1.data s1.pb s1.p with
      | none => .oops
      | some t => gotoSt { s1 with scope := some t } b 47
    else if isScopeByte b then .next { s with pb := s.p, cs := 46 }
    else tr16 s b
  | 46 =>
    if b = 41 then
      match textSlice s.data s.pb s.p with
      | none => .oops
      | some t => gotoSt { s with scope := some t } b 47
    else if isScopeByte b then .next { s with cs := 46 }
    else tr16 s b
  | 47 =>
    if b = 33 then gotoSt { s with exclamation := true } b 41
    else if b = 58 then gotoSt s b 42
    else tr6 s b
  | 48 =>
    if b = 72 ∨ b = 104 then .next { s with cs := 49 }
    else if b = 73 ∨ b = 105 then gotoSt s b 40
    else tr0 s b
  | 49 => if b = 79 ∨ b = 111 then .next { s with cs := 50 } else tr0 s b
  | 50 => if b = 82 ∨ b = 114 then .next { s with cs := 51 } else tr0 s b
  | 51 => if b = 69 ∨ b = 101 then gotoSt s b 40 else tr0 s b
  | 52 => if b = 79 ∨ b = 111 then .next { s with cs := 53 } else tr0 s b
  | 53 => if b = 67 ∨ b = 99 then .next { s with cs := 54 } else tr0 s b
  | 54 => if b = 83 ∨ b = 115 then gotoSt s b 40 else tr0 s b
  | 55 =>
    if b = 69 ∨ b = 101 then .next { s with cs := 56 }
    else if b = 73 ∨ b = 105 then .next { s with cs := 58 }
    else tr0 s b
  | 56 => if b = 65 ∨ b = 97 then .next { s with cs := 57 } else tr0 s b
  | 57 => if b = 84 ∨ b = 116 then gotoSt s b 40 else tr0 s b
  | 58 => if b = 88 ∨ b = 120 then gotoSt s b 40 else tr0 s b
  | 59 => if b = 69 ∨ b = 101 then .next { s with cs := 60 } else tr0 s b
  | 60 => if b = 82 ∨ b = 114 then .next { s with cs := 61 } else tr0 s b
  | 61 => if b = 70 ∨ b = 102 then gotoSt s b 40 else tr0 s b
  | 62 => if b = 69 ∨ b = 101 then .next { s with cs := 63 } else tr0 s b
  | 63 =>
    if b = 70 ∨ b = 102 then .next { s with cs := 64 }
    else if b = 86 ∨ b = 118 then .next { s with cs := 69 }
    else tr0 s b
  | 64 => if b = 65 ∨ b = 97 then .next { s with cs := 65 } else tr0 s b
  | 65 => if b = 67 ∨ b = 99 then .next { s with cs := 66 } else tr0 s b
  | 66 => if b = 84 ∨ b = 116 then .next { s with cs := 67 } else tr0 s b
  | 67 => if b = 79 ∨ b = 111 then .next { s with cs := 68 } else tr0 s b
  | 68 => if b = 82 ∨ b = 114 then gotoSt s b 40 else tr0 s b
  | 69 => if b = 69 ∨ b = 101 then .next { s with cs := 70 } else tr0 s b
  | 70 => if b = 82 ∨ b = 114 then .next { s with cs := 57 } else tr0 s b
  | 71 => if b = 84 ∨ b = 116 then .next { s with cs := 72 } else tr0 s b
  | 72 => if b = 89 ∨ b = 121 then .next { s with cs := 73 } else tr0 s b
  | 73 => if b = 76 ∨ b = 108 then .next { s with cs := 51 } else tr0 s b
  | 74 => if b = 69 ∨ b = 101 then .next { s with cs := 75 } else tr0 s b
  | 75 => if b = 83 ∨ b = 115 then .next { s with cs := 57 } else tr0 s b
  | 76 => if isPrintable b then gotoSt { s with pb := s.p } b 77 else tr0 s b
  | 77 =>
    setTypeThen s (fun s1 =>
      if b = 33 then gotoSt { s1 with exclamation := true } b 78
      else if b = 40 then .next { s1 with cs := 82 }
      else if b = 58 then gotoSt s1 b 79
      else if isPrintable b then gotoSt s1 b 77
      else tr6 s1 b)
  | 78 => if b = 58 then gotoSt s b 79 else tr6 s b
  | 79 => if b = 32 then .next { s with cs := 80 } else tr10 s b
  | 80 =>
    if b = 10 then tr13 s b
    else if b = 32 then .next { s with cs := 80 }
    else .next { s with pb := s.p, cs := 95 }
  | 81 => if b = 10 then .next { s with cs := 87 } else tr14 s
  | 82 =>
    if b = 41 then
      let s1 := { s with pb := s.p }
      match textSlice s1.data s1.pb s1.p with
      | none => .oops
      | some t => gotoSt { s1 with scope := some t } b 84
    else if isScopeByte b then .next { s with pb := s.p, cs := 83 }
    else tr16 s b
  | 83 =>
    if b = 41 then
      match textSlice s.data s.pb s.p with
      | none => .oops
      | some t => gotoSt { s with scope := some t } b 84
    else if isScopeByte b then .next { s with cs := 83 }
    else tr16 s b
  | 84 =>
    if b = 33 then gotoSt { s with exclamation := true } b 78
    else if b = 58 then gotoSt s b 79
    else tr6 s b
  | 85 =>
    if b = 10 then
      match textSlice s.data s.pb s.p with
      | none => .oops
      | some t => .next { s with descr := t, cs := 9 }
    else .next { s with cs := 85 }
  | 86 => .halt { s with cs := 0 }
  | 87 =>
    if b = 10 then
      .next { s with countNewlines := s.countNewlines + 1, lastNewline := s.p, cs := 87 }
    else if b = 66 then .next { s with pb := s.p, cs := 18 }
    else if isAlnum b then .next { s with pb := s.p, cs := 14 }
    else rewindA s
  | 88 => .halt { s with cs := 0 }
  | 89 => if b = 32 then .next { s with cs := 33 } else .halt { s with cs := 0 }
  | 90 =>
    if b = 10 then
      match textSlice s.data s.pb s.p with
      | none => .oops
      | some t =>
        .next { s with
          footers := addFooter s.footers s.currentFooterKey t,
          countNewlines := s.countNewlines + 1, lastNewline := s.p, cs := 87 }
    else if isPrintable b then .next { s with cs := 90 }
    else .halt { s with cs := 0 }
  | 91 =>
    if b = 10 then
      .next { s with countNewlines := s.countNewlines + 1, lastNewline := s.p, cs := 87 }
    else .halt { s with cs := 0 }
  | 92 =>
    if blankAhead s then
      match appendBodyO s with
      | none => .oops
      | some s1 =>
        match textSlice s1.data (s1.pb + 1) (s1.p + 1) with
        | none => .oops
        | some t2 =>
          .next { s1 with
            pb := s1.pb + 1, p := s1.p + 1 - 1,
            body := s1.body ++ t2, cs := 87 }
    else
      match appendBodyO s with
      | none => .oops
      | some s1 => .next { s1 with pb := s1.p, cs := 92 }
  | 93 =>
    if b = 10 then
      match textSlice s.data s.pb s.p with
      | none => .oops
      | some t => .next { s with descr := t, cs := 44 }
    else .next { s with cs := 93 }
  | 94 => .halt { s with cs := 0 }
  | 95 =>
    if b = 10 then
      match textSlice s.data s.pb s.p with
      | none => .oops
      | some t => .next { s with descr := t, cs := 81 }
    else .next { s with cs := 95 }
  | 96 => .halt { s with cs := 0 }
  | _ => .halt s

/-- The EOF cases grouped exactly as in the generated `_testEof` switch. -/
def typeEofStates : List Nat :=
  [2, 3, 4, 13, 36, 37, 38, 39, 48, 49, 50, 51, 52, 53, 54, 55, 56, 57, 58,
   59, 60, 61, 62, 63, 64, 65, 66, 67, 68, 69, 70, 71, 72, 73, 74, 75]

/-- EOF states carrying the `err_colon` action. -/
def colonEofStates : List Nat := [5, 6, 12, 40, 41, 47, 77, 78, 84]

/-- EOF states carrying the `err_description_init` action. -/
def descrInitEofStates : List Nat := [7, 42, 79]

/-- EOF states carrying the `err_description` action. -/
def descrEofStates : List Nat := [8, 43, 80]

/-- EOF states carrying the `err_begin_blank_line` action. -/
def blankEofStates : List Nat := [9, 44, 81]

/-- EOF states carrying the `set_description` action. -/
def descrSetEofStates : List Nat := [85, 93, 95]

/-- EOF states carrying the `rewind` action. -/
def trailerEofStates : List Nat :=
  [14, 15, 16, 17, 18, 19, 20, 21, 22, 23, 24, 25, 26, 27, 28, 29, 30, 31, 32]

/-- EOF states carrying `err_empty` (the entry states). -/
def entryEofStates : List Nat := [1, 35, 76]

/-- EOF states carrying the scope error actions. -/
def scopeEofStates : List Nat := [10, 11, 45, 46, 82, 83]

/-- The `_testEof` switch of the generated machine, executed when `p = eof`.
`cont` results model the actions that re-enter the exec loop (`goto st34` from
`rewind`, `goto st87` from the body EOF case). -/
def eofSwitch (s : St) : EofRes :=
  if typeEofStates.contains s.cs then
    if s.pe > 0 then
      if s.p ≠ s.pe then
        match byteAt s.data s.p with
        | none => .oops
        | some c => .done { s with err := some (errTypeS c s.p) }
      else
        match byteAt s.data (s.p - 1) with
        | none => .oops
        | some c => .done { s with err := some (errTypeIncompleteS c s.p) }
    else .done s
  else if colonEofStates.contains s.cs then
    if s.err = none then
      match byteAt s.data s.p with
      | none => .oops
      | some c => .done { s with err := some (errColonS c s.p) }
    else .done s
  else if descrInitEofStates.contains s.cs then
    if s.err = none then
      match byteAt s.data s.p with
      | none => .oops
      | some c => .done { s with err := some (errDescriptionInitS c s.p) }
    else .done s
  else if descrEofStates.contains s.cs then
    if s.p < s.pe ∧ byteAt s.data s.p = some 10 then
      .done { s with err := some (errNewlineS (s.p + 1)) }
    else
      match byteAt s.data (s.p - 1) with
      | none => .oops
      | some c => .done { s with err := some (errDescriptionS c s.p) }
  else if blankEofStates.contains s.cs then
    .done { s with err := some (errMissingBlankLineS s.p) }
  else if descrSetEofStates.contains s.cs then
    match textSlice s.data s.pb s.p with
    | none => .oops
    | some t => .done { s with descr := t }
  else if s.cs = 90 then
    match textSlice s.data s.pb s.p with
    | none => .oops
    | some t => .done { s with footers := addFooter s.footers s.currentFooterKey t }
  else if s.cs = 92 then
    match appendBodyO s with
    | none => .oops
    | some s1 => .done s1
  else if trailerEofStates.contains s.cs then
    match rewindA s with
    | .next s1 => .cont s1
    | .halt s1 => .done s1
    | .oops => .oops
  else if entryEofStates.contains s.cs then
    let s1 : St := { s with err := some (errEmptyS s.p) }
    if s1.pe > 0 then
      if s1.p ≠ s1.pe then
        match byteAt s1.data s1.p with
        | none => .oops
        | some c => .done { s1 with err := some (errTypeS c s1.p) }
      else
        match byteAt s1.data (s1.p - 1) with
        | none => .oops
        | some c => .done { s1 with err := some (errTypeIncompleteS c s1.p) }
    else .done s1
  else if scopeEofStates.contains s.cs then
    -- `err_malformed_scope` (guarded by `p < pe`, it can only read `data[p]`
    -- or assign an error) runs first; its assignment is then unconditionally
    -- overwritten by `err_malformed_scope_closing`, so only the read remains
    -- observable.
    if s.p < s.pe ∧ byteAt s.data s.p = none then .oops
    else
      match byteAt s.data (s.p - 1) with
      | none => .oops
      | some c => .done { s with err := some (errScopeIncompleteS c s.p) }
  else if s.cs = 34 then
    match appendBodyO s with
    | none => .oops
    | some s1 => .cont { s1 with cs := 87 }
  else .done s

/-- The exec loop of `Parse`: at `p = pe`, leave the loop (running the
`_testEof` switch when `p = eof`, which may re-enter it); otherwise dispatch
the `stCase` arm for the current state on the byte at `p`, then advance the
cursor.  `fuel` bounds the number of iterations. -/
def mrun : Nat → St → RunRes
  | 0, _ => .fuelOut
  | fuel + 1, s =>
    if s.p = s.pe then
      if s.p = s.eof then
        match eofSwitch s with
        | .done s1 => .ok s1
        | .cont s1 => mrun fuel { s1 with p := s1.p + 1 }
        | .oops => .oops
      else .ok s
    else
      match byteAt s.data s.p with
      | none => .oops
      | some b =>
        match stepCase s b with
        | .next s1 => mrun fuel { s1 with p := s1.p + 1 }
        | .halt s1 => .ok s1
        | .oops => .oops

/-- `firstFinal`: the generated machine accepts in states `≥ 85`. -/
def firstFinal : Nat := 85

/-- Modelled from the spec: the record `output.export()` returns.  The
`conventionalCommit` builder lives outside `src/` (only `machine.go` and its
Ragel source are available), so the exported shape follows the spec's data
model (§3): type, optional scope, exclamation flag, description, body, ordered
footer map. -/
structure Record where
  rtype : List Nat
  scope : Option (List Nat)
  exclamation : Bool
  descr : List Nat
  body : List Nat
  footers : List (List Nat × List (List Nat))
deriving DecidableEq

/-- Modelled from the spec: `output.export()` copies the populated fields. -/
def exportOut (s : St) : Record :=
  { rtype := s.otype, scope := s.scope, exclamation := s.exclamation,
    descr := s.descr, body := s.body, footers := s.footers }

/-- Modelled from the spec: `output.minimal()` is true iff both `type` and
`description` are non-empty (spec §3, invariant 6). -/
def minimalOut (s : St) : Bool := decide (s.otype ≠ [] ∧ s.descr ≠ [])

/-- The return logic at the bottom of `Parse`. -/
def parseReturn (s : St) : Option Record × Option (List Nat) :=
  if s.cs < firstFinal then
    if s.bestEffort && minimalOut s then (some (exportOut s), s.err)
    else (none, s.err)
  else (some (exportOut s), none)

/-- The entry-state switch at the top of `Parse` (`TypesMinimal` is also the
`default` arm). -/
def startCs : TypeConfig → Nat
  | .TypesFreeForm => 76
  | .TypesConventional => 35
  | .TypesMinimal => 1

/-- The reset block at the top of `Parse`: assigns `data`, `p`, `pb`, `pe`,
`eof`, `err`, `currentFooterKey`, `countNewlines`, allocates a fresh `output`,
and selects the entry state.  `lastNewline` is deliberately absent here,
mirroring the source, which does not reset it. -/
def resetParse (m : St) (input : List Nat) : St :=
  { m with
    data := input, p := 0, pb := 0,
    pe := (input.length : Int), eof := (input.length : Int),
    err := none, currentFooterKey := [], countNewlines := 0,
    otype := [], scope := none, exclamation := false,
    descr := [], body := [], footers := [],
    cs := startCs m.typeConfig }

/-- A machine as produced by `NewMachine` with the two observable options
applied; every other field is the Go zero value. -/
def newMachine (be : Bool) (tc : TypeConfig) : St :=
  { data := [], cs := 0, p := 0, pe := 0, eof := 0, pb := 0, err := none,
    bestEffort := be, typeConfig := tc, currentFooterKey := [],
    countNewlines := 0, lastNewline := 0, otype := [], scope := none,
    exclamation := false, descr := [], body := [], footers := [] }

/-- `m.Parse(input)`: reset, run the machine, apply the return logic.
`none` when the run panics or exhausts `fuel`. -/
def machineParse (fuel : Nat) (m : St) (input : List Nat) :
    Option (Option Record × Option (List Nat)) :=
  match mrun fuel (resetParse m input) with
  | .ok s => some (parseReturn s)
  | _ => none

/-- The machine state `Parse` leaves behind (used to analyse reuse):
`none` on panic or fuel exhaustion. -/
def machineRunState (fuel : Nat) (m : St) (input : List Nat) : Option St :=
  match mrun fuel (resetParse m input) with
  | .ok s => some s
  | _ => none

/-- Ample fuel for a given input (every byte is visited at most a bounded
number of times). -/
def ampleFuel (input : List Nat) : Nat := 4 * input.length + 16

/-- `Parse` on a fresh machine with the given options. -/
def parseWith (be : Bool) (tc : TypeConfig) (input : List Nat) :
    Option (Option Record × Option (List Nat)) :=
  machineParse (ampleFuel input) (newMachine be tc) input

/-- `Parse` on a fresh default (minimal-dialect, no best effort) machine. -/
def parseMinimal (input : List Nat) : Option (Option Record × Option (List Nat)) :=
  parseWith false .TypesMinimal input


/-- Case-insensitive match of one byte against an upper-case ASCII letter. -/
def eqCI (b target : Nat) : Bool := decide (b = target ∨ b = target + 32)

/-- The byte strings accepted as a complete *minimal-dialect* type:
`fix` and `feat`, case-insensitively. -/
def isMinimalTypeBytes : List Nat → Bool
  | [b0, b1, b2] => eqCI b0 70 && eqCI b1 73 && eqCI b2 88
  | [b0, b1, b2, b3] => eqCI b0 70 && eqCI b1 69 && eqCI b2 65 && eqCI b3 84
  | _ => false

/-- Fields of the machine preserved across a transition (the buffer, its
bounds, and the option fields). -/
def Frame (s a : St) : Prop :=
  a.data = s.data ∧ a.pe = s.pe ∧ a.eof = s.eof ∧
  a.bestEffort = s.bestEffort ∧ a.typeConfig = s.typeConfig

/-- Two machine states that agree on every field except possibly
`lastNewline`, and agree on `lastNewline` as soon as `countNewlines` is
positive (the only situation in which the machine reads `lastNewline`). -/
def SimEx (s1 s2 : St) : Prop :=
  (∃ l2, s2 = { s1 with lastNewline := l2 }) ∧
  (0 < s1.countNewlines → s2.lastNewline = s1.lastNewline)

/-- The run invariant, holding at every iteration of the exec loop.

* cursor bounds: `0 ≤ pb ≤ p ≤ pe = |data| = eof`;
* newline accounting: `countNewlines ≥ 0`, and when positive the recorded
  `lastNewline` is a position before `p`;
* error discipline: a recorded error forces `p = pe` with the current state in
  `checkEarlySet` (the states whose entry action is `check_early_exit`), and
  conversely reaching EOF in such a state means the error fired;
* trailer-token states carry a mark strictly inside the buffer, past the last
  counted newline — this is what makes the rewind land strictly before EOF;
* the body state 34 is only ever entered strictly before EOF;
* every state except the three entry states and 34 has consumed at least one
  byte;
* every recorded diagnostic ends in a rendered column suffix bounded by `pe`;
* in a scope-content state the marked segment contains only scope bytes, and
  any recorded scope contains only scope bytes. -/
structure Inv (s : St) : Prop where
  hpe : s.pe = (s.data.length : Int)
  heof : s.eof = s.pe
  hp0 : 0 ≤ s.p
  hppe : s.p ≤ s.pe
  hpb0 : 0 ≤ s.pb
  hpbp : s.pb ≤ s.p
  hcnl : 0 ≤ s.countNewlines
  hln : 0 < s.countNewlines → 0 ≤ s.lastNewline ∧ s.lastNewline < s.p
  herr : s.err ≠ none → s.p = s.pe ∧ checkEarlySet s.cs = true
  herr2 : s.p = s.pe → checkEarlySet s.cs = true → s.err ≠ none
  htr : trailerEofStates.contains s.cs = true →
        1 ≤ s.pb ∧ s.pb < s.pe ∧ (0 < s.countNewlines → s.lastNewline < s.pb)
  h34 : s.cs = 34 → s.p < s.pe
  hp1 : s.cs ≠ 1 → s.cs ≠ 35 → s.cs ≠ 76 → s.cs ≠ 34 → 1 ≤ s.p
  hshape : ∀ e, s.err = some e → ∃ base n, e = base ++ colSuffix n ∧ 0 ≤ n ∧ n ≤ s.pe
  hseg : (s.cs = 11 ∨ s.cs = 46 ∨ s.cs = 83) →
         ∀ j : Int, s.pb ≤ j → j < s.p → ∃ c, byteAt s.data j = some c ∧ isScopeByte c = true
  hscope : ∀ sc, s.scope = some sc → ∀ c ∈ sc, isScopeByte c = true

/-- What one dispatched `stCase` step guarantees: no panic; a transfer
re-establishes the invariant past the cursor increment and preserves the
frame; a halt preserves the frame, leaves only well-formed diagnostics and
scope bytes, and lands in a non-accepting state whenever an error is
recorded. -/
def StepFacts (s : St) (res : StepRes) : Prop :=
  res ≠ .oops ∧
  (∀ a, res = .next a → Inv { a with p := a.p + 1 } ∧ Frame s a) ∧
  (∀ a, res = .halt a → Frame s a ∧
     (∀ e, a.err = some e → ∃ base n, e = base ++ colSuffix n ∧ 0 ≤ n ∧ n ≤ s.pe) ∧
     (∀ sc, a.scope = some sc → ∀ c ∈ sc, isScopeByte c = true) ∧
     (a.err ≠ none → a.cs < firstFinal))

/-- What the `_testEof` switch guarantees: no panic; a completed run preserves
the frame and error discipline and never discards a recorded error; a
re-entering action re-establishes the invariant. -/
def EofFacts (s : St) (res : EofRes) : Prop :=
  res ≠ .oops ∧
  (∀ a, res = .done a → Frame s a ∧
     (∀ e, a.err = some e → ∃ base n, e = base ++ colSuffix n ∧ 0 ≤ n ∧ n ≤ s.pe) ∧
     (∀ sc, a.scope = some sc → ∀ c ∈ sc, isScopeByte c = true) ∧
     (a.err ≠ none → a.cs < firstFinal) ∧
     (∀ e, s.err = some e → a.err = some e)) ∧
  (∀ a, res = .cont a → Inv { a with p := a.p + 1 } ∧ Frame s a ∧ a.err = s.err)


/-- Lifting of `SimEx` to step results: both sides take the same shape and the
payload states differ at most in `lastNewline`. -/
inductive StepSim : StepRes → StepRes → Prop where
  | next : SimEx a1 a2 → StepSim (.next a1) (.next a2)
  | halt : SimEx a1 a2 → StepSim (.halt a1) (.halt a2)
  | oops : StepSim .oops .oops

/-- Lifting of `SimEx` to EOF-switch results. -/
inductive EofSim : EofRes → EofRes → Prop where
  | done : SimEx a1 a2 → EofSim (.done a1) (.done a2)
  | cont : SimEx a1 a2 → EofSim (.cont a1) (.cont a2)
  | oops : EofSim .oops .oops

/-- Lifting of `SimEx` to run results. -/
inductive RunSim : RunRes → RunRes → Prop where
  | ok : SimEx a1 a2 → RunSim (.ok a1) (.ok a2)
  | oops : RunSim .oops .oops
  | fuelOut : RunSim .fuelOut .fuelOut


/-- The per-state byte conditions under which the generated trailer states
fall through to the `rewind` action (`tr21`), read off the `stCase` arms of
states 14-32 and 87. -/
def rewindTrigger (t b : Nat) : Bool :=
  match t with
  | 14 => !(b == 32 || b == 45 || b == 58 || isAlnum b)
  | 15 => !(b == 35)
  | 16 => !(isAlnum b)
  | 17 => !(b == 32)
  | 18 => !(b == 32 || b == 45 || b == 58 || b == 82 || isAlnum b)
  | 19 => !(b == 32 || b == 45 || b == 58 || b == 69 || isAlnum b)
  | 20 => !(b == 32 || b == 45 || b == 58 || b == 65 || isAlnum b)
  | 21 => !(b == 32 || b == 45 || b == 58 || b == 75 || isAlnum b)
  | 22 => !(b == 32 || b == 45 || b == 58 || b == 73 || isAlnum b)
  | 23 => !(b == 32 || b == 45 || b == 58 || b == 78 || isAlnum b)
  | 24 => !(b == 32 || b == 45 || b == 58 || b == 71 || isAlnum b)
  | 25 => !(b == 32 || b == 45 || b == 58 || isAlnum b)
  | 26 => !(b == 35 || b == 67)
  | 27 => !(b == 72)
  | 28 => !(b == 65)
  | 29 => !(b == 78)
  | 30 => !(b == 71)
  | 31 => !(b == 69)
  | 32 => !(b == 58)
  | 87 => !(b == 10 || b == 66 || isAlnum b)
  | _ => false

/-- Concrete machine state in trailer-token state 15, used to instantiate the
rewind-protocol theorem. -/
def wTrailer : St :=
  ⟨asciiBytes "K: v", 15, 1, 4, 4, 0, none, false, TypeConfig.TypesMinimal,
   asciiBytes "k", 0, 0, [], none, false, [], [], []⟩

/-- Concrete machine state inside a scope, used to instantiate the scope-rule
theorem. -/
def wScope : St :=
  ⟨asciiBytes "fix((", 11, 4, 5, 5, 4, none, false, TypeConfig.TypesMinimal,
   [], 0, 0, asciiBytes "fix", none, false, [], [], []⟩

/-- Concrete machine state whose marked text is `BREAKING CHANGE`, used to
instantiate the footer-key theorem. -/
def wFooter : St :=
  ⟨asciiBytes "BREAKING CHANGE", 32, 15, 15, 15, 0, none, false,
   TypeConfig.TypesMinimal, [], 0, 0, [], none, false, [], [], []⟩

/-- Concrete machine state at EOF of `fix!` with the early-exit diagnostic
already recorded, used to instantiate the single-diagnostic theorem. -/
def wEarly : St :=
  ⟨asciiBytes "fix!", 6, 4, 4, 4, 0, some (errEarlyS 33 3), false,
   TypeConfig.TypesMinimal, [], 0, 0, asciiBytes "fix", none, true, [], [], []⟩

/-! ### Utility lemmas -/

theorem textSlice_some (d : List Nat) (pb p : Int) (h0 : 0 ≤ pb) (h1 : pb ≤ p)
    (h2 : p ≤ (d.length : Int)) :
    textSlice d pb p = some ((d.take p.toNat).drop pb.toNat) := by
  simp [textSlice, h0, h1, h2]

theorem textSlice_mem (d : List Nat) (pb p : Int) (t : List Nat) (x : Nat)
    (ht : textSlice d pb p = some t) (hx : x ∈ t) :
    ∃ j : Int, pb ≤ j ∧ j < p ∧ byteAt d j = some x := by
  unfold textSlice at ht
  split_ifs at ht with hcond
  obtain ⟨h0, h1, h2⟩ := hcond
  injection ht with ht
  subst ht
  obtain ⟨i, hi, hget⟩ := List.mem_iff_getElem.mp hx
  have hlen : ((d.take p.toNat).drop pb.toNat).length = p.toNat - pb.toNat := by
    simp [List.length_drop, List.length_take]
    omega
  have hiB : pb.toNat + i < p.toNat := by omega
  have hiL : pb.toNat + i < d.length := by omega
  have hval : d[pb.toNat + i] = x := by
    rw [← hget]
    rw [List.getElem_drop]
    rw [List.getElem_take]
  refine ⟨pb + (i : Int), by omega, by omega, ?_⟩
  have hj0 : (0 : Int) ≤ pb + (i : Int) := by omega
  have hjt : (pb + (i : Int)).toNat = pb.toNat + i := by omega
  simp only [byteAt, if_neg (by omega : ¬(pb + (i : Int) < 0)), hjt]
  rw [List.get?_eq_getElem?, List.getElem?_eq_getElem hiL, hval]

theorem byteAt_some (d : List Nat) (i : Int) (h0 : 0 ≤ i) (h1 : i < (d.length : Int)) :
    ∃ c, byteAt d i = some c := by
  have hi : i.toNat < d.length := by omega
  refine ⟨d[i.toNat], ?_⟩
  simp only [byteAt, if_neg (by omega : ¬(i < 0))]
  rw [List.get?_eq_getElem?, List.getElem?_eq_getElem hi]

/-! Every rendered diagnostic ends in its column suffix (top-level `++`). -/

theorem errEmptyS_shape (p : Int) : ∃ base, errEmptyS p = base ++ colSuffix p := ⟨_, rfl⟩

theorem errTypeS_shape (c : Nat) (p : Int) : ∃ base, errTypeS c p = base ++ colSuffix p :=
  ⟨_, rfl⟩

theorem errTypeIncompleteS_shape (c : Nat) (p : Int) :
    ∃ base, errTypeIncompleteS c p = base ++ colSuffix p := ⟨_, rfl⟩

theorem errColonS_shape (c : Nat) (p : Int) : ∃ base, errColonS c p = base ++ colSuffix p :=
  ⟨_, rfl⟩

theorem errScopeS_shape (c : Nat) (p : Int) : ∃ base, errScopeS c p = base ++ colSuffix p :=
  ⟨_, rfl⟩

theorem errScopeIncompleteS_shape (c : Nat) (p : Int) :
    ∃ base, errScopeIncompleteS c p = base ++ colSuffix p := ⟨_, rfl⟩

theorem errEarlyS_shape (c : Nat) (p : Int) : ∃ base, errEarlyS c p = base ++ colSuffix p :=
  ⟨_, rfl⟩

theorem errDescriptionInitS_shape (c : Nat) (p : Int) :
    ∃ base, errDescriptionInitS c p = base ++ colSuffix p := ⟨_, rfl⟩

theorem errDescriptionS_shape (c : Nat) (p : Int) :
    ∃ base, errDescriptionS c p = base ++ colSuffix p := ⟨_, rfl⟩

theorem errNewlineS_shape (p : Int) : ∃ base, errNewlineS p = base ++ colSuffix p := ⟨_, rfl⟩

theorem errMissingBlankLineS_shape (p : Int) :
    ∃ base, errMissingBlankLineS p = base ++ colSuffix p := ⟨_, rfl⟩

theorem errTrailerS_shape (c : Nat) (p : Int) :
    ∃ base, errTrailerS c p = base ++ colSuffix p := ⟨_, rfl⟩

theorem errTrailerIncompleteS_shape (c : Nat) (p : Int) :
    ∃ base, errTrailerIncompleteS c p = base ++ colSuffix p := ⟨_, rfl⟩


/-! ### Invariant transfer lemmas, one per transition shape -/

theorem inv_err_none (s : St) (hInv : Inv s) (hplt : s.p < s.pe) : s.err = none := by
  rcases he : s.err with _ | e
  · rfl
  · have := (hInv.herr (by simp [he])).1
    omega

theorem inv_advance (s : St) (t : Nat) (hInv : Inv s) (hplt : s.p < s.pe)
    (h1 : checkEarlySet t = false)
    (h2 : trailerEofStates.contains t = false)
    (h3 : t ≠ 34)
    (h7 : ¬(t = 11 ∨ t = 46 ∨ t = 83)) :
    Inv { s with cs := t, p := s.p + 1 } := by
  obtain ⟨hpe, heof, hp0, hppe, hpb0, hpbp, hcnl, hln, herr, herr2, htr, h34i, hp1, hshape,
    hseg, hscope⟩ := hInv
  have hen : s.err = none := by
    rcases he : s.err with _ | e
    · rfl
    · have := (herr (by simp [he])).1; omega
  refine ⟨?_, ?_, ?_, ?_, ?_, ?_, ?_, ?_, ?_, ?_, ?_, ?_, ?_, ?_, ?_, ?_⟩ <;> dsimp only
  · exact hpe
  · exact heof
  · omega
  · omega
  · exact hpb0
  · omega
  · exact hcnl
  · intro h
    exact ⟨(hln h).1, by have := (hln h).2; omega⟩
  · intro hne
    exact absurd hen hne
  · intro _ hch
    rw [h1] at hch
    simp at hch
  · intro hc
    rw [h2] at hc
    simp at hc
  · intro hc
    exact absurd hc h3
  · intro _ _ _ _
    omega
  · intro e he
    rw [hen] at he
    simp at he
  · intro hc
    exact absurd hc h7
  · exact hscope

theorem inv_mark (s : St) (t : Nat) (hInv : Inv s) (hplt : s.p < s.pe)
    (h1 : checkEarlySet t = false)
    (h2 : trailerEofStates.contains t = true → 1 ≤ s.p)
    (h3 : t ≠ 34)
    (h7 : ¬(t = 11 ∨ t = 46 ∨ t = 83)) :
    Inv { s with pb := s.p, cs := t, p := s.p + 1 } := by
  obtain ⟨hpe, heof, hp0, hppe, hpb0, hpbp, hcnl, hln, herr, herr2, htr, h34i, hp1, hshape,
    hseg, hscope⟩ := hInv
  have hen : s.err = none := by
    rcases he : s.err with _ | e
    · rfl
    · have := (herr (by simp [he])).1; omega
  refine ⟨?_, ?_, ?_, ?_, ?_, ?_, ?_, ?_, ?_, ?_, ?_, ?_, ?_, ?_, ?_, ?_⟩ <;> dsimp only
  · exact hpe
  · exact heof
  · omega
  · omega
  · omega
  · omega
  · exact hcnl
  · intro h
    exact ⟨(hln h).1, by have := (hln h).2; omega⟩
  · intro hne
    exact absurd hen hne
  · intro _ hch
    rw [h1] at hch
    simp at hch
  · intro hc
    exact ⟨h2 hc, hplt, fun hpos => (hln hpos).2⟩
  · intro hc
    exact absurd hc h3
  · intro _ _ _ _
    omega
  · intro e he
    rw [hen] at he
    simp at he
  · intro hc
    exact absurd hc h7
  · exact hscope

theorem inv_goto (s : St) (b : Nat) (t : Nat) (hInv : Inv s) (hplt : s.p < s.pe)
    (h2 : trailerEofStates.contains t = false)
    (h3 : t ≠ 34)
    (h7 : ¬(t = 11 ∨ t = 46 ∨ t = 83)) :
    Inv { s with
      cs := t,
      err := (if checkEarlySet t ∧ s.p + 1 = s.pe then some (errEarlyS b s.p) else s.err),
      p := s.p + 1 } := by
  obtain ⟨hpe, heof, hp0, hppe, hpb0, hpbp, hcnl, hln, herr, herr2, htr, h34i, hp1, hshape,
    hseg, hscope⟩ := hInv
  have hen : s.err = none := by
    rcases he : s.err with _ | e
    · rfl
    · have := (herr (by simp [he])).1; omega
  refine ⟨?_, ?_, ?_, ?_, ?_, ?_, ?_, ?_, ?_, ?_, ?_, ?_, ?_, ?_, ?_, ?_⟩ <;> dsimp only
  · exact hpe
  · exact heof
  · omega
  · omega
  · exact hpb0
  · omega
  · exact hcnl
  · intro h
    exact ⟨(hln h).1, by have := (hln h).2; omega⟩
  · intro hne
    by_cases hfire : checkEarlySet t ∧ s.p + 1 = s.pe
    · exact ⟨hfire.2, hfire.1⟩
    · rw [if_neg hfire, hen] at hne
      exact absurd rfl hne
  · intro hpp hch
    rw [if_pos ⟨hch, hpp⟩]
    simp
  · intro hc
    rw [h2] at hc
    simp at hc
  · intro hc
    exact absurd hc h3
  · intro _ _ _ _
    omega
  · intro e he
    by_cases hfire : checkEarlySet t ∧ s.p + 1 = s.pe
    · rw [if_pos hfire] at he
      injection he with he
      obtain ⟨base, hbs⟩ := errEarlyS_shape b s.p
      exact ⟨base, s.p, by rw [← he, hbs], hp0, by omega⟩
    · rw [if_neg hfire, hen] at he
      simp at he
  · intro hc
    exact absurd hc h7
  · exact hscope

theorem inv_mark_scope (s : St) (t : Nat) (b : Nat) (hInv : Inv s) (hplt : s.p < s.pe)
    (hb : byteAt s.data s.p = some b) (hsb : isScopeByte b = true)
    (ht : t = 11 ∨ t = 46 ∨ t = 83) :
    Inv { s with pb := s.p, cs := t, p := s.p + 1 } := by
  obtain ⟨hpe, heof, hp0, hppe, hpb0, hpbp, hcnl, hln, herr, herr2, htr, h34i, hp1, hshape,
    hseg, hscope⟩ := hInv
  have hen : s.err = none := by
    rcases he : s.err with _ | e
    · rfl
    · have := (herr (by simp [he])).1; omega
  have hch : checkEarlySet t = false := by
    rcases ht with rfl | rfl | rfl <;> rfl
  have htl : trailerEofStates.contains t = false := by
    rcases ht with rfl | rfl | rfl <;> rfl
  refine ⟨?_, ?_, ?_, ?_, ?_, ?_, ?_, ?_, ?_, ?_, ?_, ?_, ?_, ?_, ?_, ?_⟩ <;> dsimp only
  · exact hpe
  · exact heof
  · omega
  · omega
  · omega
  · omega
  · exact hcnl
  · intro h
    exact ⟨(hln h).1, by have := (hln h).2; omega⟩
  · intro hne
    exact absurd hen hne
  · intro _ hc
    rw [hch] at hc
    simp at hc
  · intro hc
    rw [htl] at hc
    simp at hc
  · intro hc
    rcases ht with rfl | rfl | rfl <;> simp at hc
  · intro _ _ _ _
    omega
  · intro e he
    rw [hen] at he
    simp at he
  · intro _ j hj1 hj2
    have hj : j = s.p := by omega
    subst hj
    exact ⟨b, hb, hsb⟩
  · exact hscope

theorem inv_scope_loop (s : St) (t : Nat) (b : Nat) (hInv : Inv s) (hplt : s.p < s.pe)
    (hb : byteAt s.data s.p = some b) (hsb : isScopeByte b = true)
    (ht : t = 11 ∨ t = 46 ∨ t = 83) (hcs : s.cs = t) :
    Inv { s with cs := t, p := s.p + 1 } := by
  obtain ⟨hpe, heof, hp0, hppe, hpb0, hpbp, hcnl, hln, herr, herr2, htr, h34i, hp1, hshape,
    hseg, hscope⟩ := hInv
  have hen : s.err = none := by
    rcases he : s.err with _ | e
    · rfl
    · have := (herr (by simp [he])).1; omega
  have hch : checkEarlySet t = false := by
    rcases ht with rfl | rfl | rfl <;> rfl
  have htl : trailerEofStates.contains t = false := by
    rcases ht with rfl | rfl | rfl <;> rfl
  refine ⟨?_, ?_, ?_, ?_, ?_, ?_, ?_, ?_, ?_, ?_, ?_, ?_, ?_, ?_, ?_, ?_⟩ <;> dsimp only
  · exact hpe
  · exact heof
  · omega
  · omega
  · exact hpb0
  · omega
  · exact hcnl
  · intro h
    exact ⟨(hln h).1, by have := (hln h).2; omega⟩
  · intro hne
    exact absurd hen hne
  · intro _ hc
    rw [hch] at hc
    simp at hc
  · intro hc
    rw [htl] at hc
    simp at hc
  · intro hc
    rcases ht with rfl | rfl | rfl <;> simp at hc
  · intro _ _ _ _
    omega
  · intro e he
    rw [hen] at he
    simp at he
  · intro _ j hj1 hj2
    by_cases hjp : j < s.p
    · exact hseg (by rw [hcs]; exact ht) j hj1 hjp
    · have hj : j = s.p := by omega
      subst hj
      exact ⟨b, hb, hsb⟩
  · exact hscope

theorem inv_count (s : St) (hInv : Inv s) (hplt : s.p < s.pe) :
    Inv { s with
      countNewlines := s.countNewlines + 1, lastNewline := s.p, cs := 87,
      p := s.p + 1 } := by
  obtain ⟨hpe, heof, hp0, hppe, hpb0, hpbp, hcnl, hln, herr, herr2, htr, h34i, hp1, hshape,
    hseg, hscope⟩ := hInv
  have hen : s.err = none := by
    rcases he : s.err with _ | e
    · rfl
    · have := (herr (by simp [he])).1; omega
  refine ⟨?_, ?_, ?_, ?_, ?_, ?_, ?_, ?_, ?_, ?_, ?_, ?_, ?_, ?_, ?_, ?_⟩ <;> dsimp only
  · exact hpe
  · exact heof
  · omega
  · omega
  · exact hpb0
  · omega
  · omega
  · intro _
    exact ⟨hp0, by omega⟩
  · intro hne
    exact absurd hen hne
  · intro _ hc
    simp [checkEarlySet] at hc
  · intro hc
    simp [trailerEofStates] at hc
  · intro hc
    simp at hc
  · intro _ _ _ _
    omega
  · intro e he
    rw [hen] at he
    simp at he
  · intro hc
    simp at hc
  · exact hscope

theorem inv_rewind (s : St) (pb2 : Int) (hInv : Inv s) (hen : s.err = none)
    (h0 : 0 ≤ pb2) (hlt : pb2 < s.pe)
    (hlnb : s.countNewlines > 0 → s.lastNewline < pb2) :
    Inv { s with pb := pb2, p := pb2 - 1 + 1, cs := 34 } := by
  obtain ⟨hpe, heof, hp0, hppe, hpb0, hpbp, hcnl, hln, herr, herr2, htr, h34i, hp1, hshape,
    hseg, hscope⟩ := hInv
  refine ⟨?_, ?_, ?_, ?_, ?_, ?_, ?_, ?_, ?_, ?_, ?_, ?_, ?_, ?_, ?_, ?_⟩ <;> dsimp only
  · exact hpe
  · exact heof
  · omega
  · omega
  · omega
  · omega
  · exact hcnl
  · intro h
    exact ⟨(hln h).1, by have := hlnb h; omega⟩
  · intro hne
    exact absurd hen hne
  · intro _ hc
    simp [checkEarlySet] at hc
  · intro hc
    simp [trailerEofStates] at hc
  · intro _
    omega
  · intro _ _ _ hc
    exact absurd rfl hc
  · intro e he
    rw [hen] at he
    simp at he
  · intro hc
    simp at hc
  · exact hscope

/-! ### Step-goal helpers: discharge `StepFacts` for each transition shape -/

theorem frame_rfl (s : St) : Frame s s := ⟨rfl, rfl, rfl, rfl, rfl⟩

theorem goalOfNext (s X : St) (res : StepRes) (h : StepRes.next X = res)
    (h1 : Inv { X with p := X.p + 1 }) (h2 : Frame s X) : StepFacts s res := by
  subst h
  refine ⟨by simp, ?_, ?_⟩
  · intro a ha
    injection ha with ha
    subst ha
    exact ⟨h1, h2⟩
  · intro a ha
    simp at ha

theorem goalOfHalt (s X : St) (res : StepRes) (h : StepRes.halt X = res)
    (h1 : Frame s X)
    (h2 : ∀ e, X.err = some e → ∃ base n, e = base ++ colSuffix n ∧ 0 ≤ n ∧ n ≤ s.pe)
    (h3 : ∀ sc, X.scope = some sc → ∀ c ∈ sc, isScopeByte c = true)
    (h4 : X.err ≠ none → X.cs < firstFinal) : StepFacts s res := by
  subst h
  refine ⟨by simp, ?_, ?_⟩
  · intro a ha
    simp at ha
  · intro a ha
    injection ha with ha
    subst ha
    exact ⟨h1, h2, h3, h4⟩

theorem goal_advance (s s' : St) (t : Nat) (res : StepRes)
    (hfr : Frame s s') (hInv : Inv s') (hplt : s'.p < s'.pe)
    (h1 : checkEarlySet t = false)
    (h2 : trailerEofStates.contains t = false)
    (h3 : t ≠ 34)
    (h7 : ¬(t = 11 ∨ t = 46 ∨ t = 83))
    (h : StepRes.next { s' with cs := t } = res) : StepFacts s res :=
  goalOfNext s _ res h (inv_advance s' t hInv hplt h1 h2 h3 h7)
    ⟨hfr.1, hfr.2.1, hfr.2.2.1, hfr.2.2.2.1, hfr.2.2.2.2⟩

theorem goal_advance_trailer (s : St) (t : Nat) (res : StepRes)
    (hInv : Inv s) (hplt : s.p < s.pe)
    (hsrc : trailerEofStates.contains s.cs = true)
    (h1 : checkEarlySet t = false)
    (h2 : trailerEofStates.contains t = true)
    (h : StepRes.next { s with cs := t } = res) : StepFacts s res := by
  refine goalOfNext s _ res h ?_ (frame_rfl s)
  obtain ⟨hpe, heof, hp0, hppe, hpb0, hpbp, hcnl, hln, herr, herr2, htr, h34i, hp1, hshape,
    hseg, hscope⟩ := hInv
  have hen : s.err = none := by
    rcases he : s.err with _ | e
    · rfl
    · have := (herr (by simp [he])).1; omega
  refine ⟨?_, ?_, ?_, ?_, ?_, ?_, ?_, ?_, ?_, ?_, ?_, ?_, ?_, ?_, ?_, ?_⟩ <;> dsimp only
  · exact hpe
  · exact heof
  · omega
  · omega
  · exact hpb0
  · omega
  · exact hcnl
  · intro hh
    exact ⟨(hln hh).1, by have := (hln hh).2; omega⟩
  · intro hne
    exact absurd hen hne
  · intro _ hch
    rw [h1] at hch
    simp at hch
  · intro _
    exact htr hsrc
  · intro hc
    rw [hc] at h2
    simp [trailerEofStates] at h2
  · intro _ _ _ _
    omega
  · intro e he
    rw [hen] at he
    simp at he
  · intro hc
    rcases hc with rfl | rfl | rfl <;> simp [trailerEofStates] at h2
  · exact hscope

theorem goal_mark (s s' : St) (t : Nat) (res : StepRes)
    (hfr : Frame s s') (hInv : Inv s') (hplt : s'.p < s'.pe)
    (h1 : checkEarlySet t = false)
    (h2 : trailerEofStates.contains t = true → 1 ≤ s'.p)
    (h3 : t ≠ 34)
    (h7 : ¬(t = 11 ∨ t = 46 ∨ t = 83))
    (h : StepRes.next { s' with pb := s'.p, cs := t } = res) : StepFacts s res :=
  goalOfNext s _ res h (inv_mark s' t hInv hplt h1 h2 h3 h7)
    ⟨hfr.1, hfr.2.1, hfr.2.2.1, hfr.2.2.2.1, hfr.2.2.2.2⟩

theorem goal_goto (s s' : St) (b : Nat) (t : Nat) (res : StepRes)
    (hfr : Frame s s') (hInv : Inv s') (hplt : s'.p < s'.pe)
    (h2 : trailerEofStates.contains t = false)
    (h3 : t ≠ 34)
    (h7 : ¬(t = 11 ∨ t = 46 ∨ t = 83))
    (h : gotoSt s' b t = res) : StepFacts s res := by
  unfold gotoSt at h
  exact goalOfNext s _ res h (inv_goto s' b t hInv hplt h2 h3 h7)
    ⟨hfr.1, hfr.2.1, hfr.2.2.1, hfr.2.2.2.1, hfr.2.2.2.2⟩

theorem goal_mark_scope (s : St) (t : Nat) (b : Nat) (res : StepRes)
    (hInv : Inv s) (hplt : s.p < s.pe)
    (hb : byteAt s.data s.p = some b) (hsb : isScopeByte b = true)
    (ht : t = 11 ∨ t = 46 ∨ t = 83)
    (h : StepRes.next { s with pb := s.p, cs := t } = res) : StepFacts s res :=
  goalOfNext s _ res h (inv_mark_scope s t b hInv hplt hb hsb ht) (frame_rfl s)

theorem goal_scope_loop (s : St) (t : Nat) (b : Nat) (res : StepRes)
    (hInv : Inv s) (hplt : s.p < s.pe)
    (hb : byteAt s.data s.p = some b) (hsb : isScopeByte b = true)
    (ht : t = 11 ∨ t = 46 ∨ t = 83) (hcs : s.cs = t)
    (h : StepRes.next { s with cs := t } = res) : StepFacts s res :=
  goalOfNext s _ res h (inv_scope_loop s t b hInv hplt hb hsb ht hcs) (frame_rfl s)

theorem goal_count (s s' : St) (res : StepRes)
    (hfr : Frame s s') (hInv : Inv s') (hplt : s'.p < s'.pe)
    (h : StepRes.next { s' with
            countNewlines := s'.countNewlines + 1,
            lastNewline := s'.p, cs := 87 } = res) : StepFacts s res :=
  goalOfNext s _ res h (inv_count s' hInv hplt)
    ⟨hfr.1, hfr.2.1, hfr.2.2.1, hfr.2.2.2.1, hfr.2.2.2.2⟩

theorem goal_halt0 (s s' : St) (res : StepRes)
    (hfr : Frame s s') (hInv : Inv s') (hplt : s'.p < s'.pe)
    (h : StepRes.halt { s' with cs := 0 } = res) : StepFacts s res := by
  have hen : s'.err = none := inv_err_none s' hInv hplt
  refine goalOfHalt s _ res h
    ⟨hfr.1, hfr.2.1, hfr.2.2.1, hfr.2.2.2.1, hfr.2.2.2.2⟩ ?_ ?_ ?_
  · intro e he
    dsimp only at he
    rw [hen] at he
    simp at he
  · intro sc hsc
    exact hInv.hscope sc hsc
  · intro _
    simp [firstFinal]

theorem goal_halt_default (s : St) (res : StepRes)
    (hInv : Inv s) (hplt : s.p < s.pe)
    (h : StepRes.halt s = res) : StepFacts s res := by
  have hen : s.err = none := inv_err_none s hInv hplt
  refine goalOfHalt s _ res h (frame_rfl s) ?_ hInv.hscope ?_
  · intro e he
    rw [hen] at he
    simp at he
  · intro hne
    exact absurd hen hne

theorem goal_halt_err (s s' : St) (res : StepRes) (e : List Nat) (n : Int)
    (hfr : Frame s s') (hsc : ∀ sc, s'.scope = some sc → ∀ c ∈ sc, isScopeByte c = true)
    (hshape : ∃ base, e = base ++ colSuffix n) (h0 : 0 ≤ n) (h1 : n ≤ s.pe)
    (h : StepRes.halt { s' with cs := 0, err := some e } = res) : StepFacts s res := by
  refine goalOfHalt s _ res h
    ⟨hfr.1, hfr.2.1, hfr.2.2.1, hfr.2.2.2.1, hfr.2.2.2.2⟩ ?_ ?_ ?_
  · intro e' he
    dsimp only at he
    injection he with he
    obtain ⟨base, hbs⟩ := hshape
    exact ⟨base, n, by rw [← he, hbs], h0, h1⟩
  · intro sc h2
    exact hsc sc h2
  · intro _
    simp [firstFinal]

theorem goal_tr0 (s : St) (b : Nat) (res : StepRes)
    (hInv : Inv s) (hplt : s.p < s.pe)
    (h : tr0 s b = res) : StepFacts s res := by
  unfold tr0 at h
  have hpe0 : s.pe > 0 := by have := hInv.hp0; omega
  rw [if_pos hpe0, if_pos (by omega : s.p ≠ s.pe)] at h
  exact goal_halt_err s s res (errTypeS b s.p) s.p (frame_rfl s) hInv.hscope
    (errTypeS_shape b s.p) hInv.hp0 (by have := hInv.hppe; omega) h

theorem goal_tr6 (s : St) (b : Nat) (res : StepRes)
    (hInv : Inv s) (hplt : s.p < s.pe)
    (h : tr6 s b = res) : StepFacts s res := by
  unfold tr6 at h
  rw [if_pos (inv_err_none s hInv hplt)] at h
  exact goal_halt_err s s res (errColonS b s.p) s.p (frame_rfl s) hInv.hscope
    (errColonS_shape b s.p) hInv.hp0 (by have := hInv.hppe; omega) h

theorem goal_tr10 (s : St) (b : Nat) (res : StepRes)
    (hInv : Inv s) (hplt : s.p < s.pe)
    (h : tr10 s b = res) : StepFacts s res := by
  unfold tr10 at h
  rw [if_pos (inv_err_none s hInv hplt)] at h
  exact goal_halt_err s s res (errDescriptionInitS b s.p) s.p (frame_rfl s) hInv.hscope
    (errDescriptionInitS_shape b s.p) hInv.hp0 (by have := hInv.hppe; omega) h

theorem goal_tr13 (s : St) (res : StepRes)
    (hInv : Inv s) (hplt : s.p < s.pe)
    (h : tr13 s 10 = res) : StepFacts s res := by
  unfold tr13 at h
  rw [if_pos ⟨hplt, rfl⟩] at h
  exact goal_halt_err s s res (errNewlineS (s.p + 1)) (s.p + 1) (frame_rfl s) hInv.hscope
    (errNewlineS_shape (s.p + 1)) (by have := hInv.hp0; omega) (by omega) h

theorem goal_tr14 (s : St) (res : StepRes)
    (hInv : Inv s) (hplt : s.p < s.pe)
    (h : tr14 s = res) : StepFacts s res := by
  unfold tr14 at h
  exact goal_halt_err s s res (errMissingBlankLineS s.p) s.p (frame_rfl s) hInv.hscope
    (errMissingBlankLineS_shape s.p) hInv.hp0 (by have := hInv.hppe; omega) h

theorem goal_tr16 (s : St) (b : Nat) (res : StepRes)
    (hInv : Inv s) (hplt : s.p < s.pe)
    (h : tr16 s b = res) : StepFacts s res := by
  unfold tr16 at h
  rw [if_pos hplt] at h
  exact goal_halt_err s s res (errScopeS b s.p) s.p (frame_rfl s) hInv.hscope
    (errScopeS_shape b s.p) hInv.hp0 (by have := hInv.hppe; omega) h

theorem goal_rewind_mid (s : St) (b : Nat) (res : StepRes)
    (hInv : Inv s) (hplt : s.p < s.pe) (hb : byteAt s.data s.p = some b)
    (h : rewindA s = res) : StepFacts s res := by
  unfold rewindA at h
  by_cases hfo : s.footers = []
  · rw [if_pos hfo] at h
    by_cases hpos : s.countNewlines > 0
    · rw [if_pos hpos] at h
      refine goalOfNext s _ res h ?_ (frame_rfl s)
      have hr := inv_rewind s (s.lastNewline + 1) hInv (inv_err_none s hInv hplt)
        (by have := (hInv.hln hpos).1; omega)
        (by have := (hInv.hln hpos).2; omega)
        (fun _ => by omega)
      exact hr
    · rw [if_neg hpos] at h
      refine goalOfNext s _ res h ?_ (frame_rfl s)
      exact inv_rewind s s.pb hInv (inv_err_none s hInv hplt) hInv.hpb0
        (by have := hInv.hpbp; omega) (fun hp => absurd hp hpos)
  · rw [if_neg hfo, if_pos (by omega : s.p ≠ s.pe), hb] at h
    exact goal_halt_err s s res (errTrailerS b s.p) s.p (frame_rfl s) hInv.hscope
      (errTrailerS_shape b s.p) hInv.hp0 (by have := hInv.hppe; omega) h

theorem inv_otype (s : St) (hInv : Inv s) (o : List Nat) : Inv { s with otype := o } := by
  obtain ⟨hpe, heof, hp0, hppe, hpb0, hpbp, hcnl, hln, herr, herr2, htr, h34i, hp1, hshape,
    hseg, hscope⟩ := hInv
  exact ⟨hpe, heof, hp0, hppe, hpb0, hpbp, hcnl, hln, herr, herr2, htr, h34i, hp1, hshape,
    hseg, hscope⟩

theorem inv_descr (s : St) (hInv : Inv s) (d : List Nat) : Inv { s with descr := d } := by
  obtain ⟨hpe, heof, hp0, hppe, hpb0, hpbp, hcnl, hln, herr, herr2, htr, h34i, hp1, hshape,
    hseg, hscope⟩ := hInv
  exact ⟨hpe, heof, hp0, hppe, hpb0, hpbp, hcnl, hln, herr, herr2, htr, h34i, hp1, hshape,
    hseg, hscope⟩

theorem inv_key (s : St) (hInv : Inv s) (k : List Nat) :
    Inv { s with currentFooterKey := k } := by
  obtain ⟨hpe, heof, hp0, hppe, hpb0, hpbp, hcnl, hln, herr, herr2, htr, h34i, hp1, hshape,
    hseg, hscope⟩ := hInv
  exact ⟨hpe, heof, hp0, hppe, hpb0, hpbp, hcnl, hln, herr, herr2, htr, h34i, hp1, hshape,
    hseg, hscope⟩

theorem inv_excl (s : St) (hInv : Inv s) : Inv { s with exclamation := true } := by
  obtain ⟨hpe, heof, hp0, hppe, hpb0, hpbp, hcnl, hln, herr, herr2, htr, h34i, hp1, hshape,
    hseg, hscope⟩ := hInv
  exact ⟨hpe, heof, hp0, hppe, hpb0, hpbp, hcnl, hln, herr, herr2, htr, h34i, hp1, hshape,
    hseg, hscope⟩

theorem inv_footers (s : St) (hInv : Inv s) (f : List (List Nat × List (List Nat))) :
    Inv { s with footers := f } := by
  obtain ⟨hpe, heof, hp0, hppe, hpb0, hpbp, hcnl, hln, herr, herr2, htr, h34i, hp1, hshape,
    hseg, hscope⟩ := hInv
  exact ⟨hpe, heof, hp0, hppe, hpb0, hpbp, hcnl, hln, herr, herr2, htr, h34i, hp1, hshape,
    hseg, hscope⟩

theorem inv_scope_set (s : St) (hInv : Inv s) (sc : List Nat)
    (hsc : ∀ c ∈ sc, isScopeByte c = true) : Inv { s with scope := some sc } := by
  obtain ⟨hpe, heof, hp0, hppe, hpb0, hpbp, hcnl, hln, herr, herr2, htr, h34i, hp1, hshape,
    hseg, hscope⟩ := hInv
  refine ⟨hpe, heof, hp0, hppe, hpb0, hpbp, hcnl, hln, herr, herr2, htr, h34i, hp1, hshape,
    hseg, ?_⟩
  intro sc' hsc' c hc
  dsimp only at hsc'
  injection hsc' with hsc'
  subst hsc'
  exact hsc c hc

theorem inv_body_cnl0 (s : St) (hInv : Inv s) (b2 : List Nat) :
    Inv { s with body := b2, countNewlines := 0 } := by
  obtain ⟨hpe, heof, hp0, hppe, hpb0, hpbp, hcnl, hln, herr, herr2, htr, h34i, hp1, hshape,
    hseg, hscope⟩ := hInv
  refine ⟨hpe, heof, hp0, hppe, hpb0, hpbp, ?_, ?_, herr, herr2, ?_, h34i, hp1, hshape,
    hseg, hscope⟩ <;> dsimp only
  · omega
  · intro hh
    omega
  · intro hc
    obtain ⟨a1, a2, _⟩ := htr hc
    exact ⟨a1, a2, fun hh => by omega⟩

/-- The bytes of a scope slice taken in a scope-content state are scope bytes. -/
theorem scope_bytes (s : St) (hInv : Inv s) (hcs : s.cs = 11 ∨ s.cs = 46 ∨ s.cs = 83)
    (T : List Nat) (hT : textSlice s.data s.pb s.p = some T) :
    ∀ c ∈ T, isScopeByte c = true := by
  intro c hc
  obtain ⟨j, hj1, hj2, hbj⟩ := textSlice_mem s.data s.pb s.p T c hT hc
  obtain ⟨c', hc', hs'⟩ := hInv.hseg hcs j hj1 hj2
  rw [hbj] at hc'
  injection hc' with hc'
  subst hc'
  exact hs'

theorem goal_setkey (s : St) (t : Nat) (res : StepRes)
    (hInv : Inv s) (hplt : s.p < s.pe)
    (hsrc : trailerEofStates.contains s.cs = true)
    (h1 : checkEarlySet t = false)
    (h2 : trailerEofStates.contains t = true)
    (h : setFooterKey s t = res) : StepFacts s res := by
  unfold setFooterKey at h
  rw [textSlice_some s.data s.pb s.p hInv.hpb0 hInv.hpbp
    (by have := hInv.hppe; rw [← hInv.hpe]; omega)] at h
  dsimp only at h
  have hInv' := inv_key s hInv
    (if toLowerAscii ((s.data.take s.p.toNat).drop s.pb.toNat) = asciiBytes "breaking change"
     then asciiBytes "breaking-change"
     else toLowerAscii ((s.data.take s.p.toNat).drop s.pb.toNat))
  refine (goal_advance_trailer
    { s with currentFooterKey :=
        (if toLowerAscii ((s.data.take s.p.toNat).drop s.pb.toNat) = asciiBytes "breaking change"
         then asciiBytes "breaking-change"
         else toLowerAscii ((s.data.take s.p.toNat).drop s.pb.toNat)) }
    t res hInv' hplt hsrc h1 h2 h).imp id (fun hh => hh.imp ?_ ?_)
  · intro hnext a ha
    exact ⟨(hnext a ha).1, (hnext a ha).2⟩
  · intro hhalt a ha
    exact hhalt a ha

theorem goal_descr_set (s : St) (t : Nat) (res : StepRes)
    (hInv : Inv s) (hplt : s.p < s.pe)
    (h1 : checkEarlySet t = false)
    (h2 : trailerEofStates.contains t = false)
    (h3 : t ≠ 34)
    (h7 : ¬(t = 11 ∨ t = 46 ∨ t = 83))
    (h : (match textSlice s.data s.pb s.p with
          | none => StepRes.oops
          | some tx => StepRes.next { s with descr := tx, cs := t }) = res) :
    StepFacts s res := by
  rw [textSlice_some s.data s.pb s.p hInv.hpb0 hInv.hpbp
    (by have := hInv.hppe; rw [← hInv.hpe]; omega)] at h
  dsimp only at h
  exact goal_advance s { s with descr := ((s.data.take s.p.toNat).drop s.pb.toNat) } t res
    (frame_rfl s)
    (inv_descr s hInv ((s.data.take s.p.toNat).drop s.pb.toNat)) hplt h1 h2 h3 h7 h

theorem inv_pb_mark (s : St) (hInv : Inv s)
    (hns : trailerEofStates.contains s.cs = false)
    (hnseg : ¬(s.cs = 11 ∨ s.cs = 46 ∨ s.cs = 83)) :
    Inv { s with pb := s.p } := by
  obtain ⟨hpe, heof, hp0, hppe, hpb0, hpbp, hcnl, hln, herr, herr2, htr, h34i, hp1, hshape,
    hseg, hscope⟩ := hInv
  refine ⟨hpe, heof, hp0, hppe, ?_, ?_, hcnl, hln, herr, herr2, ?_, h34i, hp1, hshape, ?_,
    hscope⟩ <;> dsimp only
  · omega
  · omega
  · intro hc
    rw [hns] at hc
    simp at hc
  · intro hc
    exact absurd hc hnseg

theorem inv_tr109 (s : St) (hInv : Inv s) (hplt : s.p < s.pe) (b3 : List Nat) :
    Inv { s with
      body := b3, countNewlines := 0, pb := s.pb + 1, p := s.p + 1 - 1 + 1, cs := 87 } := by
  obtain ⟨hpe, heof, hp0, hppe, hpb0, hpbp, hcnl, hln, herr, herr2, htr, h34i, hp1, hshape,
    hseg, hscope⟩ := hInv
  have hen : s.err = none := by
    rcases he : s.err with _ | e
    · rfl
    · have := (herr (by simp [he])).1; omega
  refine ⟨?_, ?_, ?_, ?_, ?_, ?_, ?_, ?_, ?_, ?_, ?_, ?_, ?_, ?_, ?_, ?_⟩ <;> dsimp only
  · exact hpe
  · exact heof
  · omega
  · omega
  · omega
  · omega
  · omega
  · intro hh
    omega
  · intro hne
    exact absurd hen hne
  · intro _ hc
    simp [checkEarlySet] at hc
  · intro hc
    simp [trailerEofStates] at hc
  · intro hc
    simp at hc
  · intro _ _ _ _
    omega
  · intro e he
    rw [hen] at he
    simp at he
  · intro hc
    simp at hc
  · exact hscope

theorem appendBodyO_some (s : St) (h0 : 0 ≤ s.pb) (h1 : s.pb ≤ s.p)
    (h2 : s.p ≤ (s.data.length : Int)) :
    appendBodyO s = some { s with
      body := (s.body ++ List.replicate s.countNewlines.toNat 10) ++
        ((s.data.take s.p.toNat).drop s.pb.toNat),
      countNewlines := 0 } := by
  unfold appendBodyO
  dsimp only
  rw [textSlice_some s.data s.pb s.p h0 h1 h2]
  rfl

theorem goal_tr44 (s : St) (res : StepRes) (hInv : Inv s) (hplt : s.p < s.pe)
    (h : (match appendBodyO s with
          | none => StepRes.oops
          | some s1 => StepRes.next { s1 with cs := 87 }) = res) : StepFacts s res := by
  rw [appendBodyO_some s hInv.hpb0 hInv.hpbp (by have := hInv.hppe; rw [← hInv.hpe]; omega)]
    at h
  dsimp only at h
  exact goal_advance s
    { s with
        body := (s.body ++ List.replicate s.countNewlines.toNat 10) ++
          ((s.data.take s.p.toNat).drop s.pb.toNat),
        countNewlines := 0 } 87 res ⟨rfl, rfl, rfl, rfl, rfl⟩
    (inv_body_cnl0 s hInv _) hplt (by decide) (by decide) (by decide) (by decide) h

theorem goal_tr110 (s : St) (res : StepRes) (hInv : Inv s) (hplt : s.p < s.pe)
    (h : (match appendBodyO s with
          | none => StepRes.oops
          | some s1 => StepRes.next { s1 with pb := s1.p, cs := 92 }) = res) :
    StepFacts s res := by
  rw [appendBodyO_some s hInv.hpb0 hInv.hpbp (by have := hInv.hppe; rw [← hInv.hpe]; omega)]
    at h
  dsimp only at h
  exact goal_mark s
    { s with
        body := (s.body ++ List.replicate s.countNewlines.toNat 10) ++
          ((s.data.take s.p.toNat).drop s.pb.toNat),
        countNewlines := 0 } 92 res ⟨rfl, rfl, rfl, rfl, rfl⟩
    (inv_body_cnl0 s hInv _) hplt (by decide) (by simp [trailerEofStates]) (by decide)
    (by decide) h

theorem goal_tr109 (s : St) (res : StepRes) (hInv : Inv s) (hplt : s.p < s.pe)
    (h : (match appendBodyO s with
          | none => StepRes.oops
          | some s1 =>
            match textSlice s1.data (s1.pb + 1) (s1.p + 1) with
            | none => StepRes.oops
            | some t2 =>
              StepRes.next { s1 with
                pb := s1.pb + 1, p := s1.p + 1 - 1,
                body := s1.body ++ t2, cs := 87 }) = res) : StepFacts s res := by
  rw [appendBodyO_some s hInv.hpb0 hInv.hpbp (by have := hInv.hppe; rw [← hInv.hpe]; omega)]
    at h
  dsimp only at h
  rw [textSlice_some s.data (s.pb + 1) (s.p + 1) (by have := hInv.hpb0; omega)
    (by have := hInv.hpbp; omega) (by have := hInv.hpe; omega)] at h
  dsimp only at h
  exact goalOfNext s _ res h (inv_tr109 s hInv hplt _) ⟨rfl, rfl, rfl, rfl, rfl⟩

theorem goal_footer_append (s : St) (res : StepRes) (hInv : Inv s) (hplt : s.p < s.pe)
    (h : (match textSlice s.data s.pb s.p with
          | none => StepRes.oops
          | some t =>
            StepRes.next { s with
              footers := addFooter s.footers s.currentFooterKey t,
              countNewlines := s.countNewlines + 1, lastNewline := s.p, cs := 87 }) = res) :
    StepFacts s res := by
  rw [textSlice_some s.data s.pb s.p hInv.hpb0 hInv.hpbp
    (by have := hInv.hppe; rw [← hInv.hpe]; omega)] at h
  dsimp only at h
  exact goal_count s
    { s with
        footers := addFooter s.footers s.currentFooterKey
          ((s.data.take s.p.toNat).drop s.pb.toNat) } res ⟨rfl, rfl, rfl, rfl, rfl⟩
    (inv_footers s hInv _) hplt h

theorem goal_scope_close (s : St) (b t : Nat) (res : StepRes)
    (hInv : Inv s) (hplt : s.p < s.pe)
    (hcs : s.cs = 11 ∨ s.cs = 46 ∨ s.cs = 83)
    (h2 : trailerEofStates.contains t = false)
    (h3 : t ≠ 34)
    (h7 : ¬(t = 11 ∨ t = 46 ∨ t = 83))
    (h : (match textSlice s.data s.pb s.p with
          | none => StepRes.oops
          | some tx => gotoSt { s with scope := some tx } b t) = res) : StepFacts s res := by
  rw [textSlice_some s.data s.pb s.p hInv.hpb0 hInv.hpbp
    (by have := hInv.hppe; rw [← hInv.hpe]; omega)] at h
  dsimp only at h
  refine goal_goto s { s with scope := some ((s.data.take s.p.toNat).drop s.pb.toNat) } b t
    res ⟨rfl, rfl, rfl, rfl, rfl⟩ ?_ hplt h2 h3 h7 h
  exact inv_scope_set s hInv _ (scope_bytes s hInv hcs _
    (textSlice_some s.data s.pb s.p hInv.hpb0 hInv.hpbp
      (by have := hInv.hppe; rw [← hInv.hpe]; omega)))

theorem goal_scope_close_empty (s : St) (b t : Nat) (res : StepRes)
    (hInv : Inv s) (hplt : s.p < s.pe)
    (hns : trailerEofStates.contains s.cs = false)
    (hnseg : ¬(s.cs = 11 ∨ s.cs = 46 ∨ s.cs = 83))
    (h2 : trailerEofStates.contains t = false)
    (h3 : t ≠ 34)
    (h7 : ¬(t = 11 ∨ t = 46 ∨ t = 83))
    (h : (match textSlice s.data s.p s.p with
          | none => StepRes.oops
          | some tx => gotoSt { s with pb := s.p, scope := some tx } b t) = res) :
    StepFacts s res := by
  rw [textSlice_some s.data s.p s.p hInv.hp0 (by omega)
    (by have := hInv.hppe; rw [← hInv.hpe]; omega)] at h
  dsimp only at h
  refine goal_goto s
    { s with pb := s.p, scope := some ((s.data.take s.p.toNat).drop s.p.toNat) } b t
    res ⟨rfl, rfl, rfl, rfl, rfl⟩ ?_ hplt h2 h3 h7 h
  refine inv_scope_set { s with pb := s.p } (inv_pb_mark s hInv hns hnseg) _ ?_
  intro c hc
  obtain ⟨j, hj1, hj2, _⟩ := textSlice_mem s.data s.p s.p _ c
    (textSlice_some s.data s.p s.p hInv.hp0 (by omega)
      (by have := hInv.hppe; rw [← hInv.hpe]; omega)) hc
  omega

set_option maxHeartbeats 4000000 in
/-- One dispatched step of the machine preserves the invariant, the frame, and
the halt guarantees, and never panics. -/
theorem step_master (s : St) (b : Nat) (res : StepRes) (hInv : Inv s)
    (hp : s.p ≠ s.pe) (hb : byteAt s.data s.p = some b)
    (h : stepCase s b = res) : StepFacts s res := by
  have hplt : s.p < s.pe := lt_of_le_of_ne hInv.hppe hp
  unfold stepCase at h
  split at h
  next =>  -- state 0
    exact goal_halt0 s s res (frame_rfl s) hInv hplt h
  next =>  -- state 1
    split_ifs at h with h1
    · exact goal_mark s s 2 res (frame_rfl s) hInv hplt (by decide) (fun hc => absurd hc (by decide)) (by decide) (by decide) h
    · exact goal_tr0 s b res hInv hplt h
  next =>  -- state 2
    split_ifs at h with h1 h2
    · exact goal_advance s s 3 res (frame_rfl s) hInv hplt (by decide) (by decide) (by decide) (by decide) h
    · exact goal_advance s s 13 res (frame_rfl s) hInv hplt (by decide) (by decide) (by decide) (by decide) h
    · exact goal_tr0 s b res hInv hplt h
  next =>  -- state 3
    split_ifs at h with h1
    · exact goal_advance s s 4 res (frame_rfl s) hInv hplt (by decide) (by decide) (by decide) (by decide) h
    · exact goal_tr0 s b res hInv hplt h
  next =>  -- state 4
    split_ifs at h with h1
    · exact goal_goto s s b 5 res (frame_rfl s) hInv hplt (by decide) (by decide) (by decide) h
    · exact goal_tr0 s b res hInv hplt h
  next =>  -- state 5
    unfold setTypeThen at h
    rw [textSlice_some s.data s.pb s.p hInv.hpb0 hInv.hpbp (by have := hInv.hppe; rw [← hInv.hpe]; omega)] at h
    dsimp only at h
    split_ifs at h with h1 h2 h3
    · exact goal_goto s { s with otype := ((s.data.take s.p.toNat).drop s.pb.toNat), exclamation := true } b 6 res ⟨rfl, rfl, rfl, rfl, rfl⟩ (inv_excl { s with otype := ((s.data.take s.p.toNat).drop s.pb.toNat) } (inv_otype s hInv ((s.data.take s.p.toNat).drop s.pb.toNat))) hplt (by decide) (by decide) (by decide) h
    · exact goal_advance s { s with otype := ((s.data.take s.p.toNat).drop s.pb.toNat) } 10 res ⟨rfl, rfl, rfl, rfl, rfl⟩ (inv_otype s hInv ((s.data.take s.p.toNat).drop s.pb.toNat)) hplt (by decide) (by decide) (by decide) (by decide) h
    · exact goal_goto s { s with otype := ((s.data.take s.p.toNat).drop s.pb.toNat) } b 7 res ⟨rfl, rfl, rfl, rfl, rfl⟩ (inv_otype s hInv ((s.data.take s.p.toNat).drop s.pb.toNat)) hplt (by decide) (by decide) (by decide) h
    · exact goal_tr6 { s with otype := ((s.data.take s.p.toNat).drop s.pb.toNat) } b res (inv_otype s hInv ((s.data.take s.p.toNat).drop s.pb.toNat)) hplt h
  next =>  -- state 6
    split_ifs at h with h1
    · exact goal_goto s s b 7 res (frame_rfl s) hInv hplt (by decide) (by decide) (by decide) h
    · exact goal_tr6 s b res hInv hplt h
  next =>  -- state 7
    split_ifs at h with h1
    · exact goal_advance s s 8 res (frame_rfl s) hInv hplt (by decide) (by decide) (by decide) (by decide) h
    · exact goal_tr10 s b res hInv hplt h
  next =>  -- state 8
    split_ifs at h with h1 h2
    · subst h1
      exact goal_tr13 s res hInv hplt h
    · exact goal_advance s s 8 res (frame_rfl s) hInv hplt (by decide) (by decide) (by decide) (by decide) h
    · exact goal_mark s s 85 res (frame_rfl s) hInv hplt (by decide) (fun hc => absurd hc (by decide)) (by decide) (by decide) h
  next =>  -- state 9
    split_ifs at h with h1
    · exact goal_advance s s 87 res (frame_rfl s) hInv hplt (by decide) (by decide) (by decide) (by decide) h
    · exact goal_tr14 s res hInv hplt h
  next hcs =>  -- state 10
    dsimp only at h
    split_ifs at h with h1 h2
    · exact goal_scope_close_empty s b 12 res hInv hplt (by rw [hcs]; decide) (by rw [hcs]; decide) (by decide) (by decide) (by decide) h
    · exact goal_mark_scope s 11 b res hInv hplt hb h2 (by decide) h
    · exact goal_tr16 s b res hInv hplt h
  next hcs =>  -- state 11
    split_ifs at h with h1 h2
    · exact goal_scope_close s b 12 res hInv hplt (Or.inl hcs) (by decide) (by decide) (by decide) h
    · exact goal_scope_loop s 11 b res hInv hplt hb h2 (by decide) hcs h
    · exact goal_tr16 s b res hInv hplt h
  next =>  -- state 12
    split_ifs at h with h1 h2
    · exact goal_goto s { s with exclamation := true } b 6 res ⟨rfl, rfl, rfl, rfl, rfl⟩ (inv_excl s hInv) hplt (by decide) (by decide) (by decide) h
    · exact goal_goto s s b 7 res (frame_rfl s) hInv hplt (by decide) (by decide) (by decide) h
    · exact goal_tr6 s b res hInv hplt h
  next =>  -- state 13
    split_ifs at h with h1
    · exact goal_goto s s b 5 res (frame_rfl s) hInv hplt (by decide) (by decide) (by decide) h
    · exact goal_tr0 s b res hInv hplt h
  next hcs =>  -- state 14
    split_ifs at h with h1 h2 h3 h4
    · exact goal_setkey s 15 res hInv hplt (by rw [hcs]; decide) (by decide) (by decide) h
    · exact goal_advance_trailer s 16 res hInv hplt (by rw [hcs]; decide) (by decide) (by decide) h
    · exact goal_setkey s 17 res hInv hplt (by rw [hcs]; decide) (by decide) (by decide) h
    · exact goal_advance_trailer s 14 res hInv hplt (by rw [hcs]; decide) (by decide) (by decide) h
    · exact goal_rewind_mid s b res hInv hplt hb h
  next =>  -- state 15
    split_ifs at h with h1
    · exact goal_advance s s 33 res (frame_rfl s) hInv hplt (by decide) (by decide) (by decide) (by decide) h
    · exact goal_rewind_mid s b res hInv hplt hb h
  next hcs =>  -- state 16
    split_ifs at h with h1
    · exact goal_advance_trailer s 14 res hInv hplt (by rw [hcs]; decide) (by decide) (by decide) h
    · exact goal_rewind_mid s b res hInv hplt hb h
  next =>  -- state 17
    split_ifs at h with h1
    · exact goal_advance s s 33 res (frame_rfl s) hInv hplt (by decide) (by decide) (by decide) (by decide) h
    · exact goal_rewind_mid s b res hInv hplt hb h
  next hcs =>  -- state 18
    split_ifs at h with h1 h2 h3 h4 h5
    · exact goal_setkey s 15 res hInv hplt (by rw [hcs]; decide) (by decide) (by decide) h
    · exact goal_advance_trailer s 16 res hInv hplt (by rw [hcs]; decide) (by decide) (by decide) h
    · exact goal_setkey s 17 res hInv hplt (by rw [hcs]; decide) (by decide) (by decide) h
    · exact goal_advance_trailer s 19 res hInv hplt (by rw [hcs]; decide) (by decide) (by decide) h
    · exact goal_advance_trailer s 14 res hInv hplt (by rw [hcs]; decide) (by decide) (by decide) h
    · exact goal_rewind_mid s b res hInv hplt hb h
  next hcs =>  -- state 19
    split_ifs at h with h1 h2 h3 h4 h5
    · exact goal_setkey s 15 res hInv hplt (by rw [hcs]; decide) (by decide) (by decide) h
    · exact goal_advance_trailer s 16 res hInv hplt (by rw [hcs]; decide) (by decide) (by decide) h
    · exact goal_setkey s 17 res hInv hplt (by rw [hcs]; decide) (by decide) (by decide) h
    · exact goal_advance_trailer s 20 res hInv hplt (by rw [hcs]; decide) (by decide) (by decide) h
    · exact goal_advance_trailer s 14 res hInv hplt (by rw [hcs]; decide) (by decide) (by decide) h
    · exact goal_rewind_mid s b res hInv hplt hb h
  next hcs =>  -- state 20
    split_ifs at h with h1 h2 h3 h4 h5
    · exact goal_setkey s 15 res hInv hplt (by rw [hcs]; decide) (by decide) (by decide) h
    · exact goal_advance_trailer s 16 res hInv hplt (by rw [hcs]; decide) (by decide) (by decide) h
    · exact goal_setkey s 17 res hInv hplt (by rw [hcs]; decide) (by decide) (by decide) h
    · exact goal_advance_trailer s 21 res hInv hplt (by rw [hcs]; decide) (by decide) (by decide) h
    · exact goal_advance_trailer s 14 res hInv hplt (by rw [hcs]; decide) (by decide) (by decide) h
    · exact goal_rewind_mid s b res hInv hplt hb h
  next hcs =>  -- state 21
    split_ifs at h with h1 h2 h3 h4 h5
    · exact goal_setkey s 15 res hInv hplt (by rw [hcs]; decide) (by decide) (by decide) h
    · exact goal_advance_trailer s 16 res hInv hplt (by rw [hcs]; decide) (by decide) (by decide) h
    · exact goal_setkey s 17 res hInv hplt (by rw [hcs]; decide) (by decide) (by decide) h
    · exact goal_advance_trailer s 22 res hInv hplt (by rw [hcs]; decide) (by decide) (by decide) h
    · exact goal_advance_trailer s 14 res hInv hplt (by rw [hcs]; decide) (by decide) (by decide) h
    · exact goal_rewind_mid s b res hInv hplt hb h
  next hcs =>  -- state 22
    split_ifs at h with h1 h2 h3 h4 h5
    · exact goal_setkey s 15 res hInv hplt (by rw [hcs]; decide) (by decide) (by decide) h
    · exact goal_advance_trailer s 16 res hInv hplt (by rw [hcs]; decide) (by decide) (by decide) h
    · exact goal_setkey s 17 res hInv hplt (by rw [hcs]; decide) (by decide) (by decide) h
    · exact goal_advance_trailer s 23 res hInv hplt (by rw [hcs]; decide) (by decide) (by decide) h
    · exact goal_advance_trailer s 14 res hInv hplt (by rw [hcs]; decide) (by decide) (by decide) h
    · exact goal_rewind_mid s b res hInv hplt hb h
  next hcs =>  -- state 23
    split_ifs at h with h1 h2 h3 h4 h5
    · exact goal_setkey s 15 res hInv hplt (by rw [hcs]; decide) (by decide) (by decide) h
    · exact goal_advance_trailer s 16 res hInv hplt (by rw [hcs]; decide) (by decide) (by decide) h
    · exact goal_setkey s 17 res hInv hplt (by rw [hcs]; decide) (by decide) (by decide) h
    · exact goal_advance_trailer s 24 res hInv hplt (by rw [hcs]; decide) (by decide) (by decide) h
    · exact goal_advance_trailer s 14 res hInv hplt (by rw [hcs]; decide) (by decide) (by decide) h
    · exact goal_rewind_mid s b res hInv hplt hb h
  next hcs =>  -- state 24
    split_ifs at h with h1 h2 h3 h4 h5
    · exact goal_setkey s 15 res hInv hplt (by rw [hcs]; decide) (by decide) (by decide) h
    · exact goal_advance_trailer s 16 res hInv hplt (by rw [hcs]; decide) (by decide) (by decide) h
    · exact goal_setkey s 17 res hInv hplt (by rw [hcs]; decide) (by decide) (by decide) h
    · exact goal_advance_trailer s 25 res hInv hplt (by rw [hcs]; decide) (by decide) (by decide) h
    · exact goal_advance_trailer s 14 res hInv hplt (by rw [hcs]; decide) (by decide) (by decide) h
    · exact goal_rewind_mid s b res hInv hplt hb h
  next hcs =>  -- state 25
    split_ifs at h with h1 h2 h3 h4
    · exact goal_setkey s 26 res hInv hplt (by rw [hcs]; decide) (by decide) (by decide) h
    · exact goal_advance_trailer s 16 res hInv hplt (by rw [hcs]; decide) (by decide) (by decide) h
    · exact goal_setkey s 17 res hInv hplt (by rw [hcs]; decide) (by decide) (by decide) h
    · exact goal_advance_trailer s 14 res hInv hplt (by rw [hcs]; decide) (by decide) (by decide) h
    · exact goal_rewind_mid s b res hInv hplt hb h
  next hcs =>  -- state 26
    split_ifs at h with h1 h2
    · exact goal_advance s s 33 res (frame_rfl s) hInv hplt (by decide) (by decide) (by decide) (by decide) h
    · exact goal_advance_trailer s 27 res hInv hplt (by rw [hcs]; decide) (by decide) (by decide) h
    · exact goal_rewind_mid s b res hInv hplt hb h
  next hcs =>  -- state 27
    split_ifs at h with h1
    · exact goal_advance_trailer s 28 res hInv hplt (by rw [hcs]; decide) (by decide) (by decide) h
    · exact goal_rewind_mid s b res hInv hplt hb h
  next hcs =>  -- state 28
    split_ifs at h with h1
    · exact goal_advance_trailer s 29 res hInv hplt (by rw [hcs]; decide) (by decide) (by decide) h
    · exact goal_rewind_mid s b res hInv hplt hb h
  next hcs =>  -- state 29
    split_ifs at h with h1
    · exact goal_advance_trailer s 30 res hInv hplt (by rw [hcs]; decide) (by decide) (by decide) h
    · exact goal_rewind_mid s b res hInv hplt hb h
  next hcs =>  -- state 30
    split_ifs at h with h1
    · exact goal_advance_trailer s 31 res hInv hplt (by rw [hcs]; decide) (by decide) (by decide) h
    · exact goal_rewind_mid s b res hInv hplt hb h
  next hcs =>  -- state 31
    split_ifs at h with h1
    · exact goal_advance_trailer s 32 res hInv hplt (by rw [hcs]; decide) (by decide) (by decide) h
    · exact goal_rewind_mid s b res hInv hplt hb h
  next hcs =>  -- state 32
    split_ifs at h with h1
    · exact goal_setkey s 17 res hInv hplt (by rw [hcs]; decide) (by decide) (by decide) h
    · exact goal_rewind_mid s b res hInv hplt hb h
  next =>  -- state 33
    split_ifs at h with h1
    · exact goal_mark s s 90 res (frame_rfl s) hInv hplt (by decide) (fun hc => absurd hc (by decide)) (by decide) (by decide) h
    · exact goal_halt0 s s res (frame_rfl s) hInv hplt h
  next =>  -- state 34
    split_ifs at h with h1
    · exact goal_tr44 s res hInv hplt h
    · exact goal_mark s s 92 res (frame_rfl s) hInv hplt (by decide) (fun hc => absurd hc (by decide)) (by decide) (by decide) h
  next =>  -- state 35
    split_ifs at h with h1 h2 h3 h4 h5 h6 h7 h8
    · exact goal_mark s s 36 res (frame_rfl s) hInv hplt (by decide) (fun hc => absurd hc (by decide)) (by decide) (by decide) h
    · exact goal_mark s s 48 res (frame_rfl s) hInv hplt (by decide) (fun hc => absurd hc (by decide)) (by decide) (by decide) h
    · exact goal_mark s s 52 res (frame_rfl s) hInv hplt (by decide) (fun hc => absurd hc (by decide)) (by decide) (by decide) h
    · exact goal_mark s s 55 res (frame_rfl s) hInv hplt (by decide) (fun hc => absurd hc (by decide)) (by decide) (by decide) h
    · exact goal_mark s s 59 res (frame_rfl s) hInv hplt (by decide) (fun hc => absurd hc (by decide)) (by decide) (by decide) h
    · exact goal_mark s s 62 res (frame_rfl s) hInv hplt (by decide) (fun hc => absurd hc (by decide)) (by decide) (by decide) h
    · exact goal_mark s s 71 res (frame_rfl s) hInv hplt (by decide) (fun hc => absurd hc (by decide)) (by decide) (by decide) h
    · exact goal_mark s s 74 res (frame_rfl s) hInv hplt (by decide) (fun hc => absurd hc (by decide)) (by decide) (by decide) h
    · exact goal_tr0 s b res hInv hplt h
  next =>  -- state 36
    split_ifs at h with h1
    · exact goal_advance s s 37 res (frame_rfl s) hInv hplt (by decide) (by decide) (by decide) (by decide) h
    · exact goal_tr0 s b res hInv hplt h
  next =>  -- state 37
    split_ifs at h with h1
    · exact goal_advance s s 38 res (frame_rfl s) hInv hplt (by decide) (by decide) (by decide) (by decide) h
    · exact goal_tr0 s b res hInv hplt h
  next =>  -- state 38
    split_ifs at h with h1
    · exact goal_advance s s 39 res (frame_rfl s) hInv hplt (by decide) (by decide) (by decide) (by decide) h
    · exact goal_tr0 s b res hInv hplt h
  next =>  -- state 39
    split_ifs at h with h1
    · exact goal_goto s s b 40 res (frame_rfl s) hInv hplt (by decide) (by decide) (by decide) h
    · exact goal_tr0 s b res hInv hplt h
  next =>  -- state 40
    unfold setTypeThen at h
    rw [textSlice_some s.data s.pb s.p hInv.hpb0 hInv.hpbp (by have := hInv.hppe; rw [← hInv.hpe]; omega)] at h
    dsimp only at h
    split_ifs at h with h1 h2 h3
    · exact goal_goto s { s with otype := ((s.data.take s.p.toNat).drop s.pb.toNat), exclamation := true } b 41 res ⟨rfl, rfl, rfl, rfl, rfl⟩ (inv_excl { s with otype := ((s.data.take s.p.toNat).drop s.pb.toNat) } (inv_otype s hInv ((s.data.take s.p.toNat).drop s.pb.toNat))) hplt (by decide) (by decide) (by decide) h
    · exact goal_advance s { s with otype := ((s.data.take s.p.toNat).drop s.pb.toNat) } 45 res ⟨rfl, rfl, rfl, rfl, rfl⟩ (inv_otype s hInv ((s.data.take s.p.toNat).drop s.pb.toNat)) hplt (by decide) (by decide) (by decide) (by decide) h
    · exact goal_goto s { s with otype := ((s.data.take s.p.toNat).drop s.pb.toNat) } b 42 res ⟨rfl, rfl, rfl, rfl, rfl⟩ (inv_otype s hInv ((s.data.take s.p.toNat).drop s.pb.toNat)) hplt (by decide) (by decide) (by decide) h
    · exact goal_tr6 { s with otype := ((s.data.take s.p.toNat).drop s.pb.toNat) } b res (inv_otype s hInv ((s.data.take s.p.toNat).drop s.pb.toNat)) hplt h
  next =>  -- state 41
    split_ifs at h with h1
    · exact goal_goto s s b 42 res (frame_rfl s) hInv hplt (by decide) (by decide) (by decide) h
    · exact goal_tr6 s b res hInv hplt h
  next =>  -- state 42
    split_ifs at h with h1
    · exact goal_advance s s 43 res (frame_rfl s) hInv hplt (by decide) (by decide) (by decide) (by decide) h
    · exact goal_tr10 s b res hInv hplt h
  next =>  -- state 43
    split_ifs at h with h1 h2
    · subst h1
      exact goal_tr13 s res hInv hplt h
    · exact goal_advance s s 43 res (frame_rfl s) hInv hplt (by decide) (by decide) (by decide) (by decide) h
    · exact goal_mark s s 93 res (frame_rfl s) hInv hplt (by decide) (fun hc => absurd hc (by decide)) (by decide) (by decide) h
  next =>  -- state 44
    split_ifs at h with h1
    · exact goal_advance s s 87 res (frame_rfl s) hInv hplt (by decide) (by decide) (by decide) (by decide) h
    · exact goal_tr14 s res hInv hplt h
  next hcs =>  -- state 45
    dsimp only at h
    split_ifs at h with h1 h2
    · exact goal_scope_close_empty s b 47 res hInv hplt (by rw [hcs]; decide) (by rw [hcs]; decide) (by decide) (by decide) (by decide) h
    · exact goal_mark_scope s 46 b res hInv hplt hb h2 (by decide) h
    · exact goal_tr16 s b res hInv hplt h
  next hcs =>  -- state 46
    split_ifs at h with h1 h2
    · exact goal_scope_close s b 47 res hInv hplt (Or.inr (Or.inl hcs)) (by decide) (by decide) (by decide) h
    · exact goal_scope_loop s 46 b res hInv hplt hb h2 (by decide) hcs h
    · exact goal_tr16 s b res hInv hplt h
  next =>  -- state 47
    split_ifs at h with h1 h2
    · exact goal_goto s { s with exclamation := true } b 41 res ⟨rfl, rfl, rfl, rfl, rfl⟩ (inv_excl s hInv) hplt (by decide) (by decide) (by decide) h
    · exact goal_goto s s b 42 res (frame_rfl s) hInv hplt (by decide) (by decide) (by decide) h
    · exact goal_tr6 s b res hInv hplt h
  next =>  -- state 48
    split_ifs at h with h1 h2
    · exact goal_advance s s 49 res (frame_rfl s) hInv hplt (by decide) (by decide) (by decide) (by decide) h
    · exact goal_goto s s b 40 res (frame_rfl s) hInv hplt (by decide) (by decide) (by decide) h
    · exact goal_tr0 s b res hInv hplt h
  next =>  -- state 49
    split_ifs at h with h1
    · exact goal_advance s s 50 res (frame_rfl s) hInv hplt (by decide) (by decide) (by decide) (by decide) h
    · exact goal_tr0 s b res hInv hplt h
  next =>  -- state 50
    split_ifs at h with h1
    · exact goal_advance s s 51 res (frame_rfl s) hInv hplt (by decide) (by decide) (by decide) (by decide) h
    · exact goal_tr0 s b res hInv hplt h
  next =>  -- state 51
    split_ifs at h with h1
    · exact goal_goto s s b 40 res (frame_rfl s) hInv hplt (by decide) (by decide) (by decide) h
    · exact goal_tr0 s b res hInv hplt h
  next =>  -- state 52
    split_ifs at h with h1
    · exact goal_advance s s 53 res (frame_rfl s) hInv hplt (by decide) (by decide) (by decide) (by decide) h
    · exact goal_tr0 s b res hInv hplt h
  next =>  -- state 53
    split_ifs at h with h1
    · exact goal_advance s s 54 res (frame_rfl s) hInv hplt (by decide) (by decide) (by decide) (by decide) h
    · exact goal_tr0 s b res hInv hplt h
  next =>  -- state 54
    split_ifs at h with h1
    · exact goal_goto s s b 40 res (frame_rfl s) hInv hplt (by decide) (by decide) (by decide) h
    · exact goal_tr0 s b res hInv hplt h
  next =>  -- state 55
    split_ifs at h with h1 h2
    · exact goal_advance s s 56 res (frame_rfl s) hInv hplt (by decide) (by decide) (by decide) (by decide) h
    · exact goal_advance s s 58 res (frame_rfl s) hInv hplt (by decide) (by decide) (by decide) (by decide) h
    · exact goal_tr0 s b res hInv hplt h
  next =>  -- state 56
    split_ifs at h with h1
    · exact goal_advance s s 57 res (frame_rfl s) hInv hplt (by decide) (by decide) (by decide) (by decide) h
    · exact goal_tr0 s b res hInv hplt h
  next =>  -- state 57
    split_ifs at h with h1
    · exact goal_goto s s b 40 res (frame_rfl s) hInv hplt (by decide) (by decide) (by decide) h
    · exact goal_tr0 s b res hInv hplt h
  next =>  -- state 58
    split_ifs at h with h1
    · exact goal_goto s s b 40 res (frame_rfl s) hInv hplt (by decide) (by decide) (by decide) h
    · exact goal_tr0 s b res hInv hplt h
  next =>  -- state 59
    split_ifs at h with h1
    · exact goal_advance s s 60 res (frame_rfl s) hInv hplt (by decide) (by decide) (by decide) (by decide) h
    · exact goal_tr0 s b res hInv hplt h
  next =>  -- state 60
    split_ifs at h with h1
    · exact goal_advance s s 61 res (frame_rfl s) hInv hplt (by decide) (by decide) (by decide) (by decide) h
    · exact goal_tr0 s b res hInv hplt h
  next =>  -- state 61
    split_ifs at h with h1
    · exact goal_goto s s b 40 res (frame_rfl s) hInv hplt (by decide) (by decide) (by decide) h
    · exact goal_tr0 s b res hInv hplt h
  next =>  -- state 62
    split_ifs at h with h1
    · exact goal_advance s s 63 res (frame_rfl s) hInv hplt (by decide) (by decide) (by decide) (by decide) h
    · exact goal_tr0 s b res hInv hplt h
  next =>  -- state 63
    split_ifs at h with h1 h2
    · exact goal_advance s s 64 res (frame_rfl s) hInv hplt (by decide) (by decide) (by decide) (by decide) h
    · exact goal_advance s s 69 res (frame_rfl s) hInv hplt (by decide) (by decide) (by decide) (by decide) h
    · exact goal_tr0 s b res hInv hplt h
  next =>  -- state 64
    split_ifs at h with h1
    · exact goal_advance s s 65 res (frame_rfl s) hInv hplt (by decide) (by decide) (by decide) (by decide) h
    · exact goal_tr0 s b res hInv hplt h
  next =>  -- state 65
    split_ifs at h with h1
    · exact goal_advance s s 66 res (frame_rfl s) hInv hplt (by decide) (by decide) (by decide) (by decide) h
    · exact goal_tr0 s b res hInv hplt h
  next =>  -- state 66
    split_ifs at h with h1
    · exact goal_advance s s 67 res (frame_rfl s) hInv hplt (by decide) (by decide) (by decide) (by decide) h
    · exact goal_tr0 s b res hInv hplt h
  next =>  -- state 67
    split_ifs at h with h1
    · exact goal_advance s s 68 res (frame_rfl s) hInv hplt (by decide) (by decide) (by decide) (by decide) h
    · exact goal_tr0 s b res hInv hplt h
  next =>  -- state 68
    split_ifs at h with h1
    · exact goal_goto s s b 40 res (frame_rfl s) hInv hplt (by decide) (by decide) (by decide) h
    · exact goal_tr0 s b res hInv hplt h
  next =>  -- state 69
    split_ifs at h with h1
    · exact goal_advance s s 70 res (frame_rfl s) hInv hplt (by decide) (by decide) (by decide) (by decide) h
    · exact goal_tr0 s b res hInv hplt h
  next =>  -- state 70
    split_ifs at h with h1
    · exact goal_advance s s 57 res (frame_rfl s) hInv hplt (by decide) (by decide) (by decide) (by decide) h
    · exact goal_tr0 s b res hInv hplt h
  next =>  -- state 71
    split_ifs at h with h1
    · exact goal_advance s s 72 res (frame_rfl s) hInv hplt (by decide) (by decide) (by decide) (by decide) h
    · exact goal_tr0 s b res hInv hplt h
  next =>  -- state 72
    split_ifs at h with h1
    · exact goal_advance s s 73 res (frame_rfl s) hInv hplt (by decide) (by decide) (by decide) (by decide) h
    · exact goal_tr0 s b res hInv hplt h
  next =>  -- state 73
    split_ifs at h with h1
    · exact goal_advance s s 51 res (frame_rfl s) hInv hplt (by decide) (by decide) (by decide) (by decide) h
    · exact goal_tr0 s b res hInv hplt h
  next =>  -- state 74
    split_ifs at h with h1
    · exact goal_advance s s 75 res (frame_rfl s) hInv hplt (by decide) (by decide) (by decide) (by decide) h
    · exact goal_tr0 s b res hInv hplt h
  next =>  -- state 75
    split_ifs at h with h1
    · exact goal_advance s s 57 res (frame_rfl s) hInv hplt (by decide) (by decide) (by decide) (by decide) h
    · exact goal_tr0 s b res hInv hplt h
  next hcs =>  -- state 76
    split_ifs at h with h1
    · exact goal_goto s { s with pb := s.p } b 77 res ⟨rfl, rfl, rfl, rfl, rfl⟩ (inv_pb_mark s hInv (by rw [hcs]; decide) (by rw [hcs]; decide)) hplt (by decide) (by decide) (by decide) h
    · exact goal_tr0 s b res hInv hplt h
  next =>  -- state 77
    unfold setTypeThen at h
    rw [textSlice_some s.data s.pb s.p hInv.hpb0 hInv.hpbp (by have := hInv.hppe; rw [← hInv.hpe]; omega)] at h
    dsimp only at h
    split_ifs at h with h1 h2 h3 h4
    · exact goal_goto s { s with otype := ((s.data.take s.p.toNat).drop s.pb.toNat), exclamation := true } b 78 res ⟨rfl, rfl, rfl, rfl, rfl⟩ (inv_excl { s with otype := ((s.data.take s.p.toNat).drop s.pb.toNat) } (inv_otype s hInv ((s.data.take s.p.toNat).drop s.pb.toNat))) hplt (by decide) (by decide) (by decide) h
    · exact goal_advance s { s with otype := ((s.data.take s.p.toNat).drop s.pb.toNat) } 82 res ⟨rfl, rfl, rfl, rfl, rfl⟩ (inv_otype s hInv ((s.data.take s.p.toNat).drop s.pb.toNat)) hplt (by decide) (by decide) (by decide) (by decide) h
    · exact goal_goto s { s with otype := ((s.data.take s.p.toNat).drop s.pb.toNat) } b 79 res ⟨rfl, rfl, rfl, rfl, rfl⟩ (inv_otype s hInv ((s.data.take s.p.toNat).drop s.pb.toNat)) hplt (by decide) (by decide) (by decide) h
    · exact goal_goto s { s with otype := ((s.data.take s.p.toNat).drop s.pb.toNat) } b 77 res ⟨rfl, rfl, rfl, rfl, rfl⟩ (inv_otype s hInv ((s.data.take s.p.toNat).drop s.pb.toNat)) hplt (by decide) (by decide) (by decide) h
    · exact goal_tr6 { s with otype := ((s.data.take s.p.toNat).drop s.pb.toNat) } b res (inv_otype s hInv ((s.data.take s.p.toNat).drop s.pb.toNat)) hplt h
  next =>  -- state 78
    split_ifs at h with h1
    · exact goal_goto s s b 79 res (frame_rfl s) hInv hplt (by decide) (by decide) (by decide) h
    · exact goal_tr6 s b res hInv hplt h
  next =>  -- state 79
    split_ifs at h with h1
    · exact goal_advance s s 80 res (frame_rfl s) hInv hplt (by decide) (by decide) (by decide) (by decide) h
    · exact goal_tr10 s b res hInv hplt h
  next =>  -- state 80
    split_ifs at h with h1 h2
    · subst h1
      exact goal_tr13 s res hInv hplt h
    · exact goal_advance s s 80 res (frame_rfl s) hInv hplt (by decide) (by decide) (by decide) (by decide) h
    · exact goal_mark s s 95 res (frame_rfl s) hInv hplt (by decide) (fun hc => absurd hc (by decide)) (by decide) (by decide) h
  next =>  -- state 81
    split_ifs at h with h1
    · exact goal_advance s s 87 res (frame_rfl s) hInv hplt (by decide) (by decide) (by decide) (by decide) h
    · exact goal_tr14 s res hInv hplt h
  next hcs =>  -- state 82
    dsimp only at h
    split_ifs at h with h1 h2
    · exact goal_scope_close_empty s b 84 res hInv hplt (by rw [hcs]; decide) (by rw [hcs]; decide) (by decide) (by decide) (by decide) h
    · exact goal_mark_scope s 83 b res hInv hplt hb h2 (by decide) h
    · exact goal_tr16 s b res hInv hplt h
  next hcs =>  -- state 83
    split_ifs at h with h1 h2
    · exact goal_scope_close s b 84 res hInv hplt (Or.inr (Or.inr hcs)) (by decide) (by decide) (by decide) h
    · exact goal_scope_loop s 83 b res hInv hplt hb h2 (by decide) hcs h
    · exact goal_tr16 s b res hInv hplt h
  next =>  -- state 84
    split_ifs at h with h1 h2
    · exact goal_goto s { s with exclamation := true } b 78 res ⟨rfl, rfl, rfl, rfl, rfl⟩ (inv_excl s hInv) hplt (by decide) (by decide) (by decide) h
    · exact goal_goto s s b 79 res (frame_rfl s) hInv hplt (by decide) (by decide) (by decide) h
    · exact goal_tr6 s b res hInv hplt h
  next =>  -- state 85
    split_ifs at h with h1
    · exact goal_descr_set s 9 res hInv hplt (by decide) (by decide) (by decide) (by decide) h
    · exact goal_advance s s 85 res (frame_rfl s) hInv hplt (by decide) (by decide) (by decide) (by decide) h
  next =>  -- state 86
    exact goal_halt0 s s res (frame_rfl s) hInv hplt h
  next hcs =>  -- state 87
    split_ifs at h with h1 h2 h3
    · exact goal_count s s res (frame_rfl s) hInv hplt h
    · exact goal_mark s s 18 res (frame_rfl s) hInv hplt (by decide) (fun _ => hInv.hp1 (by rw [hcs]; decide) (by rw [hcs]; decide) (by rw [hcs]; decide) (by rw [hcs]; decide)) (by decide) (by decide) h
    · exact goal_mark s s 14 res (frame_rfl s) hInv hplt (by decide) (fun _ => hInv.hp1 (by rw [hcs]; decide) (by rw [hcs]; decide) (by rw [hcs]; decide) (by rw [hcs]; decide)) (by decide) (by decide) h
    · exact goal_rewind_mid s b res hInv hplt hb h
  next =>  -- state 88
    exact goal_halt0 s s res (frame_rfl s) hInv hplt h
  next =>  -- state 89
    split_ifs at h with h1
    · exact goal_advance s s 33 res (frame_rfl s) hInv hplt (by decide) (by decide) (by decide) (by decide) h
    · exact goal_halt0 s s res (frame_rfl s) hInv hplt h
  next =>  -- state 90
    split_ifs at h with h1 h2
    · exact goal_footer_append s res hInv hplt h
    · exact goal_advance s s 90 res (frame_rfl s) hInv hplt (by decide) (by decide) (by decide) (by decide) h
    · exact goal_halt0 s s res (frame_rfl s) hInv hplt h
  next =>  -- state 91
    split_ifs at h with h1
    · exact goal_count s s res (frame_rfl s) hInv hplt h
    · exact goal_halt0 s s res (frame_rfl s) hInv hplt h
  next =>  -- state 92
    split_ifs at h with h1
    · exact goal_tr109 s res hInv hplt h
    · exact goal_tr110 s res hInv hplt h
  next =>  -- state 93
    split_ifs at h with h1
    · exact goal_descr_set s 44 res hInv hplt (by decide) (by decide) (by decide) (by decide) h
    · exact goal_advance s s 93 res (frame_rfl s) hInv hplt (by decide) (by decide) (by decide) (by decide) h
  next =>  -- state 94
    exact goal_halt0 s s res (frame_rfl s) hInv hplt h
  next =>  -- state 95
    split_ifs at h with h1
    · exact goal_descr_set s 81 res hInv hplt (by decide) (by decide) (by decide) (by decide) h
    · exact goal_advance s s 95 res (frame_rfl s) hInv hplt (by decide) (by decide) (by decide) (by decide) h
  next =>  -- state 96
    exact goal_halt0 s s res (frame_rfl s) hInv hplt h
  next =>  -- default arm
    exact goal_halt_default s res hInv hplt h

/-! ### EOF-switch facts -/

theorem checkEarly_split (t : Nat) (h : checkEarlySet t = true) :
    colonEofStates.contains t = true ∨ descrInitEofStates.contains t = true := by
  simp [checkEarlySet] at h
  rcases h with rfl | rfl | rfl | rfl | rfl | rfl | rfl | rfl | rfl | rfl | rfl | rfl <;>
    simp [colonEofStates, descrInitEofStates]

theorem typeEof_lt (t : Nat) (h : typeEofStates.contains t = true) : t < firstFinal := by
  simp [typeEofStates] at h
  simp [firstFinal]
  omega

theorem colonEof_lt (t : Nat) (h : colonEofStates.contains t = true) : t < firstFinal := by
  simp [colonEofStates] at h
  simp [firstFinal]
  omega

theorem descrInitEof_lt (t : Nat) (h : descrInitEofStates.contains t = true) :
    t < firstFinal := by
  simp [descrInitEofStates] at h
  simp [firstFinal]
  omega

theorem descrEof_lt (t : Nat) (h : descrEofStates.contains t = true) : t < firstFinal := by
  simp [descrEofStates] at h
  simp [firstFinal]
  omega

theorem blankEof_lt (t : Nat) (h : blankEofStates.contains t = true) : t < firstFinal := by
  simp [blankEofStates] at h
  simp [firstFinal]
  omega

theorem trailerEof_lt (t : Nat) (h : trailerEofStates.contains t = true) : t < firstFinal := by
  simp [trailerEofStates] at h
  simp [firstFinal]
  omega

theorem entryEof_lt (t : Nat) (h : entryEofStates.contains t = true) : t < firstFinal := by
  simp [entryEofStates] at h
  simp [firstFinal]
  omega

theorem scopeEof_lt (t : Nat) (h : scopeEofStates.contains t = true) : t < firstFinal := by
  simp [scopeEofStates] at h
  simp [firstFinal]
  omega

theorem notCheckEarly_of_sets (t : Nat)
    (h2 : ¬colonEofStates.contains t = true) (h3 : ¬descrInitEofStates.contains t = true) :
    checkEarlySet t = false := by
  rcases hc : checkEarlySet t with _ | _
  · rfl
  · rcases checkEarly_split t hc with hx | hx
    · exact absurd hx h2
    · exact absurd hx h3

theorem err_none_of_notEarly (s : St) (hInv : Inv s) (hch : checkEarlySet s.cs = false) :
    s.err = none := by
  rcases he : s.err with _ | e
  · rfl
  · have := (hInv.herr (by simp [he])).2
    rw [hch] at this
    simp at this

theorem typeEof_notEarly (t : Nat) (h : typeEofStates.contains t = true) :
    checkEarlySet t = false := by
  simp [typeEofStates] at h
  simp [checkEarlySet]
  omega

theorem descrEof_notEarly (t : Nat) (h : descrEofStates.contains t = true) :
    checkEarlySet t = false := by
  simp [descrEofStates] at h
  simp [checkEarlySet]
  omega

theorem blankEof_notEarly (t : Nat) (h : blankEofStates.contains t = true) :
    checkEarlySet t = false := by
  simp [blankEofStates] at h
  simp [checkEarlySet]
  omega

theorem descrSetEof_notEarly (t : Nat) (h : descrSetEofStates.contains t = true) :
    checkEarlySet t = false := by
  simp [descrSetEofStates] at h
  simp [checkEarlySet]
  omega

theorem trailerEof_notEarly (t : Nat) (h : trailerEofStates.contains t = true) :
    checkEarlySet t = false := by
  simp [trailerEofStates] at h
  simp [checkEarlySet]
  omega

theorem entryEof_notEarly (t : Nat) (h : entryEofStates.contains t = true) :
    checkEarlySet t = false := by
  simp [entryEofStates] at h
  simp [checkEarlySet]
  omega

theorem scopeEof_notEarly (t : Nat) (h : scopeEofStates.contains t = true) :
    checkEarlySet t = false := by
  simp [scopeEofStates] at h
  simp [checkEarlySet]
  omega

theorem colonEof_early (t : Nat) (h : colonEofStates.contains t = true) :
    checkEarlySet t = true := by
  simp [colonEofStates] at h
  simp [checkEarlySet]
  omega

theorem descrInitEof_early (t : Nat) (h : descrInitEofStates.contains t = true) :
    checkEarlySet t = true := by
  simp [descrInitEofStates] at h
  simp [checkEarlySet]
  omega

theorem eofDone (s X : St) (res : EofRes) (h : EofRes.done X = res)
    (h1 : Frame s X)
    (h2 : ∀ e, X.err = some e → ∃ base n, e = base ++ colSuffix n ∧ 0 ≤ n ∧ n ≤ s.pe)
    (h3 : ∀ sc, X.scope = some sc → ∀ c ∈ sc, isScopeByte c = true)
    (h4 : X.err ≠ none → X.cs < firstFinal)
    (h5 : ∀ e, s.err = some e → X.err = some e) : EofFacts s res := by
  subst h
  refine ⟨by simp, ?_, ?_⟩
  · intro a ha
    injection ha with ha
    subst ha
    exact ⟨h1, h2, h3, h4, h5⟩
  · intro a ha
    simp at ha

theorem eofCont (s X : St) (res : EofRes) (h : EofRes.cont X = res)
    (h1 : Inv { X with p := X.p + 1 }) (h2 : Frame s X) (h3 : X.err = s.err) :
    EofFacts s res := by
  subst h
  refine ⟨by simp, ?_, ?_⟩
  · intro a ha
    simp at ha
  · intro a ha
    injection ha with ha
    subst ha
    exact ⟨h1, h2, h3⟩

set_option maxHeartbeats 2000000 in
/-- The `_testEof` switch never panics, preserves errors and well-formedness on
completion, and re-establishes the invariant when it re-enters the loop. -/
theorem eof_master (s : St) (res : EofRes) (hInv : Inv s) (hp : s.p = s.pe)
    (h : eofSwitch s = res) : EofFacts s res := by
  have hpe := hInv.hpe
  unfold eofSwitch at h
  by_cases hc1 : typeEofStates.contains s.cs = true
  · rw [if_pos hc1] at h
    have hen : s.err = none := err_none_of_notEarly s hInv (typeEof_notEarly s.cs hc1)
    by_cases hp0 : s.pe > 0
    · rw [if_pos hp0, if_neg (by omega : ¬s.p ≠ s.pe)] at h
      obtain ⟨c, hcb⟩ := byteAt_some s.data (s.p - 1) (by have := hInv.hp0; omega)
        (by rw [← hpe]; omega)
      rw [hcb] at h
      refine eofDone s _ res h ⟨rfl, rfl, rfl, rfl, rfl⟩ ?_ hInv.hscope ?_ ?_
      · intro e he
        dsimp only at he
        injection he with he
        obtain ⟨base, hbs⟩ := errTypeIncompleteS_shape c s.p
        exact ⟨base, s.p, by rw [← he, hbs], hInv.hp0, by have := hInv.hppe; omega⟩
      · intro _
        exact typeEof_lt s.cs hc1
      · intro e he
        rw [hen] at he
        simp at he
    · rw [if_neg hp0] at h
      refine eofDone s s res h (frame_rfl s) hInv.hshape hInv.hscope ?_ (fun e he => he)
      intro hne
      exact absurd hen hne
  rw [if_neg hc1] at h
  by_cases hc2 : colonEofStates.contains s.cs = true
  · rw [if_pos hc2] at h
    have hne : ¬s.err = none := hInv.herr2 hp (colonEof_early s.cs hc2)
    rw [if_neg hne] at h
    exact eofDone s s res h (frame_rfl s) hInv.hshape hInv.hscope
      (fun _ => colonEof_lt s.cs hc2) (fun e he => he)
  rw [if_neg hc2] at h
  by_cases hc3 : descrInitEofStates.contains s.cs = true
  · rw [if_pos hc3] at h
    have hne : ¬s.err = none := hInv.herr2 hp (descrInitEof_early s.cs hc3)
    rw [if_neg hne] at h
    exact eofDone s s res h (frame_rfl s) hInv.hshape hInv.hscope
      (fun _ => descrInitEof_lt s.cs hc3) (fun e he => he)
  rw [if_neg hc3] at h
  by_cases hc4 : descrEofStates.contains s.cs = true
  · rw [if_pos hc4] at h
    have hen : s.err = none := err_none_of_notEarly s hInv (descrEof_notEarly s.cs hc4)
    rw [if_neg (fun hcon => absurd hcon.1 (by omega : ¬s.p < s.pe))] at h
    have hcd : s.cs = 8 ∨ s.cs = 43 ∨ s.cs = 80 := by
      simp [descrEofStates] at hc4
      omega
    have hp1 : 1 ≤ s.p := hInv.hp1 (by omega) (by omega) (by omega) (by omega)
    obtain ⟨c, hcb⟩ := byteAt_some s.data (s.p - 1) (by omega) (by rw [← hpe]; omega)
    rw [hcb] at h
    refine eofDone s _ res h ⟨rfl, rfl, rfl, rfl, rfl⟩ ?_ hInv.hscope ?_ ?_
    · intro e he
      dsimp only at he
      injection he with he
      obtain ⟨base, hbs⟩ := errDescriptionS_shape c s.p
      exact ⟨base, s.p, by rw [← he, hbs], hInv.hp0, by have := hInv.hppe; omega⟩
    · intro _
      exact descrEof_lt s.cs hc4
    · intro e he
      rw [hen] at he
      simp at he
  rw [if_neg hc4] at h
  by_cases hc5 : blankEofStates.contains s.cs = true
  · rw [if_pos hc5] at h
    have hen : s.err = none := err_none_of_notEarly s hInv (blankEof_notEarly s.cs hc5)
    refine eofDone s _ res h ⟨rfl, rfl, rfl, rfl, rfl⟩ ?_ hInv.hscope ?_ ?_
    · intro e he
      dsimp only at he
      injection he with he
      obtain ⟨base, hbs⟩ := errMissingBlankLineS_shape s.p
      exact ⟨base, s.p, by rw [← he, hbs], hInv.hp0, by have := hInv.hppe; omega⟩
    · intro _
      exact blankEof_lt s.cs hc5
    · intro e he
      rw [hen] at he
      simp at he
  rw [if_neg hc5] at h
  by_cases hc6 : descrSetEofStates.contains s.cs = true
  · rw [if_pos hc6] at h
    have hen : s.err = none := err_none_of_notEarly s hInv (descrSetEof_notEarly s.cs hc6)
    rw [textSlice_some s.data s.pb s.p hInv.hpb0 hInv.hpbp
      (by rw [← hpe]; exact hInv.hppe)] at h
    refine eofDone s _ res h ⟨rfl, rfl, rfl, rfl, rfl⟩ hInv.hshape hInv.hscope ?_
      (fun e he => he)
    intro hne
    exact absurd hen hne
  rw [if_neg hc6] at h
  by_cases hc7 : s.cs = 90
  · rw [if_pos hc7] at h
    have hen : s.err = none := err_none_of_notEarly s hInv (by rw [hc7]; rfl)
    rw [textSlice_some s.data s.pb s.p hInv.hpb0 hInv.hpbp
      (by rw [← hpe]; exact hInv.hppe)] at h
    refine eofDone s _ res h ⟨rfl, rfl, rfl, rfl, rfl⟩ hInv.hshape hInv.hscope ?_
      (fun e he => he)
    intro hne
    exact absurd hen hne
  rw [if_neg hc7] at h
  by_cases hc8 : s.cs = 92
  · rw [if_pos hc8] at h
    have hen : s.err = none := err_none_of_notEarly s hInv (by rw [hc8]; rfl)
    rw [appendBodyO_some s hInv.hpb0 hInv.hpbp (by rw [← hpe]; exact hInv.hppe)] at h
    dsimp only at h
    refine eofDone s _ res h ⟨rfl, rfl, rfl, rfl, rfl⟩ hInv.hshape hInv.hscope ?_
      (fun e he => he)
    intro hne
    exact absurd hen hne
  rw [if_neg hc8] at h
  by_cases hc9 : trailerEofStates.contains s.cs = true
  · rw [if_pos hc9] at h
    have hrt := hInv.htr hc9
    have hen : s.err = none := err_none_of_notEarly s hInv (trailerEof_notEarly s.cs hc9)
    unfold rewindA at h
    by_cases hfo : s.footers = []
    · rw [if_pos hfo] at h
      by_cases hpos : s.countNewlines > 0
      · rw [if_pos hpos] at h
        dsimp only at h
        refine eofCont s _ res h ?_ ⟨rfl, rfl, rfl, rfl, rfl⟩ rfl
        exact inv_rewind s (s.lastNewline + 1) hInv hen
          (by have := (hInv.hln hpos).1; omega)
          (by have := hrt.2.2 hpos; have := hrt.2.1; omega)
          (fun _ => by omega)
      · rw [if_neg hpos] at h
        dsimp only at h
        refine eofCont s _ res h ?_ ⟨rfl, rfl, rfl, rfl, rfl⟩ rfl
        exact inv_rewind s s.pb hInv hen hInv.hpb0 hrt.2.1 (fun hp2 => absurd hp2 hpos)
    · rw [if_neg hfo, if_neg (by omega : ¬s.p ≠ s.pe)] at h
      have hp1 : 1 ≤ s.p := by have := hrt.1; have := hInv.hpbp; omega
      obtain ⟨c, hcb⟩ := byteAt_some s.data (s.p - 1) (by omega) (by rw [← hpe]; omega)
      rw [hcb] at h
      dsimp only at h
      refine eofDone s _ res h ⟨rfl, rfl, rfl, rfl, rfl⟩ ?_ hInv.hscope ?_ ?_
      · intro e he
        dsimp only at he
        injection he with he
        obtain ⟨base, hbs⟩ := errTrailerIncompleteS_shape c s.p
        exact ⟨base, s.p, by rw [← he, hbs], hInv.hp0, by have := hInv.hppe; omega⟩
      · intro _
        simp [firstFinal]
      · intro e he
        rw [hen] at he
        simp at he
  rw [if_neg hc9] at h
  by_cases hc10 : entryEofStates.contains s.cs = true
  · rw [if_pos hc10] at h
    have hen : s.err = none := err_none_of_notEarly s hInv (entryEof_notEarly s.cs hc10)
    dsimp only at h
    by_cases hp0 : s.pe > 0
    · rw [if_pos hp0, if_neg (by omega : ¬s.p ≠ s.pe)] at h
      obtain ⟨c, hcb⟩ := byteAt_some s.data (s.p - 1) (by have := hInv.hp0; omega)
        (by rw [← hpe]; omega)
      rw [hcb] at h
      refine eofDone s _ res h ⟨rfl, rfl, rfl, rfl, rfl⟩ ?_ hInv.hscope ?_ ?_
      · intro e he
        dsimp only at he
        injection he with he
        obtain ⟨base, hbs⟩ := errTypeIncompleteS_shape c s.p
        exact ⟨base, s.p, by rw [← he, hbs], hInv.hp0, by have := hInv.hppe; omega⟩
      · intro _
        exact entryEof_lt s.cs hc10
      · intro e he
        rw [hen] at he
        simp at he
    · rw [if_neg hp0] at h
      refine eofDone s _ res h ⟨rfl, rfl, rfl, rfl, rfl⟩ ?_ hInv.hscope ?_ ?_
      · intro e he
        dsimp only at he
        injection he with he
        obtain ⟨base, hbs⟩ := errEmptyS_shape s.p
        exact ⟨base, s.p, by rw [← he, hbs], hInv.hp0, by have := hInv.hppe; omega⟩
      · intro _
        exact entryEof_lt s.cs hc10
      · intro e he
        rw [hen] at he
        simp at he
  rw [if_neg hc10] at h
  by_cases hc11 : scopeEofStates.contains s.cs = true
  · rw [if_pos hc11] at h
    have hen : s.err = none := err_none_of_notEarly s hInv (scopeEof_notEarly s.cs hc11)
    rw [if_neg (fun hcon => absurd hcon.1 (by omega : ¬s.p < s.pe))] at h
    have hcd : s.cs = 10 ∨ s.cs = 11 ∨ s.cs = 45 ∨ s.cs = 46 ∨ s.cs = 82 ∨ s.cs = 83 := by
      simp [scopeEofStates] at hc11
      omega
    have hp1 : 1 ≤ s.p := hInv.hp1 (by omega) (by omega) (by omega) (by omega)
    obtain ⟨c, hcb⟩ := byteAt_some s.data (s.p - 1) (by omega) (by rw [← hpe]; omega)
    rw [hcb] at h
    refine eofDone s _ res h ⟨rfl, rfl, rfl, rfl, rfl⟩ ?_ hInv.hscope ?_ ?_
    · intro e he
      dsimp only at he
      injection he with he
      obtain ⟨base, hbs⟩ := errScopeIncompleteS_shape c s.p
      exact ⟨base, s.p, by rw [← he, hbs], hInv.hp0, by have := hInv.hppe; omega⟩
    · intro _
      exact scopeEof_lt s.cs hc11
    · intro e he
      rw [hen] at he
      simp at he
  rw [if_neg hc11] at h
  by_cases hc12 : s.cs = 34
  · exact absurd (hInv.h34 hc12) (by omega)
  rw [if_neg hc12] at h
  refine eofDone s s res h (frame_rfl s) hInv.hshape hInv.hscope ?_ (fun e he => he)
  intro hne
  rcases checkEarly_split s.cs (hInv.herr hne).2 with hx | hx
  · exact absurd hx hc2
  · exact absurd hx hc3

/-- Master run lemma: from any invariant state the exec loop never panics, and
a completed run preserves the frame, keeps every recorded diagnostic
column-suffixed and bounded, keeps scope bytes legal, finishes in a
non-accepting state whenever an error is recorded, and never discards a
recorded error. -/
theorem mrun_master (fuel : Nat) (s : St) (hInv : Inv s) :
    mrun fuel s ≠ .oops ∧
    (∀ s2, mrun fuel s = .ok s2 →
      Frame s s2 ∧
      (∀ e, s2.err = some e → ∃ base n, e = base ++ colSuffix n ∧ 0 ≤ n ∧ n ≤ s.pe) ∧
      (∀ sc, s2.scope = some sc → ∀ c ∈ sc, isScopeByte c = true) ∧
      (s2.err ≠ none → s2.cs < firstFinal) ∧
      (∀ e, s.err = some e → s2.err = some e)) := by
  induction fuel generalizing s with
  | zero =>
    constructor
    · intro hcon
      simp [mrun] at hcon
    · intro s2 h2
      simp [mrun] at h2
  | succ fuel ih =>
    by_cases hppe : s.p = s.pe
    · have heof2 : s.p = s.eof := by rw [hppe, hInv.heof]
      cases hres : eofSwitch s with
      | done s1 =>
        have hfacts := (eof_master s _ hInv hppe hres).2.1 s1 rfl
        have hrun : mrun (fuel + 1) s = .ok s1 := by
          simp only [mrun, if_pos hppe, if_pos heof2, hres]
        refine ⟨by rw [hrun]; simp, ?_⟩
        intro s2 h2
        rw [hrun] at h2
        injection h2 with h2
        subst h2
        exact hfacts
      | cont s1 =>
        have hfacts := (eof_master s _ hInv hppe hres).2.2 s1 rfl
        obtain ⟨hInv1, hfr1, herr1⟩ := hfacts
        have hrun : mrun (fuel + 1) s = mrun fuel { s1 with p := s1.p + 1 } := by
          simp only [mrun, if_pos hppe, if_pos heof2, hres]
        obtain ⟨hno, hok⟩ := ih { s1 with p := s1.p + 1 } hInv1
        refine ⟨by rw [hrun]; exact hno, ?_⟩
        intro s2 h2
        rw [hrun] at h2
        obtain ⟨hfr2, hshape2, hscope2, hlt2, hpers2⟩ := hok s2 h2
        refine ⟨?_, ?_, hscope2, hlt2, ?_⟩
        · exact ⟨hfr2.1.trans hfr1.1, hfr2.2.1.trans hfr1.2.1,
            hfr2.2.2.1.trans hfr1.2.2.1, hfr2.2.2.2.1.trans hfr1.2.2.2.1,
            hfr2.2.2.2.2.trans hfr1.2.2.2.2⟩
        · intro e he
          obtain ⟨base, n, hh, h0n, h1n⟩ := hshape2 e he
          refine ⟨base, n, hh, h0n, ?_⟩
          rw [← hfr1.2.1]
          exact h1n
        · intro e he
          refine hpers2 e ?_
          show s1.err = some e
          rw [herr1]
          exact he
      | oops =>
        exact absurd hres (eof_master s _ hInv hppe rfl).1
    · have hplt : s.p < s.pe := lt_of_le_of_ne hInv.hppe hppe
      obtain ⟨b, hbb⟩ := byteAt_some s.data s.p hInv.hp0 (by rw [← hInv.hpe]; exact hplt)
      have hen : s.err = none := inv_err_none s hInv hplt
      cases hres : stepCase s b with
      | next s1 =>
        have hfacts := (step_master s b _ hInv hppe hbb hres).2.1 s1 rfl
        obtain ⟨hInv1, hfr1⟩ := hfacts
        have hrun : mrun (fuel + 1) s = mrun fuel { s1 with p := s1.p + 1 } := by
          simp only [mrun, if_neg hppe, hbb, hres]
        obtain ⟨hno, hok⟩ := ih { s1 with p := s1.p + 1 } hInv1
        refine ⟨by rw [hrun]; exact hno, ?_⟩
        intro s2 h2
        rw [hrun] at h2
        obtain ⟨hfr2, hshape2, hscope2, hlt2, hpers2⟩ := hok s2 h2
        refine ⟨?_, ?_, hscope2, hlt2, ?_⟩
        · exact ⟨hfr2.1.trans hfr1.1, hfr2.2.1.trans hfr1.2.1,
            hfr2.2.2.1.trans hfr1.2.2.1, hfr2.2.2.2.1.trans hfr1.2.2.2.1,
            hfr2.2.2.2.2.trans hfr1.2.2.2.2⟩
        · intro e he
          obtain ⟨base, n, hh, h0n, h1n⟩ := hshape2 e he
          refine ⟨base, n, hh, h0n, ?_⟩
          rw [← hfr1.2.1]
          exact h1n
        · intro e he
          rw [hen] at he
          simp at he
      | halt s1 =>
        have hfacts := (step_master s b _ hInv hppe hbb hres).2.2 s1 rfl
        obtain ⟨hfr1, hshape1, hscope1, hlt1⟩ := hfacts
        have hrun : mrun (fuel + 1) s = .ok s1 := by
          simp only [mrun, if_neg hppe, hbb, hres]
        refine ⟨by rw [hrun]; simp, ?_⟩
        intro s2 h2
        rw [hrun] at h2
        injection h2 with h2
        subst h2
        refine ⟨hfr1, hshape1, hscope1, hlt1, ?_⟩
        intro e he
        rw [hen] at he
        simp at he
      | oops =>
        exact absurd hres (step_master s b _ hInv hppe hbb rfl).1

/-- The reset block at the top of `Parse` establishes the run invariant on any
machine and any input. -/
theorem resetParse_inv (m : St) (input : List Nat) : Inv (resetParse m input) := by
  have hcs : startCs m.typeConfig = 1 ∨ startCs m.typeConfig = 35 ∨
      startCs m.typeConfig = 76 := by
    cases m.typeConfig <;> simp [startCs]
  have hces : checkEarlySet (startCs m.typeConfig) = false := by
    rcases hcs with h | h | h <;> rw [h] <;> decide
  have htrf : trailerEofStates.contains (startCs m.typeConfig) = false := by
    rcases hcs with h | h | h <;> rw [h] <;> decide
  exact {
    hpe := by simp [resetParse]
    heof := by simp [resetParse]
    hp0 := by dsimp only [resetParse]; omega
    hppe := by dsimp only [resetParse]; omega
    hpb0 := by dsimp only [resetParse]; omega
    hpbp := by dsimp only [resetParse]; omega
    hcnl := by dsimp only [resetParse]; omega
    hln := by dsimp only [resetParse]; intro h; exact absurd h (by omega)
    herr := by dsimp only [resetParse]; intro h; exact absurd rfl h
    herr2 := by dsimp only [resetParse]; intro _ he; rw [hces] at he; simp at he
    htr := by dsimp only [resetParse]; intro h; rw [htrf] at h; simp at h
    h34 := by
      dsimp only [resetParse]
      intro h
      exfalso
      rcases hcs with h1 | h1 | h1 <;> omega
    hp1 := by
      dsimp only [resetParse]
      intro h1 h35 h76 _
      exfalso
      rcases hcs with h | h | h
      · exact h1 h
      · exact h35 h
      · exact h76 h
    hshape := by dsimp only [resetParse]; intro e he; simp at he
    hseg := by
      dsimp only [resetParse]
      intro hor
      exfalso
      rcases hcs with h | h | h <;> rcases hor with h2 | h2 | h2 <;> omega
    hscope := by dsimp only [resetParse]; intro sc hsc; simp at hsc
  }

set_option maxHeartbeats 12000000 in
/-- One dispatched step started from two states that differ at most in
`lastNewline` (and agree on it whenever `countNewlines` is positive, the only
situation in which the machine reads it) produces results of the same shape
whose states again differ at most in `lastNewline`. -/
theorem stepCase_sim (s : St) (l2 : Int) (b : Nat)
    (hg : 0 < s.countNewlines → l2 = s.lastNewline) :
    StepSim (stepCase s b) (stepCase { s with lastNewline := l2 } b) := by
  rcases s with ⟨data, cs, p, pe, eo, pb, err, be, tc, cfk, cnl, ln, ot, sc, ex, de, bo, fo⟩
  dsimp only at hg
  unfold stepCase gotoSt tr0 tr6 tr10 tr13 tr14 tr16 rewindA setTypeThen setFooterKey appendBodyO blankAhead
  dsimp only
  split
  all_goals try split_ifs
  all_goals try
    (first
      | exact StepSim.oops
      | exact StepSim.next ⟨⟨_, rfl⟩, fun _ => rfl⟩
      | exact StepSim.halt ⟨⟨_, rfl⟩, fun _ => rfl⟩
      | exact StepSim.next ⟨⟨l2, rfl⟩, hg⟩
      | exact StepSim.halt ⟨⟨l2, rfl⟩, hg⟩
      | exact StepSim.next ⟨⟨l2, rfl⟩, fun hq => absurd hq (by dsimp only; omega)⟩
      | (rw [hg (by assumption)]; exact StepSim.next ⟨⟨_, rfl⟩, fun _ => rfl⟩))
  all_goals try
    first
      | (cases hx : byteAt data (p - 1) <;>
          first
            | exact StepSim.oops
            | exact StepSim.next ⟨⟨_, rfl⟩, fun _ => rfl⟩
            | exact StepSim.halt ⟨⟨_, rfl⟩, fun _ => rfl⟩
            | exact StepSim.next ⟨⟨l2, rfl⟩, hg⟩
            | exact StepSim.halt ⟨⟨l2, rfl⟩, hg⟩
            | exact StepSim.next ⟨⟨l2, rfl⟩, fun hq => absurd hq (by dsimp only; omega)⟩
            | (rw [hg (by assumption)]; exact StepSim.next ⟨⟨_, rfl⟩, fun _ => rfl⟩))
      | (cases hx : byteAt data p <;>
          first
            | exact StepSim.oops
            | exact StepSim.next ⟨⟨_, rfl⟩, fun _ => rfl⟩
            | exact StepSim.halt ⟨⟨_, rfl⟩, fun _ => rfl⟩
            | exact StepSim.next ⟨⟨l2, rfl⟩, hg⟩
            | exact StepSim.halt ⟨⟨l2, rfl⟩, hg⟩
            | exact StepSim.next ⟨⟨l2, rfl⟩, fun hq => absurd hq (by dsimp only; omega)⟩
            | (rw [hg (by assumption)]; exact StepSim.next ⟨⟨_, rfl⟩, fun _ => rfl⟩))
      | (cases hx : textSlice data p p <;> (try dsimp only) <;> (try split_ifs) <;>
          first
            | exact StepSim.oops
            | exact StepSim.next ⟨⟨_, rfl⟩, fun _ => rfl⟩
            | exact StepSim.halt ⟨⟨_, rfl⟩, fun _ => rfl⟩
            | exact StepSim.next ⟨⟨l2, rfl⟩, hg⟩
            | exact StepSim.halt ⟨⟨l2, rfl⟩, hg⟩
            | exact StepSim.next ⟨⟨l2, rfl⟩, fun hq => absurd hq (by dsimp only; omega)⟩
            | (rw [hg (by assumption)]; exact StepSim.next ⟨⟨_, rfl⟩, fun _ => rfl⟩))
      | (cases hx : textSlice data pb p <;> (try dsimp only [Option.map]) <;>
          (try dsimp only) <;> (try split_ifs) <;>
          first
            | exact StepSim.oops
            | exact StepSim.next ⟨⟨_, rfl⟩, fun _ => rfl⟩
            | exact StepSim.halt ⟨⟨_, rfl⟩, fun _ => rfl⟩
            | exact StepSim.next ⟨⟨l2, rfl⟩, hg⟩
            | exact StepSim.halt ⟨⟨l2, rfl⟩, hg⟩
            | exact StepSim.next ⟨⟨l2, rfl⟩, fun hq => absurd hq (by dsimp only; omega)⟩
            | (rw [hg (by assumption)]; exact StepSim.next ⟨⟨_, rfl⟩, fun _ => rfl⟩)
            | (cases hy : textSlice data (pb + 1) (p + 1) <;>
                first
                  | exact StepSim.oops
                  | exact StepSim.next ⟨⟨_, rfl⟩, fun _ => rfl⟩
                  | exact StepSim.halt ⟨⟨_, rfl⟩, fun _ => rfl⟩
                  | exact StepSim.next ⟨⟨l2, rfl⟩, hg⟩
                  | exact StepSim.halt ⟨⟨l2, rfl⟩, hg⟩
                  | exact StepSim.next ⟨⟨l2, rfl⟩, fun hq => absurd hq (by dsimp only; omega)⟩
                  | (rw [hg (by assumption)]; exact StepSim.next ⟨⟨_, rfl⟩, fun _ => rfl⟩)))
  by_cases hS1 : b = 66 ∨ b = 98
  · rw [if_pos hS1]
    try rw [if_pos hS1]
    first
      | exact StepSim.oops
      | exact StepSim.next ⟨⟨_, rfl⟩, fun _ => rfl⟩
      | exact StepSim.halt ⟨⟨_, rfl⟩, fun _ => rfl⟩
      | exact StepSim.next ⟨⟨l2, rfl⟩, hg⟩
      | exact StepSim.halt ⟨⟨l2, rfl⟩, hg⟩
      | exact StepSim.next ⟨⟨l2, rfl⟩, fun hq => absurd hq (by dsimp only; omega)⟩
      | (rw [hg (by assumption)]; exact StepSim.next ⟨⟨_, rfl⟩, fun _ => rfl⟩)
  · rw [if_neg hS1]
    try rw [if_neg hS1]
    by_cases hS2 : b = 67 ∨ b = 99
    · rw [if_pos hS2]
      try rw [if_pos hS2]
      first
        | exact StepSim.oops
        | exact StepSim.next ⟨⟨_, rfl⟩, fun _ => rfl⟩
        | exact StepSim.halt ⟨⟨_, rfl⟩, fun _ => rfl⟩
        | exact StepSim.next ⟨⟨l2, rfl⟩, hg⟩
        | exact StepSim.halt ⟨⟨l2, rfl⟩, hg⟩
        | exact StepSim.next ⟨⟨l2, rfl⟩, fun hq => absurd hq (by dsimp only; omega)⟩
        | (rw [hg (by assumption)]; exact StepSim.next ⟨⟨_, rfl⟩, fun _ => rfl⟩)
    · rw [if_neg hS2]
      try rw [if_neg hS2]
      by_cases hS3 : b = 68 ∨ b = 100
      · rw [if_pos hS3]
        try rw [if_pos hS3]
        first
          | exact StepSim.oops
          | exact StepSim.next ⟨⟨_, rfl⟩, fun _ => rfl⟩
          | exact StepSim.halt ⟨⟨_, rfl⟩, fun _ => rfl⟩
          | exact StepSim.next ⟨⟨l2, rfl⟩, hg⟩
          | exact StepSim.halt ⟨⟨l2, rfl⟩, hg⟩
          | exact StepSim.next ⟨⟨l2, rfl⟩, fun hq => absurd hq (by dsimp only; omega)⟩
          | (rw [hg (by assumption)]; exact StepSim.next ⟨⟨_, rfl⟩, fun _ => rfl⟩)
      · rw [if_neg hS3]
        try rw [if_neg hS3]
        by_cases hS4 : b = 70 ∨ b = 102
        · rw [if_pos hS4]
          try rw [if_pos hS4]
          first
            | exact StepSim.oops
            | exact StepSim.next ⟨⟨_, rfl⟩, fun _ => rfl⟩
            | exact StepSim.halt ⟨⟨_, rfl⟩, fun _ => rfl⟩
            | exact StepSim.next ⟨⟨l2, rfl⟩, hg⟩
            | exact StepSim.halt ⟨⟨l2, rfl⟩, hg⟩
            | exact StepSim.next ⟨⟨l2, rfl⟩, fun hq => absurd hq (by dsimp only; omega)⟩
            | (rw [hg (by assumption)]; exact StepSim.next ⟨⟨_, rfl⟩, fun _ => rfl⟩)
        · rw [if_neg hS4]
          try rw [if_neg hS4]
          by_cases hS5 : b = 80 ∨ b = 112
          · rw [if_pos hS5]
            try rw [if_pos hS5]
            first
              | exact StepSim.oops
              | exact StepSim.next ⟨⟨_, rfl⟩, fun _ => rfl⟩
              | exact StepSim.halt ⟨⟨_, rfl⟩, fun _ => rfl⟩
              | exact StepSim.next ⟨⟨l2, rfl⟩, hg⟩
              | exact StepSim.halt ⟨⟨l2, rfl⟩, hg⟩
              | exact StepSim.next ⟨⟨l2, rfl⟩, fun hq => absurd hq (by dsimp only; omega)⟩
              | (rw [hg (by assumption)]; exact StepSim.next ⟨⟨_, rfl⟩, fun _ => rfl⟩)
          · rw [if_neg hS5]
            try rw [if_neg hS5]
            by_cases hS6 : b = 82 ∨ b = 114
            · rw [if_pos hS6]
              try rw [if_pos hS6]
              first
                | exact StepSim.oops
                | exact StepSim.next ⟨⟨_, rfl⟩, fun _ => rfl⟩
                | exact StepSim.halt ⟨⟨_, rfl⟩, fun _ => rfl⟩
                | exact StepSim.next ⟨⟨l2, rfl⟩, hg⟩
                | exact StepSim.halt ⟨⟨l2, rfl⟩, hg⟩
                | exact StepSim.next ⟨⟨l2, rfl⟩, fun hq => absurd hq (by dsimp only; omega)⟩
                | (rw [hg (by assumption)]; exact StepSim.next ⟨⟨_, rfl⟩, fun _ => rfl⟩)
            · rw [if_neg hS6]
              try rw [if_neg hS6]
              by_cases hS7 : b = 83 ∨ b = 115
              · rw [if_pos hS7]
                try rw [if_pos hS7]
                first
                  | exact StepSim.oops
                  | exact StepSim.next ⟨⟨_, rfl⟩, fun _ => rfl⟩
                  | exact StepSim.halt ⟨⟨_, rfl⟩, fun _ => rfl⟩
                  | exact StepSim.next ⟨⟨l2, rfl⟩, hg⟩
                  | exact StepSim.halt ⟨⟨l2, rfl⟩, hg⟩
                  | exact StepSim.next ⟨⟨l2, rfl⟩, fun hq => absurd hq (by dsimp only; omega)⟩
                  | (rw [hg (by assumption)]; exact StepSim.next ⟨⟨_, rfl⟩, fun _ => rfl⟩)
              · rw [if_neg hS7]
                try rw [if_neg hS7]
                by_cases hS8 : b = 84 ∨ b = 116
                · rw [if_pos hS8]
                  try rw [if_pos hS8]
                  first
                    | exact StepSim.oops
                    | exact StepSim.next ⟨⟨_, rfl⟩, fun _ => rfl⟩
                    | exact StepSim.halt ⟨⟨_, rfl⟩, fun _ => rfl⟩
                    | exact StepSim.next ⟨⟨l2, rfl⟩, hg⟩
                    | exact StepSim.halt ⟨⟨l2, rfl⟩, hg⟩
                    | exact StepSim.next ⟨⟨l2, rfl⟩, fun hq => absurd hq (by dsimp only; omega)⟩
                    | (rw [hg (by assumption)]; exact StepSim.next ⟨⟨_, rfl⟩, fun _ => rfl⟩)
                · rw [if_neg hS8]
                  try rw [if_neg hS8]
                  (try split_ifs) <;>
                    (try
                      first
                        | exact StepSim.oops
                        | exact StepSim.next ⟨⟨_, rfl⟩, fun _ => rfl⟩
                        | exact StepSim.halt ⟨⟨_, rfl⟩, fun _ => rfl⟩
                        | exact StepSim.next ⟨⟨l2, rfl⟩, hg⟩
                        | exact StepSim.halt ⟨⟨l2, rfl⟩, hg⟩
                        | exact StepSim.next ⟨⟨l2, rfl⟩, fun hq => absurd hq (by dsimp only; omega)⟩
                        | (rw [hg (by assumption)]; exact StepSim.next ⟨⟨_, rfl⟩, fun _ => rfl⟩))
                  all_goals (cases hx : byteAt data (p - 1) <;>
                    first
                      | exact StepSim.oops
                      | exact StepSim.next ⟨⟨_, rfl⟩, fun _ => rfl⟩
                      | exact StepSim.halt ⟨⟨_, rfl⟩, fun _ => rfl⟩
                      | exact StepSim.next ⟨⟨l2, rfl⟩, hg⟩
                      | exact StepSim.halt ⟨⟨l2, rfl⟩, hg⟩
                      | exact StepSim.next ⟨⟨l2, rfl⟩, fun hq => absurd hq (by dsimp only; omega)⟩
                      | (rw [hg (by assumption)]; exact StepSim.next ⟨⟨_, rfl⟩, fun _ => rfl⟩))

set_option maxHeartbeats 12000000 in
/-- The `_testEof` switch applied to two states that differ at most in
`lastNewline` (agreeing on it whenever `countNewlines` is positive) produces
results of the same shape whose states again differ at most in `lastNewline`. -/
theorem eofSwitch_sim (s : St) (l2 : Int)
    (hg : 0 < s.countNewlines → l2 = s.lastNewline) :
    EofSim (eofSwitch s) (eofSwitch { s with lastNewline := l2 }) := by
  rcases s with ⟨data, cs, p, pe, eo, pb, err, be, tc, cfk, cnl, ln, ot, sc, ex, de, bo, fo⟩
  dsimp only at hg
  unfold eofSwitch rewindA appendBodyO
  dsimp only
  by_cases hE1 : typeEofStates.contains cs = true
  · rw [if_pos hE1]
    try rw [if_pos hE1]
    (try dsimp only)
    (try split_ifs) <;>
      (try
        first
          | exact EofSim.oops
          | exact EofSim.done ⟨⟨_, rfl⟩, fun _ => rfl⟩
          | exact EofSim.cont ⟨⟨_, rfl⟩, fun _ => rfl⟩
          | exact EofSim.done ⟨⟨l2, rfl⟩, hg⟩
          | exact EofSim.cont ⟨⟨l2, rfl⟩, hg⟩
          | exact EofSim.done ⟨⟨l2, rfl⟩, fun hq => absurd hq (by dsimp only; omega)⟩
          | exact EofSim.cont ⟨⟨l2, rfl⟩, fun hq => absurd hq (by dsimp only; omega)⟩
          | (rw [hg (by assumption)]; exact EofSim.cont ⟨⟨_, rfl⟩, fun _ => rfl⟩)
          | (rw [hg (by assumption)]; exact EofSim.done ⟨⟨_, rfl⟩, fun _ => rfl⟩))
    all_goals try
      first
        | (cases hx : byteAt data (p - 1) <;>
            first
              | exact EofSim.oops
              | exact EofSim.done ⟨⟨_, rfl⟩, fun _ => rfl⟩
              | exact EofSim.cont ⟨⟨_, rfl⟩, fun _ => rfl⟩
              | exact EofSim.done ⟨⟨l2, rfl⟩, hg⟩
              | exact EofSim.cont ⟨⟨l2, rfl⟩, hg⟩
              | exact EofSim.done ⟨⟨l2, rfl⟩, fun hq => absurd hq (by dsimp only; omega)⟩
              | exact EofSim.cont ⟨⟨l2, rfl⟩, fun hq => absurd hq (by dsimp only; omega)⟩
              | (rw [hg (by assumption)]; exact EofSim.cont ⟨⟨_, rfl⟩, fun _ => rfl⟩)
              | (rw [hg (by assumption)]; exact EofSim.done ⟨⟨_, rfl⟩, fun _ => rfl⟩))
        | (cases hx : byteAt data p <;>
            first
              | exact EofSim.oops
              | exact EofSim.done ⟨⟨_, rfl⟩, fun _ => rfl⟩
              | exact EofSim.cont ⟨⟨_, rfl⟩, fun _ => rfl⟩
              | exact EofSim.done ⟨⟨l2, rfl⟩, hg⟩
              | exact EofSim.cont ⟨⟨l2, rfl⟩, hg⟩
              | exact EofSim.done ⟨⟨l2, rfl⟩, fun hq => absurd hq (by dsimp only; omega)⟩
              | exact EofSim.cont ⟨⟨l2, rfl⟩, fun hq => absurd hq (by dsimp only; omega)⟩
              | (rw [hg (by assumption)]; exact EofSim.cont ⟨⟨_, rfl⟩, fun _ => rfl⟩)
              | (rw [hg (by assumption)]; exact EofSim.done ⟨⟨_, rfl⟩, fun _ => rfl⟩))
        | (cases hx : textSlice data pb p <;> (try dsimp only [Option.map]) <;>
            (try dsimp only) <;> (try split_ifs) <;>
            first
              | exact EofSim.oops
              | exact EofSim.done ⟨⟨_, rfl⟩, fun _ => rfl⟩
              | exact EofSim.cont ⟨⟨_, rfl⟩, fun _ => rfl⟩
              | exact EofSim.done ⟨⟨l2, rfl⟩, hg⟩
              | exact EofSim.cont ⟨⟨l2, rfl⟩, hg⟩
              | exact EofSim.done ⟨⟨l2, rfl⟩, fun hq => absurd hq (by dsimp only; omega)⟩
              | exact EofSim.cont ⟨⟨l2, rfl⟩, fun hq => absurd hq (by dsimp only; omega)⟩
              | (rw [hg (by assumption)]; exact EofSim.cont ⟨⟨_, rfl⟩, fun _ => rfl⟩)
              | (rw [hg (by assumption)]; exact EofSim.done ⟨⟨_, rfl⟩, fun _ => rfl⟩))
  · rw [if_neg hE1]
    try rw [if_neg hE1]
    by_cases hE2 : colonEofStates.contains cs = true
    · rw [if_pos hE2]
      try rw [if_pos hE2]
      (try dsimp only)
      (try split_ifs) <;>
        (try
          first
            | exact EofSim.oops
            | exact EofSim.done ⟨⟨_, rfl⟩, fun _ => rfl⟩
            | exact EofSim.cont ⟨⟨_, rfl⟩, fun _ => rfl⟩
            | exact EofSim.done ⟨⟨l2, rfl⟩, hg⟩
            | exact EofSim.cont ⟨⟨l2, rfl⟩, hg⟩
            | exact EofSim.done ⟨⟨l2, rfl⟩, fun hq => absurd hq (by dsimp only; omega)⟩
            | exact EofSim.cont ⟨⟨l2, rfl⟩, fun hq => absurd hq (by dsimp only; omega)⟩
            | (rw [hg (by assumption)]; exact EofSim.cont ⟨⟨_, rfl⟩, fun _ => rfl⟩)
            | (rw [hg (by assumption)]; exact EofSim.done ⟨⟨_, rfl⟩, fun _ => rfl⟩))
      all_goals try
        first
          | (cases hx : byteAt data (p - 1) <;>
              first
                | exact EofSim.oops
                | exact EofSim.done ⟨⟨_, rfl⟩, fun _ => rfl⟩
                | exact EofSim.cont ⟨⟨_, rfl⟩, fun _ => rfl⟩
                | exact EofSim.done ⟨⟨l2, rfl⟩, hg⟩
                | exact EofSim.cont ⟨⟨l2, rfl⟩, hg⟩
                | exact EofSim.done ⟨⟨l2, rfl⟩, fun hq => absurd hq (by dsimp only; omega)⟩
                | exact EofSim.cont ⟨⟨l2, rfl⟩, fun hq => absurd hq (by dsimp only; omega)⟩
                | (rw [hg (by assumption)]; exact EofSim.cont ⟨⟨_, rfl⟩, fun _ => rfl⟩)
                | (rw [hg (by assumption)]; exact EofSim.done ⟨⟨_, rfl⟩, fun _ => rfl⟩))
          | (cases hx : byteAt data p <;>
              first
                | exact EofSim.oops
                | exact EofSim.done ⟨⟨_, rfl⟩, fun _ => rfl⟩
                | exact EofSim.cont ⟨⟨_, rfl⟩, fun _ => rfl⟩
                | exact EofSim.done ⟨⟨l2, rfl⟩, hg⟩
                | exact EofSim.cont ⟨⟨l2, rfl⟩, hg⟩
                | exact EofSim.done ⟨⟨l2, rfl⟩, fun hq => absurd hq (by dsimp only; omega)⟩
                | exact EofSim.cont ⟨⟨l2, rfl⟩, fun hq => absurd hq (by dsimp only; omega)⟩
                | (rw [hg (by assumption)]; exact EofSim.cont ⟨⟨_, rfl⟩, fun _ => rfl⟩)
                | (rw [hg (by assumption)]; exact EofSim.done ⟨⟨_, rfl⟩, fun _ => rfl⟩))
          | (cases hx : textSlice data pb p <;> (try dsimp only [Option.map]) <;>
              (try dsimp only) <;> (try split_ifs) <;>
              first
                | exact EofSim.oops
                | exact EofSim.done ⟨⟨_, rfl⟩, fun _ => rfl⟩
                | exact EofSim.cont ⟨⟨_, rfl⟩, fun _ => rfl⟩
                | exact EofSim.done ⟨⟨l2, rfl⟩, hg⟩
                | exact EofSim.cont ⟨⟨l2, rfl⟩, hg⟩
                | exact EofSim.done ⟨⟨l2, rfl⟩, fun hq => absurd hq (by dsimp only; omega)⟩
                | exact EofSim.cont ⟨⟨l2, rfl⟩, fun hq => absurd hq (by dsimp only; omega)⟩
                | (rw [hg (by assumption)]; exact EofSim.cont ⟨⟨_, rfl⟩, fun _ => rfl⟩)
                | (rw [hg (by assumption)]; exact EofSim.done ⟨⟨_, rfl⟩, fun _ => rfl⟩))
    · rw [if_neg hE2]
      try rw [if_neg hE2]
      by_cases hE3 : descrInitEofStates.contains cs = true
      · rw [if_pos hE3]
        try rw [if_pos hE3]
        (try dsimp only)
        (try split_ifs) <;>
          (try
            first
              | exact EofSim.oops
              | exact EofSim.done ⟨⟨_, rfl⟩, fun _ => rfl⟩
              | exact EofSim.cont ⟨⟨_, rfl⟩, fun _ => rfl⟩
              | exact EofSim.done ⟨⟨l2, rfl⟩, hg⟩
              | exact EofSim.cont ⟨⟨l2, rfl⟩, hg⟩
              | exact EofSim.done ⟨⟨l2, rfl⟩, fun hq => absurd hq (by dsimp only; omega)⟩
              | exact EofSim.cont ⟨⟨l2, rfl⟩, fun hq => absurd hq (by dsimp only; omega)⟩
              | (rw [hg (by assumption)]; exact EofSim.cont ⟨⟨_, rfl⟩, fun _ => rfl⟩)
              | (rw [hg (by assumption)]; exact EofSim.done ⟨⟨_, rfl⟩, fun _ => rfl⟩))
        all_goals try
          first
            | (cases hx : byteAt data (p - 1) <;>
                first
                  | exact EofSim.oops
                  | exact EofSim.done ⟨⟨_, rfl⟩, fun _ => rfl⟩
                  | exact EofSim.cont ⟨⟨_, rfl⟩, fun _ => rfl⟩
                  | exact EofSim.done ⟨⟨l2, rfl⟩, hg⟩
                  | exact EofSim.cont ⟨⟨l2, rfl⟩, hg⟩
                  | exact EofSim.done ⟨⟨l2, rfl⟩, fun hq => absurd hq (by dsimp only; omega)⟩
                  | exact EofSim.cont ⟨⟨l2, rfl⟩, fun hq => absurd hq (by dsimp only; omega)⟩
                  | (rw [hg (by assumption)]; exact EofSim.cont ⟨⟨_, rfl⟩, fun _ => rfl⟩)
                  | (rw [hg (by assumption)]; exact EofSim.done ⟨⟨_, rfl⟩, fun _ => rfl⟩))
            | (cases hx : byteAt data p <;>
                first
                  | exact EofSim.oops
                  | exact EofSim.done ⟨⟨_, rfl⟩, fun _ => rfl⟩
                  | exact EofSim.cont ⟨⟨_, rfl⟩, fun _ => rfl⟩
                  | exact EofSim.done ⟨⟨l2, rfl⟩, hg⟩
                  | exact EofSim.cont ⟨⟨l2, rfl⟩, hg⟩
                  | exact EofSim.done ⟨⟨l2, rfl⟩, fun hq => absurd hq (by dsimp only; omega)⟩
                  | exact EofSim.cont ⟨⟨l2, rfl⟩, fun hq => absurd hq (by dsimp only; omega)⟩
                  | (rw [hg (by assumption)]; exact EofSim.cont ⟨⟨_, rfl⟩, fun _ => rfl⟩)
                  | (rw [hg (by assumption)]; exact EofSim.done ⟨⟨_, rfl⟩, fun _ => rfl⟩))
            | (cases hx : textSlice data pb p <;> (try dsimp only [Option.map]) <;>
                (try dsimp only) <;> (try split_ifs) <;>
                first
                  | exact EofSim.oops
                  | exact EofSim.done ⟨⟨_, rfl⟩, fun _ => rfl⟩
                  | exact EofSim.cont ⟨⟨_, rfl⟩, fun _ => rfl⟩
                  | exact EofSim.done ⟨⟨l2, rfl⟩, hg⟩
                  | exact EofSim.cont ⟨⟨l2, rfl⟩, hg⟩
                  | exact EofSim.done ⟨⟨l2, rfl⟩, fun hq => absurd hq (by dsimp only; omega)⟩
                  | exact EofSim.cont ⟨⟨l2, rfl⟩, fun hq => absurd hq (by dsimp only; omega)⟩
                  | (rw [hg (by assumption)]; exact EofSim.cont ⟨⟨_, rfl⟩, fun _ => rfl⟩)
                  | (rw [hg (by assumption)]; exact EofSim.done ⟨⟨_, rfl⟩, fun _ => rfl⟩))
      · rw [if_neg hE3]
        try rw [if_neg hE3]
        by_cases hE4 : descrEofStates.contains cs = true
        · rw [if_pos hE4]
          try rw [if_pos hE4]
          (try dsimp only)
          (try split_ifs) <;>
            (try
              first
                | exact EofSim.oops
                | exact EofSim.done ⟨⟨_, rfl⟩, fun _ => rfl⟩
                | exact EofSim.cont ⟨⟨_, rfl⟩, fun _ => rfl⟩
                | exact EofSim.done ⟨⟨l2, rfl⟩, hg⟩
                | exact EofSim.cont ⟨⟨l2, rfl⟩, hg⟩
                | exact EofSim.done ⟨⟨l2, rfl⟩, fun hq => absurd hq (by dsimp only; omega)⟩
                | exact EofSim.cont ⟨⟨l2, rfl⟩, fun hq => absurd hq (by dsimp only; omega)⟩
                | (rw [hg (by assumption)]; exact EofSim.cont ⟨⟨_, rfl⟩, fun _ => rfl⟩)
                | (rw [hg (by assumption)]; exact EofSim.done ⟨⟨_, rfl⟩, fun _ => rfl⟩))
          all_goals try
            first
              | (cases hx : byteAt data (p - 1) <;>
                  first
                    | exact EofSim.oops
                    | exact EofSim.done ⟨⟨_, rfl⟩, fun _ => rfl⟩
                    | exact EofSim.cont ⟨⟨_, rfl⟩, fun _ => rfl⟩
                    | exact EofSim.done ⟨⟨l2, rfl⟩, hg⟩
                    | exact EofSim.cont ⟨⟨l2, rfl⟩, hg⟩
                    | exact EofSim.done ⟨⟨l2, rfl⟩, fun hq => absurd hq (by dsimp only; omega)⟩
                    | exact EofSim.cont ⟨⟨l2, rfl⟩, fun hq => absurd hq (by dsimp only; omega)⟩
                    | (rw [hg (by assumption)]; exact EofSim.cont ⟨⟨_, rfl⟩, fun _ => rfl⟩)
                    | (rw [hg (by assumption)]; exact EofSim.done ⟨⟨_, rfl⟩, fun _ => rfl⟩))
              | (cases hx : byteAt data p <;>
                  first
                    | exact EofSim.oops
                    | exact EofSim.done ⟨⟨_, rfl⟩, fun _ => rfl⟩
                    | exact EofSim.cont ⟨⟨_, rfl⟩, fun _ => rfl⟩
                    | exact EofSim.done ⟨⟨l2, rfl⟩, hg⟩
                    | exact EofSim.cont ⟨⟨l2, rfl⟩, hg⟩
                    | exact EofSim.done ⟨⟨l2, rfl⟩, fun hq => absurd hq (by dsimp only; omega)⟩
                    | exact EofSim.cont ⟨⟨l2, rfl⟩, fun hq => absurd hq (by dsimp only; omega)⟩
                    | (rw [hg (by assumption)]; exact EofSim.cont ⟨⟨_, rfl⟩, fun _ => rfl⟩)
                    | (rw [hg (by assumption)]; exact EofSim.done ⟨⟨_, rfl⟩, fun _ => rfl⟩))
              | (cases hx : textSlice data pb p <;> (try dsimp only [Option.map]) <;>
                  (try dsimp only) <;> (try split_ifs) <;>
                  first
                    | exact EofSim.oops
                    | exact EofSim.done ⟨⟨_, rfl⟩, fun _ => rfl⟩
                    | exact EofSim.cont ⟨⟨_, rfl⟩, fun _ => rfl⟩
                    | exact EofSim.done ⟨⟨l2, rfl⟩, hg⟩
                    | exact EofSim.cont ⟨⟨l2, rfl⟩, hg⟩
                    | exact EofSim.done ⟨⟨l2, rfl⟩, fun hq => absurd hq (by dsimp only; omega)⟩
                    | exact EofSim.cont ⟨⟨l2, rfl⟩, fun hq => absurd hq (by dsimp only; omega)⟩
                    | (rw [hg (by assumption)]; exact EofSim.cont ⟨⟨_, rfl⟩, fun _ => rfl⟩)
                    | (rw [hg (by assumption)]; exact EofSim.done ⟨⟨_, rfl⟩, fun _ => rfl⟩))
        · rw [if_neg hE4]
          try rw [if_neg hE4]
          by_cases hE5 : blankEofStates.contains cs = true
          · rw [if_pos hE5]
            try rw [if_pos hE5]
            (try dsimp only)
            (try split_ifs) <;>
              (try
                first
                  | exact EofSim.oops
                  | exact EofSim.done ⟨⟨_, rfl⟩, fun _ => rfl⟩
                  | exact EofSim.cont ⟨⟨_, rfl⟩, fun _ => rfl⟩
                  | exact EofSim.done ⟨⟨l2, rfl⟩, hg⟩
                  | exact EofSim.cont ⟨⟨l2, rfl⟩, hg⟩
                  | exact EofSim.done ⟨⟨l2, rfl⟩, fun hq => absurd hq (by dsimp only; omega)⟩
                  | exact EofSim.cont ⟨⟨l2, rfl⟩, fun hq => absurd hq (by dsimp only; omega)⟩
                  | (rw [hg (by assumption)]; exact EofSim.cont ⟨⟨_, rfl⟩, fun _ => rfl⟩)
                  | (rw [hg (by assumption)]; exact EofSim.done ⟨⟨_, rfl⟩, fun _ => rfl⟩))
            all_goals try
              first
                | (cases hx : byteAt data (p - 1) <;>
                    first
                      | exact EofSim.oops
                      | exact EofSim.done ⟨⟨_, rfl⟩, fun _ => rfl⟩
                      | exact EofSim.cont ⟨⟨_, rfl⟩, fun _ => rfl⟩
                      | exact EofSim.done ⟨⟨l2, rfl⟩, hg⟩
                      | exact EofSim.cont ⟨⟨l2, rfl⟩, hg⟩
                      | exact EofSim.done ⟨⟨l2, rfl⟩, fun hq => absurd hq (by dsimp only; omega)⟩
                      | exact EofSim.cont ⟨⟨l2, rfl⟩, fun hq => absurd hq (by dsimp only; omega)⟩
                      | (rw [hg (by assumption)]; exact EofSim.cont ⟨⟨_, rfl⟩, fun _ => rfl⟩)
                      | (rw [hg (by assumption)]; exact EofSim.done ⟨⟨_, rfl⟩, fun _ => rfl⟩))
                | (cases hx : byteAt data p <;>
                    first
                      | exact EofSim.oops
                      | exact EofSim.done ⟨⟨_, rfl⟩, fun _ => rfl⟩
                      | exact EofSim.cont ⟨⟨_, rfl⟩, fun _ => rfl⟩
                      | exact EofSim.done ⟨⟨l2, rfl⟩, hg⟩
                      | exact EofSim.cont ⟨⟨l2, rfl⟩, hg⟩
                      | exact EofSim.done ⟨⟨l2, rfl⟩, fun hq => absurd hq (by dsimp only; omega)⟩
                      | exact EofSim.cont ⟨⟨l2, rfl⟩, fun hq => absurd hq (by dsimp only; omega)⟩
                      | (rw [hg (by assumption)]; exact EofSim.cont ⟨⟨_, rfl⟩, fun _ => rfl⟩)
                      | (rw [hg (by assumption)]; exact EofSim.done ⟨⟨_, rfl⟩, fun _ => rfl⟩))
                | (cases hx : textSlice data pb p <;> (try dsimp only [Option.map]) <;>
                    (try dsimp only) <;> (try split_ifs) <;>
                    first
                      | exact EofSim.oops
                      | exact EofSim.done ⟨⟨_, rfl⟩, fun _ => rfl⟩
                      | exact EofSim.cont ⟨⟨_, rfl⟩, fun _ => rfl⟩
                      | exact EofSim.done ⟨⟨l2, rfl⟩, hg⟩
                      | exact EofSim.cont ⟨⟨l2, rfl⟩, hg⟩
                      | exact EofSim.done ⟨⟨l2, rfl⟩, fun hq => absurd hq (by dsimp only; omega)⟩
                      | exact EofSim.cont ⟨⟨l2, rfl⟩, fun hq => absurd hq (by dsimp only; omega)⟩
                      | (rw [hg (by assumption)]; exact EofSim.cont ⟨⟨_, rfl⟩, fun _ => rfl⟩)
                      | (rw [hg (by assumption)]; exact EofSim.done ⟨⟨_, rfl⟩, fun _ => rfl⟩))
          · rw [if_neg hE5]
            try rw [if_neg hE5]
            by_cases hE6 : descrSetEofStates.contains cs = true
            · rw [if_pos hE6]
              try rw [if_pos hE6]
              (try dsimp only)
              (try split_ifs) <;>
                (try
                  first
                    | exact EofSim.oops
                    | exact EofSim.done ⟨⟨_, rfl⟩, fun _ => rfl⟩
                    | exact EofSim.cont ⟨⟨_, rfl⟩, fun _ => rfl⟩
                    | exact EofSim.done ⟨⟨l2, rfl⟩, hg⟩
                    | exact EofSim.cont ⟨⟨l2, rfl⟩, hg⟩
                    | exact EofSim.done ⟨⟨l2, rfl⟩, fun hq => absurd hq (by dsimp only; omega)⟩
                    | exact EofSim.cont ⟨⟨l2, rfl⟩, fun hq => absurd hq (by dsimp only; omega)⟩
                    | (rw [hg (by assumption)]; exact EofSim.cont ⟨⟨_, rfl⟩, fun _ => rfl⟩)
                    | (rw [hg (by assumption)]; exact EofSim.done ⟨⟨_, rfl⟩, fun _ => rfl⟩))
              all_goals try
                first
                  | (cases hx : byteAt data (p - 1) <;>
                      first
                        | exact EofSim.oops
                        | exact EofSim.done ⟨⟨_, rfl⟩, fun _ => rfl⟩
                        | exact EofSim.cont ⟨⟨_, rfl⟩, fun _ => rfl⟩
                        | exact EofSim.done ⟨⟨l2, rfl⟩, hg⟩
                        | exact EofSim.cont ⟨⟨l2, rfl⟩, hg⟩
                        | exact EofSim.done ⟨⟨l2, rfl⟩, fun hq => absurd hq (by dsimp only; omega)⟩
                        | exact EofSim.cont ⟨⟨l2, rfl⟩, fun hq => absurd hq (by dsimp only; omega)⟩
                        | (rw [hg (by assumption)]; exact EofSim.cont ⟨⟨_, rfl⟩, fun _ => rfl⟩)
                        | (rw [hg (by assumption)]; exact EofSim.done ⟨⟨_, rfl⟩, fun _ => rfl⟩))
                  | (cases hx : byteAt data p <;>
                      first
                        | exact EofSim.oops
                        | exact EofSim.done ⟨⟨_, rfl⟩, fun _ => rfl⟩
                        | exact EofSim.cont ⟨⟨_, rfl⟩, fun _ => rfl⟩
                        | exact EofSim.done ⟨⟨l2, rfl⟩, hg⟩
                        | exact EofSim.cont ⟨⟨l2, rfl⟩, hg⟩
                        | exact EofSim.done ⟨⟨l2, rfl⟩, fun hq => absurd hq (by dsimp only; omega)⟩
                        | exact EofSim.cont ⟨⟨l2, rfl⟩, fun hq => absurd hq (by dsimp only; omega)⟩
                        | (rw [hg (by assumption)]; exact EofSim.cont ⟨⟨_, rfl⟩, fun _ => rfl⟩)
                        | (rw [hg (by assumption)]; exact EofSim.done ⟨⟨_, rfl⟩, fun _ => rfl⟩))
                  | (cases hx : textSlice data pb p <;> (try dsimp only [Option.map]) <;>
                      (try dsimp only) <;> (try split_ifs) <;>
                      first
                        | exact EofSim.oops
                        | exact EofSim.done ⟨⟨_, rfl⟩, fun _ => rfl⟩
                        | exact EofSim.cont ⟨⟨_, rfl⟩, fun _ => rfl⟩
                        | exact EofSim.done ⟨⟨l2, rfl⟩, hg⟩
                        | exact EofSim.cont ⟨⟨l2, rfl⟩, hg⟩
                        | exact EofSim.done ⟨⟨l2, rfl⟩, fun hq => absurd hq (by dsimp only; omega)⟩
                        | exact EofSim.cont ⟨⟨l2, rfl⟩, fun hq => absurd hq (by dsimp only; omega)⟩
                        | (rw [hg (by assumption)]; exact EofSim.cont ⟨⟨_, rfl⟩, fun _ => rfl⟩)
                        | (rw [hg (by assumption)]; exact EofSim.done ⟨⟨_, rfl⟩, fun _ => rfl⟩))
            · rw [if_neg hE6]
              try rw [if_neg hE6]
              by_cases hE7 : cs = 90
              · rw [if_pos hE7]
                try rw [if_pos hE7]
                (try dsimp only)
                (try split_ifs) <;>
                  (try
                    first
                      | exact EofSim.oops
                      | exact EofSim.done ⟨⟨_, rfl⟩, fun _ => rfl⟩
                      | exact EofSim.cont ⟨⟨_, rfl⟩, fun _ => rfl⟩
                      | exact EofSim.done ⟨⟨l2, rfl⟩, hg⟩
                      | exact EofSim.cont ⟨⟨l2, rfl⟩, hg⟩
                      | exact EofSim.done ⟨⟨l2, rfl⟩, fun hq => absurd hq (by dsimp only; omega)⟩
                      | exact EofSim.cont ⟨⟨l2, rfl⟩, fun hq => absurd hq (by dsimp only; omega)⟩
                      | (rw [hg (by assumption)]; exact EofSim.cont ⟨⟨_, rfl⟩, fun _ => rfl⟩)
                      | (rw [hg (by assumption)]; exact EofSim.done ⟨⟨_, rfl⟩, fun _ => rfl⟩))
                all_goals try
                  first
                    | (cases hx : byteAt data (p - 1) <;>
                        first
                          | exact EofSim.oops
                          | exact EofSim.done ⟨⟨_, rfl⟩, fun _ => rfl⟩
                          | exact EofSim.cont ⟨⟨_, rfl⟩, fun _ => rfl⟩
                          | exact EofSim.done ⟨⟨l2, rfl⟩, hg⟩
                          | exact EofSim.cont ⟨⟨l2, rfl⟩, hg⟩
                          | exact EofSim.done ⟨⟨l2, rfl⟩, fun hq => absurd hq (by dsimp only; omega)⟩
                          | exact EofSim.cont ⟨⟨l2, rfl⟩, fun hq => absurd hq (by dsimp only; omega)⟩
                          | (rw [hg (by assumption)]; exact EofSim.cont ⟨⟨_, rfl⟩, fun _ => rfl⟩)
                          | (rw [hg (by assumption)]; exact EofSim.done ⟨⟨_, rfl⟩, fun _ => rfl⟩))
                    | (cases hx : byteAt data p <;>
                        first
                          | exact EofSim.oops
                          | exact EofSim.done ⟨⟨_, rfl⟩, fun _ => rfl⟩
                          | exact EofSim.cont ⟨⟨_, rfl⟩, fun _ => rfl⟩
                          | exact EofSim.done ⟨⟨l2, rfl⟩, hg⟩
                          | exact EofSim.cont ⟨⟨l2, rfl⟩, hg⟩
                          | exact EofSim.done ⟨⟨l2, rfl⟩, fun hq => absurd hq (by dsimp only; omega)⟩
                          | exact EofSim.cont ⟨⟨l2, rfl⟩, fun hq => absurd hq (by dsimp only; omega)⟩
                          | (rw [hg (by assumption)]; exact EofSim.cont ⟨⟨_, rfl⟩, fun _ => rfl⟩)
                          | (rw [hg (by assumption)]; exact EofSim.done ⟨⟨_, rfl⟩, fun _ => rfl⟩))
                    | (cases hx : textSlice data pb p <;> (try dsimp only [Option.map]) <;>
                        (try dsimp only) <;> (try split_ifs) <;>
                        first
                          | exact EofSim.oops
                          | exact EofSim.done ⟨⟨_, rfl⟩, fun _ => rfl⟩
                          | exact EofSim.cont ⟨⟨_, rfl⟩, fun _ => rfl⟩
                          | exact EofSim.done ⟨⟨l2, rfl⟩, hg⟩
                          | exact EofSim.cont ⟨⟨l2, rfl⟩, hg⟩
                          | exact EofSim.done ⟨⟨l2, rfl⟩, fun hq => absurd hq (by dsimp only; omega)⟩
                          | exact EofSim.cont ⟨⟨l2, rfl⟩, fun hq => absurd hq (by dsimp only; omega)⟩
                          | (rw [hg (by assumption)]; exact EofSim.cont ⟨⟨_, rfl⟩, fun _ => rfl⟩)
                          | (rw [hg (by assumption)]; exact EofSim.done ⟨⟨_, rfl⟩, fun _ => rfl⟩))
              · rw [if_neg hE7]
                try rw [if_neg hE7]
                by_cases hE8 : cs = 92
                · rw [if_pos hE8]
                  try rw [if_pos hE8]
                  (try dsimp only)
                  (try split_ifs) <;>
                    (try
                      first
                        | exact EofSim.oops
                        | exact EofSim.done ⟨⟨_, rfl⟩, fun _ => rfl⟩
                        | exact EofSim.cont ⟨⟨_, rfl⟩, fun _ => rfl⟩
                        | exact EofSim.done ⟨⟨l2, rfl⟩, hg⟩
                        | exact EofSim.cont ⟨⟨l2, rfl⟩, hg⟩
                        | exact EofSim.done ⟨⟨l2, rfl⟩, fun hq => absurd hq (by dsimp only; omega)⟩
                        | exact EofSim.cont ⟨⟨l2, rfl⟩, fun hq => absurd hq (by dsimp only; omega)⟩
                        | (rw [hg (by assumption)]; exact EofSim.cont ⟨⟨_, rfl⟩, fun _ => rfl⟩)
                        | (rw [hg (by assumption)]; exact EofSim.done ⟨⟨_, rfl⟩, fun _ => rfl⟩))
                  all_goals try
                    first
                      | (cases hx : byteAt data (p - 1) <;>
                          first
                            | exact EofSim.oops
                            | exact EofSim.done ⟨⟨_, rfl⟩, fun _ => rfl⟩
                            | exact EofSim.cont ⟨⟨_, rfl⟩, fun _ => rfl⟩
                            | exact EofSim.done ⟨⟨l2, rfl⟩, hg⟩
                            | exact EofSim.cont ⟨⟨l2, rfl⟩, hg⟩
                            | exact EofSim.done ⟨⟨l2, rfl⟩, fun hq => absurd hq (by dsimp only; omega)⟩
                            | exact EofSim.cont ⟨⟨l2, rfl⟩, fun hq => absurd hq (by dsimp only; omega)⟩
                            | (rw [hg (by assumption)]; exact EofSim.cont ⟨⟨_, rfl⟩, fun _ => rfl⟩)
                            | (rw [hg (by assumption)]; exact EofSim.done ⟨⟨_, rfl⟩, fun _ => rfl⟩))
                      | (cases hx : byteAt data p <;>
                          first
                            | exact EofSim.oops
                            | exact EofSim.done ⟨⟨_, rfl⟩, fun _ => rfl⟩
                            | exact EofSim.cont ⟨⟨_, rfl⟩, fun _ => rfl⟩
                            | exact EofSim.done ⟨⟨l2, rfl⟩, hg⟩
                            | exact EofSim.cont ⟨⟨l2, rfl⟩, hg⟩
                            | exact EofSim.done ⟨⟨l2, rfl⟩, fun hq => absurd hq (by dsimp only; omega)⟩
                            | exact EofSim.cont ⟨⟨l2, rfl⟩, fun hq => absurd hq (by dsimp only; omega)⟩
                            | (rw [hg (by assumption)]; exact EofSim.cont ⟨⟨_, rfl⟩, fun _ => rfl⟩)
                            | (rw [hg (by assumption)]; exact EofSim.done ⟨⟨_, rfl⟩, fun _ => rfl⟩))
                      | (cases hx : textSlice data pb p <;> (try dsimp only [Option.map]) <;>
                          (try dsimp only) <;> (try split_ifs) <;>
                          first
                            | exact EofSim.oops
                            | exact EofSim.done ⟨⟨_, rfl⟩, fun _ => rfl⟩
                            | exact EofSim.cont ⟨⟨_, rfl⟩, fun _ => rfl⟩
                            | exact EofSim.done ⟨⟨l2, rfl⟩, hg⟩
                            | exact EofSim.cont ⟨⟨l2, rfl⟩, hg⟩
                            | exact EofSim.done ⟨⟨l2, rfl⟩, fun hq => absurd hq (by dsimp only; omega)⟩
                            | exact EofSim.cont ⟨⟨l2, rfl⟩, fun hq => absurd hq (by dsimp only; omega)⟩
                            | (rw [hg (by assumption)]; exact EofSim.cont ⟨⟨_, rfl⟩, fun _ => rfl⟩)
                            | (rw [hg (by assumption)]; exact EofSim.done ⟨⟨_, rfl⟩, fun _ => rfl⟩))
                · rw [if_neg hE8]
                  try rw [if_neg hE8]
                  by_cases hE9 : trailerEofStates.contains cs = true
                  · rw [if_pos hE9]
                    try rw [if_pos hE9]
                    (try dsimp only)
                    (try split_ifs) <;>
                      (try
                        first
                          | exact EofSim.oops
                          | exact EofSim.done ⟨⟨_, rfl⟩, fun _ => rfl⟩
                          | exact EofSim.cont ⟨⟨_, rfl⟩, fun _ => rfl⟩
                          | exact EofSim.done ⟨⟨l2, rfl⟩, hg⟩
                          | exact EofSim.cont ⟨⟨l2, rfl⟩, hg⟩
                          | exact EofSim.done ⟨⟨l2, rfl⟩, fun hq => absurd hq (by dsimp only; omega)⟩
                          | exact EofSim.cont ⟨⟨l2, rfl⟩, fun hq => absurd hq (by dsimp only; omega)⟩
                          | (rw [hg (by assumption)]; exact EofSim.cont ⟨⟨_, rfl⟩, fun _ => rfl⟩)
                          | (rw [hg (by assumption)]; exact EofSim.done ⟨⟨_, rfl⟩, fun _ => rfl⟩))
                    all_goals try
                      first
                        | (cases hx : byteAt data (p - 1) <;>
                            first
                              | exact EofSim.oops
                              | exact EofSim.done ⟨⟨_, rfl⟩, fun _ => rfl⟩
                              | exact EofSim.cont ⟨⟨_, rfl⟩, fun _ => rfl⟩
                              | exact EofSim.done ⟨⟨l2, rfl⟩, hg⟩
                              | exact EofSim.cont ⟨⟨l2, rfl⟩, hg⟩
                              | exact EofSim.done ⟨⟨l2, rfl⟩, fun hq => absurd hq (by dsimp only; omega)⟩
                              | exact EofSim.cont ⟨⟨l2, rfl⟩, fun hq => absurd hq (by dsimp only; omega)⟩
                              | (rw [hg (by assumption)]; exact EofSim.cont ⟨⟨_, rfl⟩, fun _ => rfl⟩)
                              | (rw [hg (by assumption)]; exact EofSim.done ⟨⟨_, rfl⟩, fun _ => rfl⟩))
                        | (cases hx : byteAt data p <;>
                            first
                              | exact EofSim.oops
                              | exact EofSim.done ⟨⟨_, rfl⟩, fun _ => rfl⟩
                              | exact EofSim.cont ⟨⟨_, rfl⟩, fun _ => rfl⟩
                              | exact EofSim.done ⟨⟨l2, rfl⟩, hg⟩
                              | exact EofSim.cont ⟨⟨l2, rfl⟩, hg⟩
                              | exact EofSim.done ⟨⟨l2, rfl⟩, fun hq => absurd hq (by dsimp only; omega)⟩
                              | exact EofSim.cont ⟨⟨l2, rfl⟩, fun hq => absurd hq (by dsimp only; omega)⟩
                              | (rw [hg (by assumption)]; exact EofSim.cont ⟨⟨_, rfl⟩, fun _ => rfl⟩)
                              | (rw [hg (by assumption)]; exact EofSim.done ⟨⟨_, rfl⟩, fun _ => rfl⟩))
                        | (cases hx : textSlice data pb p <;> (try dsimp only [Option.map]) <;>
                            (try dsimp only) <;> (try split_ifs) <;>
                            first
                              | exact EofSim.oops
                              | exact EofSim.done ⟨⟨_, rfl⟩, fun _ => rfl⟩
                              | exact EofSim.cont ⟨⟨_, rfl⟩, fun _ => rfl⟩
                              | exact EofSim.done ⟨⟨l2, rfl⟩, hg⟩
                              | exact EofSim.cont ⟨⟨l2, rfl⟩, hg⟩
                              | exact EofSim.done ⟨⟨l2, rfl⟩, fun hq => absurd hq (by dsimp only; omega)⟩
                              | exact EofSim.cont ⟨⟨l2, rfl⟩, fun hq => absurd hq (by dsimp only; omega)⟩
                              | (rw [hg (by assumption)]; exact EofSim.cont ⟨⟨_, rfl⟩, fun _ => rfl⟩)
                              | (rw [hg (by assumption)]; exact EofSim.done ⟨⟨_, rfl⟩, fun _ => rfl⟩))
                  · rw [if_neg hE9]
                    try rw [if_neg hE9]
                    by_cases hE10 : entryEofStates.contains cs = true
                    · rw [if_pos hE10]
                      try rw [if_pos hE10]
                      (try dsimp only)
                      (try split_ifs) <;>
                        (try
                          first
                            | exact EofSim.oops
                            | exact EofSim.done ⟨⟨_, rfl⟩, fun _ => rfl⟩
                            | exact EofSim.cont ⟨⟨_, rfl⟩, fun _ => rfl⟩
                            | exact EofSim.done ⟨⟨l2, rfl⟩, hg⟩
                            | exact EofSim.cont ⟨⟨l2, rfl⟩, hg⟩
                            | exact EofSim.done ⟨⟨l2, rfl⟩, fun hq => absurd hq (by dsimp only; omega)⟩
                            | exact EofSim.cont ⟨⟨l2, rfl⟩, fun hq => absurd hq (by dsimp only; omega)⟩
                            | (rw [hg (by assumption)]; exact EofSim.cont ⟨⟨_, rfl⟩, fun _ => rfl⟩)
                            | (rw [hg (by assumption)]; exact EofSim.done ⟨⟨_, rfl⟩, fun _ => rfl⟩))
                      all_goals try
                        first
                          | (cases hx : byteAt data (p - 1) <;>
                              first
                                | exact EofSim.oops
                                | exact EofSim.done ⟨⟨_, rfl⟩, fun _ => rfl⟩
                                | exact EofSim.cont ⟨⟨_, rfl⟩, fun _ => rfl⟩
                                | exact EofSim.done ⟨⟨l2, rfl⟩, hg⟩
                                | exact EofSim.cont ⟨⟨l2, rfl⟩, hg⟩
                                | exact EofSim.done ⟨⟨l2, rfl⟩, fun hq => absurd hq (by dsimp only; omega)⟩
                                | exact EofSim.cont ⟨⟨l2, rfl⟩, fun hq => absurd hq (by dsimp only; omega)⟩
                                | (rw [hg (by assumption)]; exact EofSim.cont ⟨⟨_, rfl⟩, fun _ => rfl⟩)
                                | (rw [hg (by assumption)]; exact EofSim.done ⟨⟨_, rfl⟩, fun _ => rfl⟩))
                          | (cases hx : byteAt data p <;>
                              first
                                | exact EofSim.oops
                                | exact EofSim.done ⟨⟨_, rfl⟩, fun _ => rfl⟩
                                | exact EofSim.cont ⟨⟨_, rfl⟩, fun _ => rfl⟩
                                | exact EofSim.done ⟨⟨l2, rfl⟩, hg⟩
                                | exact EofSim.cont ⟨⟨l2, rfl⟩, hg⟩
                                | exact EofSim.done ⟨⟨l2, rfl⟩, fun hq => absurd hq (by dsimp only; omega)⟩
                                | exact EofSim.cont ⟨⟨l2, rfl⟩, fun hq => absurd hq (by dsimp only; omega)⟩
                                | (rw [hg (by assumption)]; exact EofSim.cont ⟨⟨_, rfl⟩, fun _ => rfl⟩)
                                | (rw [hg (by assumption)]; exact EofSim.done ⟨⟨_, rfl⟩, fun _ => rfl⟩))
                          | (cases hx : textSlice data pb p <;> (try dsimp only [Option.map]) <;>
                              (try dsimp only) <;> (try split_ifs) <;>
                              first
                                | exact EofSim.oops
                                | exact EofSim.done ⟨⟨_, rfl⟩, fun _ => rfl⟩
                                | exact EofSim.cont ⟨⟨_, rfl⟩, fun _ => rfl⟩
                                | exact EofSim.done ⟨⟨l2, rfl⟩, hg⟩
                                | exact EofSim.cont ⟨⟨l2, rfl⟩, hg⟩
                                | exact EofSim.done ⟨⟨l2, rfl⟩, fun hq => absurd hq (by dsimp only; omega)⟩
                                | exact EofSim.cont ⟨⟨l2, rfl⟩, fun hq => absurd hq (by dsimp only; omega)⟩
                                | (rw [hg (by assumption)]; exact EofSim.cont ⟨⟨_, rfl⟩, fun _ => rfl⟩)
                                | (rw [hg (by assumption)]; exact EofSim.done ⟨⟨_, rfl⟩, fun _ => rfl⟩))
                    · rw [if_neg hE10]
                      try rw [if_neg hE10]
                      by_cases hE11 : scopeEofStates.contains cs = true
                      · rw [if_pos hE11]
                        try rw [if_pos hE11]
                        (try dsimp only)
                        (try split_ifs) <;>
                          (try
                            first
                              | exact EofSim.oops
                              | exact EofSim.done ⟨⟨_, rfl⟩, fun _ => rfl⟩
                              | exact EofSim.cont ⟨⟨_, rfl⟩, fun _ => rfl⟩
                              | exact EofSim.done ⟨⟨l2, rfl⟩, hg⟩
                              | exact EofSim.cont ⟨⟨l2, rfl⟩, hg⟩
                              | exact EofSim.done ⟨⟨l2, rfl⟩, fun hq => absurd hq (by dsimp only; omega)⟩
                              | exact EofSim.cont ⟨⟨l2, rfl⟩, fun hq => absurd hq (by dsimp only; omega)⟩
                              | (rw [hg (by assumption)]; exact EofSim.cont ⟨⟨_, rfl⟩, fun _ => rfl⟩)
                              | (rw [hg (by assumption)]; exact EofSim.done ⟨⟨_, rfl⟩, fun _ => rfl⟩))
                        all_goals try
                          first
                            | (cases hx : byteAt data (p - 1) <;>
                                first
                                  | exact EofSim.oops
                                  | exact EofSim.done ⟨⟨_, rfl⟩, fun _ => rfl⟩
                                  | exact EofSim.cont ⟨⟨_, rfl⟩, fun _ => rfl⟩
                                  | exact EofSim.done ⟨⟨l2, rfl⟩, hg⟩
                                  | exact EofSim.cont ⟨⟨l2, rfl⟩, hg⟩
                                  | exact EofSim.done ⟨⟨l2, rfl⟩, fun hq => absurd hq (by dsimp only; omega)⟩
                                  | exact EofSim.cont ⟨⟨l2, rfl⟩, fun hq => absurd hq (by dsimp only; omega)⟩
                                  | (rw [hg (by assumption)]; exact EofSim.cont ⟨⟨_, rfl⟩, fun _ => rfl⟩)
                                  | (rw [hg (by assumption)]; exact EofSim.done ⟨⟨_, rfl⟩, fun _ => rfl⟩))
                            | (cases hx : byteAt data p <;>
                                first
                                  | exact EofSim.oops
                                  | exact EofSim.done ⟨⟨_, rfl⟩, fun _ => rfl⟩
                                  | exact EofSim.cont ⟨⟨_, rfl⟩, fun _ => rfl⟩
                                  | exact EofSim.done ⟨⟨l2, rfl⟩, hg⟩
                                  | exact EofSim.cont ⟨⟨l2, rfl⟩, hg⟩
                                  | exact EofSim.done ⟨⟨l2, rfl⟩, fun hq => absurd hq (by dsimp only; omega)⟩
                                  | exact EofSim.cont ⟨⟨l2, rfl⟩, fun hq => absurd hq (by dsimp only; omega)⟩
                                  | (rw [hg (by assumption)]; exact EofSim.cont ⟨⟨_, rfl⟩, fun _ => rfl⟩)
                                  | (rw [hg (by assumption)]; exact EofSim.done ⟨⟨_, rfl⟩, fun _ => rfl⟩))
                            | (cases hx : textSlice data pb p <;> (try dsimp only [Option.map]) <;>
                                (try dsimp only) <;> (try split_ifs) <;>
                                first
                                  | exact EofSim.oops
                                  | exact EofSim.done ⟨⟨_, rfl⟩, fun _ => rfl⟩
                                  | exact EofSim.cont ⟨⟨_, rfl⟩, fun _ => rfl⟩
                                  | exact EofSim.done ⟨⟨l2, rfl⟩, hg⟩
                                  | exact EofSim.cont ⟨⟨l2, rfl⟩, hg⟩
                                  | exact EofSim.done ⟨⟨l2, rfl⟩, fun hq => absurd hq (by dsimp only; omega)⟩
                                  | exact EofSim.cont ⟨⟨l2, rfl⟩, fun hq => absurd hq (by dsimp only; omega)⟩
                                  | (rw [hg (by assumption)]; exact EofSim.cont ⟨⟨_, rfl⟩, fun _ => rfl⟩)
                                  | (rw [hg (by assumption)]; exact EofSim.done ⟨⟨_, rfl⟩, fun _ => rfl⟩))
                      · rw [if_neg hE11]
                        try rw [if_neg hE11]
                        by_cases hE12 : cs = 34
                        · rw [if_pos hE12]
                          try rw [if_pos hE12]
                          (try dsimp only)
                          (try split_ifs) <;>
                            (try
                              first
                                | exact EofSim.oops
                                | exact EofSim.done ⟨⟨_, rfl⟩, fun _ => rfl⟩
                                | exact EofSim.cont ⟨⟨_, rfl⟩, fun _ => rfl⟩
                                | exact EofSim.done ⟨⟨l2, rfl⟩, hg⟩
                                | exact EofSim.cont ⟨⟨l2, rfl⟩, hg⟩
                                | exact EofSim.done ⟨⟨l2, rfl⟩, fun hq => absurd hq (by dsimp only; omega)⟩
                                | exact EofSim.cont ⟨⟨l2, rfl⟩, fun hq => absurd hq (by dsimp only; omega)⟩
                                | (rw [hg (by assumption)]; exact EofSim.cont ⟨⟨_, rfl⟩, fun _ => rfl⟩)
                                | (rw [hg (by assumption)]; exact EofSim.done ⟨⟨_, rfl⟩, fun _ => rfl⟩))
                          all_goals try
                            first
                              | (cases hx : byteAt data (p - 1) <;>
                                  first
                                    | exact EofSim.oops
                                    | exact EofSim.done ⟨⟨_, rfl⟩, fun _ => rfl⟩
                                    | exact EofSim.cont ⟨⟨_, rfl⟩, fun _ => rfl⟩
                                    | exact EofSim.done ⟨⟨l2, rfl⟩, hg⟩
                                    | exact EofSim.cont ⟨⟨l2, rfl⟩, hg⟩
                                    | exact EofSim.done ⟨⟨l2, rfl⟩, fun hq => absurd hq (by dsimp only; omega)⟩
                                    | exact EofSim.cont ⟨⟨l2, rfl⟩, fun hq => absurd hq (by dsimp only; omega)⟩
                                    | (rw [hg (by assumption)]; exact EofSim.cont ⟨⟨_, rfl⟩, fun _ => rfl⟩)
                                    | (rw [hg (by assumption)]; exact EofSim.done ⟨⟨_, rfl⟩, fun _ => rfl⟩))
                              | (cases hx : byteAt data p <;>
                                  first
                                    | exact EofSim.oops
                                    | exact EofSim.done ⟨⟨_, rfl⟩, fun _ => rfl⟩
                                    | exact EofSim.cont ⟨⟨_, rfl⟩, fun _ => rfl⟩
                                    | exact EofSim.done ⟨⟨l2, rfl⟩, hg⟩
                                    | exact EofSim.cont ⟨⟨l2, rfl⟩, hg⟩
                                    | exact EofSim.done ⟨⟨l2, rfl⟩, fun hq => absurd hq (by dsimp only; omega)⟩
                                    | exact EofSim.cont ⟨⟨l2, rfl⟩, fun hq => absurd hq (by dsimp only; omega)⟩
                                    | (rw [hg (by assumption)]; exact EofSim.cont ⟨⟨_, rfl⟩, fun _ => rfl⟩)
                                    | (rw [hg (by assumption)]; exact EofSim.done ⟨⟨_, rfl⟩, fun _ => rfl⟩))
                              | (cases hx : textSlice data pb p <;> (try dsimp only [Option.map]) <;>
                                  (try dsimp only) <;> (try split_ifs) <;>
                                  first
                                    | exact EofSim.oops
                                    | exact EofSim.done ⟨⟨_, rfl⟩, fun _ => rfl⟩
                                    | exact EofSim.cont ⟨⟨_, rfl⟩, fun _ => rfl⟩
                                    | exact EofSim.done ⟨⟨l2, rfl⟩, hg⟩
                                    | exact EofSim.cont ⟨⟨l2, rfl⟩, hg⟩
                                    | exact EofSim.done ⟨⟨l2, rfl⟩, fun hq => absurd hq (by dsimp only; omega)⟩
                                    | exact EofSim.cont ⟨⟨l2, rfl⟩, fun hq => absurd hq (by dsimp only; omega)⟩
                                    | (rw [hg (by assumption)]; exact EofSim.cont ⟨⟨_, rfl⟩, fun _ => rfl⟩)
                                    | (rw [hg (by assumption)]; exact EofSim.done ⟨⟨_, rfl⟩, fun _ => rfl⟩))
                        · rw [if_neg hE12]
                          try rw [if_neg hE12]
                          first
                            | exact EofSim.oops
                            | exact EofSim.done ⟨⟨_, rfl⟩, fun _ => rfl⟩
                            | exact EofSim.cont ⟨⟨_, rfl⟩, fun _ => rfl⟩
                            | exact EofSim.done ⟨⟨l2, rfl⟩, hg⟩
                            | exact EofSim.cont ⟨⟨l2, rfl⟩, hg⟩
                            | exact EofSim.done ⟨⟨l2, rfl⟩, fun hq => absurd hq (by dsimp only; omega)⟩
                            | exact EofSim.cont ⟨⟨l2, rfl⟩, fun hq => absurd hq (by dsimp only; omega)⟩
                            | (rw [hg (by assumption)]; exact EofSim.cont ⟨⟨_, rfl⟩, fun _ => rfl⟩)
                            | (rw [hg (by assumption)]; exact EofSim.done ⟨⟨_, rfl⟩, fun _ => rfl⟩)

/-- The whole exec loop applied to two states that differ at most in
`lastNewline` (agreeing on it whenever `countNewlines` is positive) produces
run results of the same shape whose final states again differ at most in
`lastNewline`. -/
theorem mrun_sim (fuel : Nat) : ∀ (s : St) (l2 : Int),
    (0 < s.countNewlines → l2 = s.lastNewline) →
    RunSim (mrun fuel s) (mrun fuel { s with lastNewline := l2 }) := by
  induction fuel with
  | zero =>
    intro s l2 hg
    simp only [mrun]
    exact RunSim.fuelOut
  | succ fuel ih =>
    intro s l2 hg
    by_cases hppe : s.p = s.pe
    · by_cases heof : s.p = s.eof
      · have h1 : mrun (fuel + 1) s =
            (match eofSwitch s with
             | .done s1 => RunRes.ok s1
             | .cont s1 => mrun fuel { s1 with p := s1.p + 1 }
             | .oops => RunRes.oops) := by
          simp only [mrun]
          rw [if_pos hppe, if_pos heof]
        have h2 : mrun (fuel + 1) { s with lastNewline := l2 } =
            (match eofSwitch { s with lastNewline := l2 } with
             | .done s1 => RunRes.ok s1
             | .cont s1 => mrun fuel { s1 with p := s1.p + 1 }
             | .oops => RunRes.oops) := by
          simp only [mrun]
          dsimp only
          rw [if_pos hppe, if_pos heof]
        rw [h1, h2]
        have hrel := eofSwitch_sim s l2 hg
        revert hrel
        generalize eofSwitch s = r1
        generalize eofSwitch { s with lastNewline := l2 } = r2
        intro hrel
        cases hrel with
        | done hsim => exact RunSim.ok hsim
        | cont hsim =>
          obtain ⟨⟨l, hEq⟩, hgq⟩ := hsim
          subst hEq
          exact ih _ l hgq
        | oops => exact RunSim.oops
      · have h1 : mrun (fuel + 1) s = RunRes.ok s := by
          simp only [mrun]
          rw [if_pos hppe, if_neg heof]
        have h2 : mrun (fuel + 1) { s with lastNewline := l2 } =
            RunRes.ok { s with lastNewline := l2 } := by
          simp only [mrun]
          dsimp only
          rw [if_pos hppe, if_neg heof]
        rw [h1, h2]
        exact RunSim.ok ⟨⟨l2, rfl⟩, hg⟩
    · have h1 : mrun (fuel + 1) s =
          (match byteAt s.data s.p with
           | none => RunRes.oops
           | some b =>
             match stepCase s b with
             | .next s1 => mrun fuel { s1 with p := s1.p + 1 }
             | .halt s1 => RunRes.ok s1
             | .oops => RunRes.oops) := by
        simp only [mrun]
        rw [if_neg hppe]
      have h2 : mrun (fuel + 1) { s with lastNewline := l2 } =
          (match byteAt s.data s.p with
           | none => RunRes.oops
           | some b =>
             match stepCase { s with lastNewline := l2 } b with
             | .next s1 => mrun fuel { s1 with p := s1.p + 1 }
             | .halt s1 => RunRes.ok s1
             | .oops => RunRes.oops) := by
        simp only [mrun]
        dsimp only
        rw [if_neg hppe]
      rw [h1, h2]
      cases hB : byteAt s.data s.p with
      | none => exact RunSim.oops
      | some b =>
        dsimp only
        have hrel := stepCase_sim s l2 b hg
        revert hrel
        generalize stepCase s b = r1
        generalize stepCase { s with lastNewline := l2 } b = r2
        intro hrel
        cases hrel with
        | next hsim =>
          obtain ⟨⟨l, hEq⟩, hgq⟩ := hsim
          subst hEq
          exact ih _ l hgq
        | halt hsim => exact RunSim.ok hsim
        | oops => exact RunSim.oops

/-- The return logic of `Parse` never reads `lastNewline`. -/
theorem parseReturn_ln (s : St) (l : Int) :
    parseReturn { s with lastNewline := l } = parseReturn s := rfl

/-- Reuse safety: two machines that agree on the two observable options return
identical `Parse` results on every input and fuel, regardless of any leftover
transient state (in particular the un-reset `lastNewline`). -/
theorem machineParse_reuse (fuel : Nat) (m1 m2 : St) (input : List Nat)
    (hbe : m2.bestEffort = m1.bestEffort) (htc : m2.typeConfig = m1.typeConfig) :
    machineParse fuel m2 input = machineParse fuel m1 input := by
  have hR : resetParse m2 input = { resetParse m1 input with lastNewline := m2.lastNewline } := by
    dsimp only [resetParse]
    rw [hbe, htc]
  have hrel := mrun_sim fuel (resetParse m1 input) m2.lastNewline
      (by dsimp only [resetParse]; intro h; exact absurd h (by omega))
  rw [← hR] at hrel
  unfold machineParse
  revert hrel
  generalize mrun fuel (resetParse m1 input) = r1
  generalize mrun fuel (resetParse m2 input) = r2
  intro hrel
  cases hrel with
  | ok hsim =>
    obtain ⟨⟨l, hEq⟩, _⟩ := hsim
    rw [hEq]
    rfl
  | oops => rfl
  | fuelOut => rfl

/-! ### Parse-level helper facts -/

theorem machineParse_of_run (fuel : Nat) (m : St) (input : List Nat) (s : St)
    (h : machineRunState fuel m input = some s) :
    machineParse fuel m input = some (parseReturn s) := by
  unfold machineRunState at h
  unfold machineParse
  cases hm : mrun fuel (resetParse m input) with
  | ok s2 =>
    rw [hm] at h
    dsimp only at h
    injection h with h
    subst h
    rfl
  | oops =>
    rw [hm] at h
    simp at h
  | fuelOut =>
    rw [hm] at h
    simp at h

theorem run_facts (fuel : Nat) (m : St) (input : List Nat) (s : St)
    (h : machineRunState fuel m input = some s) :
    s.pe = (input.length : Int) ∧
    s.bestEffort = m.bestEffort ∧
    (∀ e, s.err = some e →
      ∃ base n, e = base ++ colSuffix n ∧ 0 ≤ n ∧ n ≤ (input.length : Int)) ∧
    (∀ sc, s.scope = some sc → ∀ c ∈ sc, isScopeByte c = true) ∧
    (s.err ≠ none → s.cs < firstFinal) := by
  have hInv := resetParse_inv m input
  unfold machineRunState at h
  cases hm : mrun fuel (resetParse m input) with
  | ok s2 =>
    rw [hm] at h
    dsimp only at h
    injection h with h
    subst h
    obtain ⟨hfr, hshape, hscope, hlt, _⟩ := (mrun_master fuel _ hInv).2 s2 hm
    refine ⟨?_, ?_, ?_, hscope, hlt⟩
    · rw [hfr.2.1]
      rfl
    · rw [hfr.2.2.2.1]
      rfl
    · intro e he
      obtain ⟨base, n, h1, h2, h3⟩ := hshape e he
      exact ⟨base, n, h1, h2, h3⟩
  | oops =>
    rw [hm] at h
    simp at h
  | fuelOut =>
    rw [hm] at h
    simp at h

/-! ### The claims -/

/-- C1: Parse return contract.  For every run that completes, landing in an
accepting state yields `(record, none)`; a recorded fatal error yields
`(record, error)` when best effort is on and `minimal()` holds, and
`(none, error)` otherwise. -/
theorem claim1_parse_return_contract (fuel : Nat) (m : St) (input : List Nat)
    (s : St) (h : machineRunState fuel m input = some s) :
    (firstFinal ≤ s.cs → machineParse fuel m input = some (some (exportOut s), none)) ∧
    (∀ e, s.err = some e →
      machineParse fuel m input =
        some (if s.bestEffort && minimalOut s then (some (exportOut s), some e)
              else (none, some e))) := by
  have hmp := machineParse_of_run fuel m input s h
  have hfacts := run_facts fuel m input s h
  constructor
  · intro hcs
    rw [hmp]
    unfold parseReturn
    rw [if_neg (Nat.not_lt.mpr hcs)]
  · intro e he
    have hlt : s.cs < firstFinal := hfacts.2.2.2.2 (by rw [he]; simp)
    rw [hmp]
    unfold parseReturn
    rw [if_pos hlt, he]

/-- C1 witness: the run on `fix: typo` ends in the accepting state 85 with the
type and description populated, and `Parse` returns the record with no error. -/
theorem claim1_witness :
    machineParse (ampleFuel (asciiBytes "fix: typo")) (newMachine false TypeConfig.TypesMinimal)
        (asciiBytes "fix: typo") =
      some (some (exportOut ⟨asciiBytes "fix: typo", 85, 9, 9, 9, 5, none, false,
        TypeConfig.TypesMinimal, [], 0, 0, asciiBytes "fix", none, false,
        asciiBytes "typo", [], []⟩), none) :=
  (claim1_parse_return_contract (ampleFuel (asciiBytes "fix: typo"))
    (newMachine false TypeConfig.TypesMinimal) (asciiBytes "fix: typo")
    ⟨asciiBytes "fix: typo", 85, 9, 9, 9, 5, none, false,
      TypeConfig.TypesMinimal, [], 0, 0, asciiBytes "fix", none, false,
      asciiBytes "typo", [], []⟩ (by decide)).1 (by decide)

/-- C3 (amended): on `fix: bug\n\nFirst paragraph.\n\nSecond paragraph.\n` the
default machine succeeds with type `fix`, description `bug`, no footers, and a
body that keeps the final newline: `First paragraph.\n\nSecond paragraph.\n`. -/
theorem claim3_body_trailing_newline :
    parseMinimal (asciiBytes "fix: bug\n\nFirst paragraph.\n\nSecond paragraph.\n") =
      some (some { rtype := asciiBytes "fix", scope := none, exclamation := false,
                   descr := asciiBytes "bug",
                   body := asciiBytes "First paragraph.\n\nSecond paragraph.\n",
                   footers := [] }, none) := by
  decide

/-- C3 counterexample: the record the claim predicts, whose body drops the
trailing newline, is not what `Parse` returns on that input. -/
theorem claim3_counterexample :
    ¬ parseMinimal (asciiBytes "fix: bug\n\nFirst paragraph.\n\nSecond paragraph.\n") =
      some (some { rtype := asciiBytes "fix", scope := none, exclamation := false,
                   descr := asciiBytes "bug",
                   body := asciiBytes "First paragraph.\n\nSecond paragraph.",
                   footers := [] }, none) := by
  decide

/-- C4 (amended): the reset block at the top of `Parse` resets the cursors,
bounds, state, error, footer key and newline counter, but leaves `lastNewline`
untouched; nevertheless a reused machine returns exactly the same result as a
freshly constructed machine with the same options, because `lastNewline` is
only ever read after being written in the same run. -/
theorem claim4_reset_and_reuse (fuel : Nat) (m : St) (input : List Nat) :
    (resetParse m input).p = 0 ∧
    (resetParse m input).pb = 0 ∧
    (resetParse m input).pe = (input.length : Int) ∧
    (resetParse m input).eof = (input.length : Int) ∧
    (resetParse m input).cs = startCs m.typeConfig ∧
    (resetParse m input).err = none ∧
    (resetParse m input).currentFooterKey = [] ∧
    (resetParse m input).countNewlines = 0 ∧
    (resetParse m input).lastNewline = m.lastNewline ∧
    machineParse fuel m input =
      machineParse fuel (newMachine m.bestEffort m.typeConfig) input := by
  refine ⟨rfl, rfl, rfl, rfl, rfl, rfl, rfl, rfl, rfl, ?_⟩
  exact machineParse_reuse fuel (newMachine m.bestEffort m.typeConfig) m input rfl rfl

/-- C4 counterexample: after parsing a message whose trailers force a counted
newline, the machine is left with `lastNewline = 12`, and the next `Parse`
call starts with that stale value instead of the fresh machine value `0`: not
all transient state is reset. -/
theorem claim4_counterexample :
    Option.map (fun s => (resetParse s (asciiBytes "feat: y")).lastNewline)
        (machineRunState (ampleFuel (asciiBytes "fix: a\n\nK: v\nL: w"))
          (newMachine false TypeConfig.TypesMinimal) (asciiBytes "fix: a\n\nK: v\nL: w"))
      ≠ some ((resetParse (newMachine false TypeConfig.TypesMinimal)
          (asciiBytes "feat: y")).lastNewline) := by
  decide

/-- C5 (amended): every diagnostic a completed `Parse` returns ends with the
rendered column suffix `": col=%02d"` whose value is bounded by the input
length; the value is not in general the one-based position of the offending
character (see the counterexample, where it is the zero-based offset). -/
theorem claim5_column_suffix (fuel : Nat) (m : St) (input : List Nat)
    (out : Option Record × Option (List Nat)) (e : List Nat)
    (h : machineParse fuel m input = some out) (he : out.2 = some e) :
    ∃ base n, e = base ++ colSuffix n ∧ 0 ≤ n ∧ n ≤ (input.length : Int) := by
  have hex : ∃ s, machineRunState fuel m input = some s ∧ out = parseReturn s := by
    unfold machineParse at h
    unfold machineRunState
    cases hm : mrun fuel (resetParse m input) with
    | ok s2 =>
      rw [hm] at h
      dsimp only at h
      injection h with h
      exact ⟨s2, rfl, h.symm⟩
    | oops =>
      rw [hm] at h
      simp at h
    | fuelOut =>
      rw [hm] at h
      simp at h
  obtain ⟨s, hrun, hout⟩ := hex
  have hfacts := run_facts fuel m input s hrun
  subst hout
  have hserr : s.err = some e := by
    by_cases h1 : s.cs < firstFinal
    · by_cases h2 : (s.bestEffort && minimalOut s) = true
      · unfold parseReturn at he
        rw [if_pos h1, if_pos h2] at he
        exact he
      · unfold parseReturn at he
        rw [if_pos h1, if_neg h2] at he
        exact he
    · unfold parseReturn at he
      rw [if_neg h1] at he
      exact absurd he (by simp)
  exact hfacts.2.2.1 e hserr

/-- C5 witness: the diagnostic returned for `zoo` carries a rendered, bounded
column suffix. -/
theorem claim5_witness :
    ∃ base n, errTypeS 122 0 = base ++ colSuffix n ∧ 0 ≤ n ∧
      n ≤ (((asciiBytes "zoo").length : Int)) :=
  claim5_column_suffix (ampleFuel (asciiBytes "zoo"))
    (newMachine false TypeConfig.TypesMinimal) (asciiBytes "zoo")
    (none, some (errTypeS 122 0)) (errTypeS 122 0) (by decide) rfl

/-- C5 counterexample: on `zoo` the offending byte `z` sits at one-based
position 1, yet the diagnostic renders `col=00` — the zero-based offset — so
the column of a current-character diagnostic is not one-based. -/
theorem claim5_counterexample :
    parseMinimal (asciiBytes "zoo") = some (none, some (errTypeS 122 0)) ∧
    errTypeS 122 0 =
      asciiBytes "illegal 'z' character in commit message type" ++ colSuffix 0 ∧
    colSuffix 0 ≠ colSuffix 1 := by
  refine ⟨by decide, by decide, by decide⟩

/-- C10: totality of the embedded `Parse`: from the reset state the exec loop
never performs an out-of-range access (never reaches the panic result), for
every machine, option configuration, input and fuel; a `none` result of
`machineParse` can only mean fuel exhaustion. -/
theorem claim10_no_panic (fuel : Nat) (m : St) (input : List Nat) :
    mrun fuel (resetParse m input) ≠ RunRes.oops ∧
    (machineParse fuel m input = none → mrun fuel (resetParse m input) = RunRes.fuelOut) := by
  have h1 := (mrun_master fuel (resetParse m input) (resetParse_inv m input)).1
  refine ⟨h1, ?_⟩
  intro hnone
  unfold machineParse at hnone
  cases hm : mrun fuel (resetParse m input) with
  | ok s2 =>
    rw [hm] at hnone
    simp at hnone
  | oops => exact absurd hm h1
  | fuelOut => rfl

/-- C10 witness: with no fuel the run reports fuel exhaustion, not a panic. -/
theorem claim10_witness :
    mrun 0 (resetParse (newMachine false TypeConfig.TypesMinimal) []) = RunRes.fuelOut :=
  (claim10_no_panic 0 (newMachine false TypeConfig.TypesMinimal) []).2 rfl

/-- C2: the rewind protocol.  In every trailer-token state a byte that fails
footer-trailer recognition dispatches the `rewind` action, and at EOF the
trailer states run the same action (re-entering the loop on a transfer).  With
no footer yet emitted the action reclassifies the speculatively consumed bytes
as body: `pb` is pre-advanced to `lastNewline + 1` exactly when
`countNewlines > 0`, the cursor is set to `pb - 1`, and control moves to the
body sub-machine (state 34).  With a footer already emitted it fails with
`ErrTrailer` at the current byte, or `ErrTrailerIncomplete` at EOF. -/
theorem claim2_rewind_protocol (s : St) (b c : Nat) :
    (rewindTrigger s.cs b = true → stepCase s b = rewindA s) ∧
    (trailerEofStates.contains s.cs = true →
      eofSwitch s = (match rewindA s with
                     | .next s1 => EofRes.cont s1
                     | .halt s1 => EofRes.done s1
                     | .oops => EofRes.oops)) ∧
    (s.footers = [] →
      rewindA s = .next { s with
        pb := if s.countNewlines > 0 then s.lastNewline + 1 else s.pb,
        p := (if s.countNewlines > 0 then s.lastNewline + 1 else s.pb) - 1,
        cs := 34 }) ∧
    (s.footers ≠ [] → s.p ≠ s.pe → byteAt s.data s.p = some b →
      rewindA s = .halt { s with cs := 0, err := some (errTrailerS b s.p) }) ∧
    (s.footers ≠ [] → s.p = s.pe → byteAt s.data (s.p - 1) = some c →
      rewindA s = .halt { s with cs := 0, err := some (errTrailerIncompleteS c s.p) }) := by
  refine ⟨?_, ?_, ?_, ?_, ?_⟩
  · intro htr
    rcases s with ⟨data, cs, p, pe, eo, pb, err, be, tc, cfk, cnl, ln, ot, sc, ex, de, bo, fo⟩
    dsimp only at htr ⊢
    unfold rewindTrigger at htr
    split at htr
    next =>
      simp only [stepCase]
      rw [if_neg (by intro hbx; subst hbx; simp at htr), if_neg (by intro hbx; subst hbx; simp at htr), if_neg (by intro hbx; subst hbx; simp at htr), if_neg (by intro hbx; simp [hbx] at htr)]
    next =>
      simp only [stepCase]
      rw [if_neg (by intro hbx; subst hbx; simp at htr)]
    next =>
      simp only [stepCase]
      rw [if_neg (by intro hbx; simp [hbx] at htr)]
    next =>
      simp only [stepCase]
      rw [if_neg (by intro hbx; subst hbx; simp at htr)]
    next =>
      simp only [stepCase]
      rw [if_neg (by intro hbx; subst hbx; simp at htr), if_neg (by intro hbx; subst hbx; simp at htr), if_neg (by intro hbx; subst hbx; simp at htr), if_neg (by intro hbx; subst hbx; simp at htr), if_neg (by intro hbx; simp [hbx] at htr)]
    next =>
      simp only [stepCase]
      rw [if_neg (by intro hbx; subst hbx; simp at htr), if_neg (by intro hbx; subst hbx; simp at htr), if_neg (by intro hbx; subst hbx; simp at htr), if_neg (by intro hbx; subst hbx; simp at htr), if_neg (by intro hbx; simp [hbx] at htr)]
    next =>
      simp only [stepCase]
      rw [if_neg (by intro hbx; subst hbx; simp at htr), if_neg (by intro hbx; subst hbx; simp at htr), if_neg (by intro hbx; subst hbx; simp at htr), if_neg (by intro hbx; subst hbx; simp at htr), if_neg (by intro hbx; simp [hbx] at htr)]
    next =>
      simp only [stepCase]
      rw [if_neg (by intro hbx; subst hbx; simp at htr), if_neg (by intro hbx; subst hbx; simp at htr), if_neg (by intro hbx; subst hbx; simp at htr), if_neg (by intro hbx; subst hbx; simp at htr), if_neg (by intro hbx; simp [hbx] at htr)]
    next =>
      simp only [stepCase]
      rw [if_neg (by intro hbx; subst hbx; simp at htr), if_neg (by intro hbx; subst hbx; simp at htr), if_neg (by intro hbx; subst hbx; simp at htr), if_neg (by intro hbx; subst hbx; simp at htr), if_neg (by intro hbx; simp [hbx] at htr)]
    next =>
      simp only [stepCase]
      rw [if_neg (by intro hbx; subst hbx; simp at htr), if_neg (by intro hbx; subst hbx; simp at htr), if_neg (by intro hbx; subst hbx; simp at htr), if_neg (by intro hbx; subst hbx; simp at htr), if_neg (by intro hbx; simp [hbx] at htr)]
    next =>
      simp only [stepCase]
      rw [if_neg (by intro hbx; subst hbx; simp at htr), if_neg (by intro hbx; subst hbx; simp at htr), if_neg (by intro hbx; subst hbx; simp at htr), if_neg (by intro hbx; subst hbx; simp at htr), if_neg (by intro hbx; simp [hbx] at htr)]
    next =>
      simp only [stepCase]
      rw [if_neg (by intro hbx; subst hbx; simp at htr), if_neg (by intro hbx; subst hbx; simp at htr), if_neg (by intro hbx; subst hbx; simp at htr), if_neg (by intro hbx; simp [hbx] at htr)]
    next =>
      simp only [stepCase]
      rw [if_neg (by intro hbx; subst hbx; simp at htr), if_neg (by intro hbx; subst hbx; simp at htr)]
    next =>
      simp only [stepCase]
      rw [if_neg (by intro hbx; subst hbx; simp at htr)]
    next =>
      simp only [stepCase]
      rw [if_neg (by intro hbx; subst hbx; simp at htr)]
    next =>
      simp only [stepCase]
      rw [if_neg (by intro hbx; subst hbx; simp at htr)]
    next =>
      simp only [stepCase]
      rw [if_neg (by intro hbx; subst hbx; simp at htr)]
    next =>
      simp only [stepCase]
      rw [if_neg (by intro hbx; subst hbx; simp at htr)]
    next =>
      simp only [stepCase]
      rw [if_neg (by intro hbx; subst hbx; simp at htr)]
    next =>
      simp only [stepCase]
      rw [if_neg (by intro hbx; subst hbx; simp at htr), if_neg (by intro hbx; subst hbx; simp at htr), if_neg (by intro hbx; simp [hbx] at htr)]
    next =>
      simp at htr
  · intro hcs
    rcases s with ⟨data, cs, p, pe, eo, pb, err, be, tc, cfk, cnl, ln, ot, sc, ex, de, bo, fo⟩
    dsimp only at hcs ⊢
    have hmem : cs ∈ trailerEofStates := by simpa using hcs
    fin_cases hmem <;> rfl
  · intro hf
    unfold rewindA
    rw [if_pos hf]
  · intro hf hp hb
    unfold rewindA
    rw [if_neg hf, if_pos hp, hb]
  · intro hf hp hb
    unfold rewindA
    rw [if_neg hf, if_neg (not_not_intro hp), hb]

/-- C2 witness: in state 15 the byte `x` fails recognition and rewinds; with
no footers and no counted newline the action restores `pb` and moves the
cursor to `pb - 1`, entering the body sub-machine. -/
theorem claim2_witness :
    stepCase wTrailer 120 = rewindA wTrailer ∧
    rewindA wTrailer = .next { wTrailer with
      pb := if wTrailer.countNewlines > 0 then wTrailer.lastNewline + 1 else wTrailer.pb,
      p := (if wTrailer.countNewlines > 0 then wTrailer.lastNewline + 1 else wTrailer.pb) - 1,
      cs := 34 } :=
  ⟨(claim2_rewind_protocol wTrailer 120 0).1 (by decide),
   (claim2_rewind_protocol wTrailer 120 0).2.2.1 rfl⟩

/-- C6 (amended): any scope a completed run records contains only printable
bytes other than parentheses; an illegal byte inside a scope state mid-input
fails with `ErrScope`; EOF inside a scope state fails with
`ErrScopeIncomplete`.  The claim that a present scope is non-empty is false:
see the counterexample, where `fix(): x` is accepted with an empty scope. -/
theorem claim6_scope_rules (fuel : Nat) (m : St) (input : List Nat) (s a : St)
    (b c : Nat) :
    (machineRunState fuel m input = some a →
      ∀ sc, a.scope = some sc → ∀ x ∈ sc, isScopeByte x = true) ∧
    (scopeEofStates.contains s.cs = true → s.p < s.pe → b ≠ 41 →
      isScopeByte b = false →
      stepCase s b = .halt { s with cs := 0, err := some (errScopeS b s.p) }) ∧
    (scopeEofStates.contains s.cs = true → s.p = s.pe →
      byteAt s.data (s.p - 1) = some c →
      eofSwitch s = .done { s with err := some (errScopeIncompleteS c s.p) }) := by
  refine ⟨?_, ?_, ?_⟩
  · intro h sc hsc
    exact (run_facts fuel m input a h).2.2.2.1 sc hsc
  · intro hcs hplt hb41 hscb
    rcases s with ⟨data, cs, p, pe, eo, pb, err, be, tc, cfk, cnl, ln, ot, sc, ex, de, bo, fo⟩
    dsimp only at hcs hplt hb41 hscb ⊢
    have hmem : cs ∈ scopeEofStates := by simpa using hcs
    fin_cases hmem <;>
      (simp only [stepCase]
       rw [if_neg hb41, if_neg (show ¬isScopeByte b = true by simp [hscb])]
       unfold tr16
       rw [if_pos hplt])
  · intro hcs hp hb
    rcases s with ⟨data, cs, p, pe, eo, pb, err, be, tc, cfk, cnl, ln, ot, sc, ex, de, bo, fo⟩
    dsimp only at hcs hp hb ⊢
    subst hp
    have hmem : cs ∈ scopeEofStates := by simpa using hcs
    fin_cases hmem <;> simp +decide [eofSwitch, hb]

/-- C6 witness: inside scope state 11 the byte `(` is illegal and fails with
`ErrScope` at the current position. -/
theorem claim6_witness :
    stepCase wScope 40 = .halt { wScope with cs := 0, err := some (errScopeS 40 wScope.p) } :=
  (claim6_scope_rules 0 (newMachine false TypeConfig.TypesMinimal) [] wScope wScope 40 0).2.1
    (by decide) (by decide) (by decide) (by decide)

/-- C6 counterexample: `fix(): x` is accepted, and the returned record holds
`scope = some []` — a present but empty scope, contradicting the claim that a
scope consists of at least one byte and that any present scope is non-empty. -/
theorem claim6_counterexample :
    parseMinimal (asciiBytes "fix(): x") =
      some (some { rtype := asciiBytes "fix", scope := some [], exclamation := false,
                   descr := asciiBytes "x", body := [], footers := [] }, none) := by
  decide

/-- C7: footer keys.  The `set_current_footer_key` action stores the
lowercased token with the single canonicalization of `breaking change` to
`breaking-change`; the footer map appends each recognized value, in input
order, to the list held at the stored key, leaving every other key untouched;
and the newline transition of the trailer-value state 90 records the value
under the current key through exactly that append. -/
theorem claim7_footer_keys (s : St) (t : Nat) (tok : List Nat)
    (fs : List (List Nat × List (List Nat))) (k k2 v : List Nat) :
    (textSlice s.data s.pb s.p = some tok →
      setFooterKey s t = .next { s with
        currentFooterKey :=
          if toLowerAscii tok = asciiBytes "breaking change" then asciiBytes "breaking-change"
          else toLowerAscii tok,
        cs := t }) ∧
    lookupFooter (addFooter fs k v) k = lookupFooter fs k ++ [v] ∧
    (k2 ≠ k → lookupFooter (addFooter fs k v) k2 = lookupFooter fs k2) ∧
    (s.cs = 90 → textSlice s.data s.pb s.p = some tok →
      stepCase s 10 = .next { s with
        footers := addFooter s.footers s.currentFooterKey tok,
        countNewlines := s.countNewlines + 1, lastNewline := s.p, cs := 87 }) := by
  refine ⟨?_, ?_, ?_, ?_⟩
  · intro htok
    unfold setFooterKey
    rw [htok]
  · induction fs with
    | nil => simp [addFooter, lookupFooter]
    | cons hd tl ih =>
      obtain ⟨kh, vs⟩ := hd
      by_cases hk : kh = k
      · subst hk
        simp [addFooter, lookupFooter]
      · simp [addFooter, lookupFooter, hk, ih]
  · intro hk2
    induction fs with
    | nil => simp [addFooter, lookupFooter, Ne.symm hk2]
    | cons hd tl ih =>
      obtain ⟨kh, vs⟩ := hd
      by_cases hk : kh = k
      · subst hk
        simp [addFooter, lookupFooter, Ne.symm hk2]
      · by_cases hkk : kh = k2
        · subst hkk
          simp [addFooter, lookupFooter, hk]
        · simp [addFooter, lookupFooter, hk, hkk, ih]
  · intro hcs htok
    rcases s with ⟨data, cs, p, pe, eo, pb, err, be, tc, cfk, cnl, ln, ot, sc, ex, de, bo, fo⟩
    dsimp only at hcs htok ⊢
    subst hcs
    simp only [stepCase]
    rw [htok, if_pos trivial]

/-- C7 witness: the token `BREAKING CHANGE` is lowercased and canonicalized to
`breaking-change` when stored as the current footer key. -/
theorem claim7_witness :
    setFooterKey wFooter 17 = .next { wFooter with
      currentFooterKey := asciiBytes "breaking-change", cs := 17 } := by
  have h := (claim7_footer_keys wFooter 17 (asciiBytes "BREAKING CHANGE") [] [] [] []).1 (by decide)
  rw [h]
  decide

/-- C8: type errors in the minimal dialect.  Mid-input, a byte that matches no
continuation of `fix`/`feat` (case-insensitively) fails with `ErrType` at the
offending byte; EOF inside a keyword fails with `ErrTypeIncomplete` naming the
last consumed byte; and an input that is exactly a valid minimal type fails
with `ErrEarly` naming its last byte, in either best-effort mode. -/
theorem claim8_minimal_type_errors (s : St) (b c : Nat) (input : List Nat) (be : Bool) :
    ((s.cs = 1 ∧ ¬(b = 70 ∨ b = 102)) ∨
     (s.cs = 2 ∧ ¬(b = 69 ∨ b = 101) ∧ ¬(b = 73 ∨ b = 105)) ∨
     (s.cs = 3 ∧ ¬(b = 65 ∨ b = 97)) ∨
     (s.cs = 4 ∧ ¬(b = 84 ∨ b = 116)) ∨
     (s.cs = 13 ∧ ¬(b = 88 ∨ b = 120)) →
     0 < s.pe → s.p ≠ s.pe →
     stepCase s b = .halt { s with cs := 0, err := some (errTypeS b s.p) }) ∧
    ([2, 3, 4, 13].contains s.cs = true → 0 < s.pe → s.p = s.pe →
     byteAt s.data (s.p - 1) = some c →
     eofSwitch s = .done { s with err := some (errTypeIncompleteS c s.p) }) ∧
    (isMinimalTypeBytes input = true →
     machineParse (ampleFuel input) (newMachine be TypeConfig.TypesMinimal) input =
       some (none, some (errEarlyS (input.getLastD 0) ((input.length : Int) - 1)))) := by
  refine ⟨?_, ?_, ?_⟩
  · intro hor hpe hp
    rcases s with ⟨data, cs, p, pe, eo, pb, err, be2, tc, cfk, cnl, ln, ot, sc, ex, de, bo, fo⟩
    dsimp only at hor hpe hp ⊢
    rcases hor with ⟨hcs, hb⟩ | ⟨hcs, hb1, hb2⟩ | ⟨hcs, hb⟩ | ⟨hcs, hb⟩ | ⟨hcs, hb⟩ <;> subst hcs
    · simp only [stepCase]
      rw [if_neg hb]
      unfold tr0
      rw [if_pos hpe, if_pos hp]
    · simp only [stepCase]
      rw [if_neg hb1, if_neg hb2]
      unfold tr0
      rw [if_pos hpe, if_pos hp]
    · simp only [stepCase]
      rw [if_neg hb]
      unfold tr0
      rw [if_pos hpe, if_pos hp]
    · simp only [stepCase]
      rw [if_neg hb]
      unfold tr0
      rw [if_pos hpe, if_pos hp]
    · simp only [stepCase]
      rw [if_neg hb]
      unfold tr0
      rw [if_pos hpe, if_pos hp]
  · intro hmem hpe hp hb
    rcases s with ⟨data, cs, p, pe, eo, pb, err, be2, tc, cfk, cnl, ln, ot, sc, ex, de, bo, fo⟩
    dsimp only at hmem hpe hp hb ⊢
    subst hp
    have hmem2 : cs ∈ [2, 3, 4, 13] := by simpa using hmem
    fin_cases hmem2 <;> simp +decide [eofSwitch, hb, hpe]
  · intro hmin
    rcases input with _ | ⟨b0, _ | ⟨b1, _ | ⟨b2, _ | ⟨b3, _ | ⟨b4, tl⟩⟩⟩⟩⟩
    · simp [isMinimalTypeBytes] at hmin
    · simp [isMinimalTypeBytes] at hmin
    · simp [isMinimalTypeBytes] at hmin
    · have hA : (b0 = 70 ∨ b0 = 102) ∧ (b1 = 73 ∨ b1 = 105) ∧ (b2 = 88 ∨ b2 = 120) := by
        simp [isMinimalTypeBytes, eqCI] at hmin
        tauto
      obtain ⟨h0, h1, h2⟩ := hA
      rcases h0 with h0 | h0 <;> rcases h1 with h1 | h1 <;> rcases h2 with h2 | h2 <;>
        subst h0 <;> subst h1 <;> subst h2 <;> cases be <;> decide
    · have hA : (b0 = 70 ∨ b0 = 102) ∧ (b1 = 69 ∨ b1 = 101) ∧ (b2 = 65 ∨ b2 = 97) ∧
          (b3 = 84 ∨ b3 = 116) := by
        simp [isMinimalTypeBytes, eqCI] at hmin
        tauto
      obtain ⟨h0, h1, h2, h3⟩ := hA
      rcases h0 with h0 | h0 <;> rcases h1 with h1 | h1 <;> rcases h2 with h2 | h2 <;>
        rcases h3 with h3 | h3 <;> subst h0 <;> subst h1 <;> subst h2 <;> subst h3 <;>
        cases be <;> decide
    · simp [isMinimalTypeBytes] at hmin

/-- C8 witness: the input that is exactly `fix` fails with `ErrEarly` naming
its last byte `x` at the last position. -/
theorem claim8_witness :
    machineParse (ampleFuel (asciiBytes "fix")) (newMachine false TypeConfig.TypesMinimal)
        (asciiBytes "fix") =
      some (none, some (errEarlyS ((asciiBytes "fix").getLastD 0)
        (((asciiBytes "fix").length : Int) - 1))) :=
  (claim8_minimal_type_errors (newMachine false TypeConfig.TypesMinimal) 0 0
    (asciiBytes "fix") false).2.2 (by decide)

/-- C9: single-diagnostic discipline.  A completed run never discards a
recorded error; the colon and description-init actions keep an earlier error
instead of overwriting it, both mid-input (`tr6`, `tr10`) and at EOF (the
colon and description-init EOF groups leave the state unchanged when an error
is already recorded).  In particular an `ErrEarly` is never overwritten by a
later `ErrColon`. -/
theorem claim9_single_diagnostic (fuel : Nat) (s s2 : St) (b : Nat) (e : List Nat) :
    (Inv s → mrun fuel s = RunRes.ok s2 → s.err = some e → s2.err = some e) ∧
    (s.err = some e → tr6 s b = .halt { s with cs := 0, err := some e }) ∧
    (s.err = some e → tr10 s b = .halt { s with cs := 0, err := some e }) ∧
    (colonEofStates.contains s.cs = true → s.err = some e → eofSwitch s = .done s) ∧
    (descrInitEofStates.contains s.cs = true → s.err = some e → eofSwitch s = .done s) := by
  refine ⟨?_, ?_, ?_, ?_, ?_⟩
  · intro hInv hrun he
    exact ((mrun_master fuel s hInv).2 s2 hrun).2.2.2.2 e he
  · intro he
    unfold tr6
    rw [if_neg (show ¬s.err = none by rw [he]; simp), he]
  · intro he
    unfold tr10
    rw [if_neg (show ¬s.err = none by rw [he]; simp), he]
  · intro hcs he
    rcases s with ⟨data, cs, p, pe, eo, pb, err, be, tc, cfk, cnl, ln, ot, sc, ex, de, bo, fo⟩
    dsimp only at hcs he ⊢
    subst he
    have hmem : cs ∈ colonEofStates := by simpa using hcs
    fin_cases hmem <;> simp +decide [eofSwitch]
  · intro hcs he
    rcases s with ⟨data, cs, p, pe, eo, pb, err, be, tc, cfk, cnl, ln, ot, sc, ex, de, bo, fo⟩
    dsimp only at hcs he ⊢
    subst he
    have hmem : cs ∈ descrInitEofStates := by simpa using hcs
    fin_cases hmem <;> simp +decide [eofSwitch]

/-- C9 witness: at EOF of `fix!` state 6 carries the recorded `ErrEarly`; the
run completes in one step and the error survives unchanged (it is not
overwritten by the colon diagnostic). -/
theorem claim9_witness : wEarly.err = some (errEarlyS 33 3) := by
  have hInv : Inv wEarly := by
    refine ⟨by decide, by decide, by decide, by decide, by decide, by decide, by decide,
      by decide, by decide, by decide, by decide, by decide, by decide, ?_, ?_, ?_⟩
    · intro e2 he2
      injection he2 with he2
      subst he2
      exact ⟨asciiBytes "early exit after '!' character", 3, by decide, by decide, by decide⟩
    · intro hor
      exact absurd hor (by decide)
    · intro sc2 hsc2
      simp [wEarly] at hsc2
  exact (claim9_single_diagnostic 1 wEarly wEarly 0 (errEarlyS 33 3)).1 hInv (by decide) rfl

end CC
